import Mathlib

/-!
# OpenVSP FEA structure: placement resolver, array expander, symmetry propagator

A shallow embedding of parts of `src/geom_core/FeaStructure.cpp` and of `XSec::Update`
of `src/geom_core/XSec.cpp`.

Conventions of the embedding.

* A C++ `double` is an exact rational `ℚ`; `floor` is `Int.floor`, and the cast
  `(int)` of a floored value is the integer itself (exact whenever the value fits
  in 32 bits, which is the case for every count below the cap of the array
  parameters). Where a property sits on a rounding boundary, the computation is
  embedded a second time with the rounding of IEEE 754 binary64 (section "Binary64
  arithmetic").
* A `std::vector` is a `List`; an access outside the vector, a failed `assert` and
  a division by a zero section length make the embedded function return `none`.
* `VehicleMgr.GetVehicle()` followed by `FindGeom( m_ParentGeomID )` is one
  argument of type `Option _`: `none` when there is no vehicle or no geometry
  with the stored identifier.
-/

namespace OpenVSP

/-! ## Parameters -/

/-- Modelled from the spec: the class `Parm` is declared outside the two source files.
A parameter holds a value and the bounds of its valid range ("clamped via parameter
range limits", "updates the parameter's valid range bounds"). -/
structure Parm where
  val : ℚ
  lower : ℚ
  upper : ℚ
deriving DecidableEq

/-- Modelled from the spec: `Parm::Init( name, group, container, val, lower, upper )`
stores the default value and the two limits. -/
def Parm.Init (val lower upper : ℚ) : Parm :=
  { val := val, lower := lower, upper := upper }

/-- Modelled from the spec: `Parm::Set( val )` stores the value clamped to the valid
range of the parameter. -/
def Parm.Set (p : Parm) (v : ℚ) : Parm :=
  { p with val := if v < p.lower then p.lower else if p.upper < v then p.upper else v }

/-- Modelled from the spec: `Parm::SetLowerUpperLimits( lower, upper )` replaces the
bounds of the valid range; the stored value is clamped by the next `Set`. -/
def Parm.SetLowerUpperLimits (p : Parm) (lower upper : ℚ) : Parm :=
  { p with lower := lower, upper := upper }

/-- Modelled from the spec: `Parm::SetUpperLimit( upper )` replaces the upper bound of
the valid range. -/
def Parm.SetUpperLimit (p : Parm) (upper : ℚ) : Parm :=
  { p with upper := upper }

/-- The values of `vsp::ABS` and `vsp::REL`, the two settings of `m_AbsRelParmFlag`
(`Init( "AbsRelParmFlag", ..., vsp::REL, vsp::ABS, vsp::REL )`). -/
inductive ABS_REL_FLAG where
  | ABS
  | REL
deriving DecidableEq

/-! ## Wing geometry seen by the placement resolver -/

/-- The part of a `WingGeom` that `GetRibPerU`, `CalcNumRibs` and `UpdateParmLimits`
read. `sects` lists `GetWingSect( i )->m_Span()` for `i = 1 .. NumXSec() - 1`
(`none` where `GetWingSect` returns a null pointer); `noEndCapUMin` is
`m_CapUMinOption() == vsp::NO_END_CAP`; `U_max` is `wing_surf.GetUMax()`. -/
structure WingGeom where
  sects : List (Option ℚ)
  noEndCapUMin : Bool
  U_max : ℚ

/-- The loop `for ( size_t i = 1; i < num_wing_sec; i++ ) if ( wing_sec ) span += m_Span()`. -/
def WingGeom.totalSpan (wing : WingGeom) : ℚ :=
  wing.sects.foldl (fun span sec => match sec with
    | some s => span + s
    | none => span) 0

/-- The local variables that the section search of `GetRibPerU` updates. -/
structure SectionSearch where
  span_0 : ℚ
  span_f : ℚ
  wing_sec_span_vec : List ℚ
  curr_sec_ind : Int

/-- The loop "Determine current wing section" of `FeaPart::GetRibPerU`
(lines 1020-1036), started at section index `i`. -/
def GetRibPerU_search (rel_center_location : ℚ) :
    List (Option ℚ) → Nat → SectionSearch → SectionSearch
  | [], _, st => st
  | none :: rest, i, st => GetRibPerU_search rel_center_location rest (i + 1) st
  | some s :: rest, i, st =>
    let span_f := st.span_f + s
    let vec := st.wing_sec_span_vec ++ [span_f - st.span_0]
    let ind : Int :=
      if st.span_0 ≤ rel_center_location ∧ rel_center_location ≤ span_f then (i : Int)
      else st.curr_sec_ind
    GetRibPerU_search rel_center_location rest (i + 1)
      { span_0 := span_f, span_f := span_f, wing_sec_span_vec := vec, curr_sec_ind := ind }

/-- Element `i` of a vector for a signed index: `none` outside the vector. -/
def vecAt (v : List ℚ) (i : Int) : Option ℚ :=
  if i < 0 then none else v[i.toNat]?

/-- `FeaPart::GetRibPerU( rel_center_location )` (lines 971-1056). -/
def GetRibPerU (current_wing : Option WingGeom) (rel_center_location : ℚ) : Option ℚ :=
  match current_wing with
  | none => some 0
  | some wing =>
    let U_max := wing.U_max
    let span := wing.totalSpan
    let st := GetRibPerU_search rel_center_location wing.sects 1
      { span_0 := 0, span_f := 0, wing_sec_span_vec := [0], curr_sec_ind := -1 }
    let curr_sec_ind := st.curr_sec_ind
    let U_0 : ℚ := if wing.noEndCapUMin then ((curr_sec_ind - 1 : Int) : ℚ) else (curr_sec_ind : ℚ)
    let U_f := U_0 + 1
    let u_step := (U_f - U_0) / U_max
    match vecAt st.wing_sec_span_vec (curr_sec_ind - 1), vecAt st.wing_sec_span_vec curr_sec_ind with
    | some prev, some cur =>
      if cur = 0 ∨ U_max = 0 then none
      else some (U_0 / U_max + ((rel_center_location * span - prev) / cur) * u_step)
    | _, _ => none

/-- The value the placement contract asks for: with `cum` the cumulative spans
`[0, s_1, s_1+s_2, ...]`, the section `k` (1-based) whose interval
`[cum_(k-1), cum_k]` contains `r * S`, interpolated linearly:
`(U0_k + (r*S - cum_(k-1)) / s_k) / U_max`. Written from the words of the claim;
`k` is passed in. -/
def specRibPerU (spans : List ℚ) (noEndCapUMin : Bool) (U_max r : ℚ) (k : Nat) : ℚ :=
  let S := spans.sum
  let start := (spans.take (k - 1)).sum
  let U0 : ℚ := if noEndCapUMin then ((k : ℚ) - 1) else (k : ℚ)
  (U0 + (r * S - start) / spans.getD (k - 1) 0) / U_max

/-! ## Rib arrays and slice arrays -/

/-- The parameters of a `FeaRibArray` that the count derivation and the member
generation read and write. -/
structure FeaRibArray where
  m_AbsRelParmFlag : ABS_REL_FLAG
  m_PositiveDirectionFlag : Bool
  m_AbsStartLocation : Parm
  m_RelStartLocation : Parm
  m_RibAbsSpacing : Parm
  m_RibRelSpacing : Parm
  m_NumRibs : Int
deriving DecidableEq

/-- The constructor `FeaRibArray::FeaRibArray` (lines 3281-3301) together with the
defaults of `FeaPart::FeaPart` for `m_AbsRelParmFlag`. -/
def FeaRibArray.new : FeaRibArray :=
  { m_AbsRelParmFlag := ABS_REL_FLAG.REL
    m_PositiveDirectionFlag := true
    m_AbsStartLocation := Parm.Init 0 0 (10 ^ 12)
    m_RelStartLocation := Parm.Init 0 0 (10 ^ 12)
    m_RibAbsSpacing := Parm.Init (1 / 10) 0 (10 ^ 12)
    m_RibRelSpacing := Parm.Init (1 / 5) 0 (10 ^ 12)
    m_NumRibs := 0 }

/-- `FeaRibArray::CalcNumRibs` (lines 3319-3385). -/
def FeaRibArray.CalcNumRibs (current_wing : Option WingGeom) (a : FeaRibArray) : FeaRibArray :=
  match current_wing with
  | none => a
  | some wing =>
    let span_f := wing.totalSpan
    match a.m_AbsRelParmFlag with
    | ABS_REL_FLAG.REL =>
      let a1 := { a with m_AbsStartLocation := a.m_AbsStartLocation.Set (a.m_RelStartLocation.val * span_f) }
      let a2 := { a1 with m_RibAbsSpacing := a1.m_RibAbsSpacing.Set (a1.m_RibRelSpacing.val * span_f) }
      if a2.m_PositiveDirectionFlag then
        let a3 := { a2 with m_RibRelSpacing :=
          a2.m_RibRelSpacing.SetLowerUpperLimits ((1 - a2.m_RelStartLocation.val) / 100) 1 }
        { a3 with m_NumRibs := 1 + ⌊(1 - a3.m_RelStartLocation.val) / a3.m_RibRelSpacing.val⌋ }
      else
        let a3 := { a2 with m_RibRelSpacing :=
          a2.m_RibRelSpacing.SetLowerUpperLimits (a2.m_RelStartLocation.val / 100) 1 }
        { a3 with m_NumRibs := 1 + ⌊a3.m_RelStartLocation.val / a3.m_RibRelSpacing.val⌋ }
    | ABS_REL_FLAG.ABS =>
      let a1 := { a with m_RelStartLocation := a.m_RelStartLocation.Set (a.m_AbsStartLocation.val / span_f) }
      let a2 := { a1 with m_RibRelSpacing := a1.m_RibRelSpacing.Set (a1.m_RibAbsSpacing.val / span_f) }
      if a2.m_PositiveDirectionFlag then
        let a3 := { a2 with m_RibAbsSpacing :=
          a2.m_RibAbsSpacing.SetLowerUpperLimits ((span_f - a2.m_AbsStartLocation.val) / 100) span_f }
        { a3 with m_NumRibs := 1 + ⌊(span_f - a3.m_AbsStartLocation.val) / a3.m_RibAbsSpacing.val⌋ }
      else
        let a3 := { a2 with m_RibAbsSpacing :=
          a2.m_RibAbsSpacing.SetLowerUpperLimits (a2.m_AbsStartLocation.val / 100) span_f }
        { a3 with m_NumRibs := 1 + ⌊span_f / a3.m_RibAbsSpacing.val⌋ }

/-- The values of `rel_center_location` in the loop of
`FeaRibArray::CreateFeaRibArray` (lines 3410-3419), one per member `i < m_NumRibs`,
in loop order. -/
def FeaRibArray.CreateFeaRibArray_locations (a : FeaRibArray) : List ℚ :=
  (List.range a.m_NumRibs.toNat).map (fun (i : Nat) =>
    let dir : ℚ := if ¬ a.m_PositiveDirectionFlag then -1 else 1
    a.m_RelStartLocation.val + dir * (i : ℚ) * a.m_RibRelSpacing.val)

/-- The parameters of a `FeaSliceArray` that the count derivation reads and writes. -/
structure FeaSliceArray where
  m_AbsRelParmFlag : ABS_REL_FLAG
  m_PositiveDirectionFlag : Bool
  m_AbsStartLocation : Parm
  m_RelStartLocation : Parm
  m_SliceAbsSpacing : Parm
  m_SliceRelSpacing : Parm
  m_NumSlices : Int
deriving DecidableEq

/-- The constructor `FeaSliceArray::FeaSliceArray` (lines 3521-3547). -/
def FeaSliceArray.new : FeaSliceArray :=
  { m_AbsRelParmFlag := ABS_REL_FLAG.REL
    m_PositiveDirectionFlag := true
    m_AbsStartLocation := Parm.Init 0 0 (10 ^ 12)
    m_RelStartLocation := Parm.Init 0 0 (10 ^ 12)
    m_SliceAbsSpacing := Parm.Init (1 / 5) 0 (10 ^ 12)
    m_SliceRelSpacing := Parm.Init (1 / 5) 0 (10 ^ 12)
    m_NumSlices := 0 }

/-- `FeaSliceArray::CalcNumSlices` (lines 3559-3651). The argument `current_geom` is
`none` when the parent geometry is not found, and otherwise holds `perp_dist`, the
extent of the bounding box perpendicular to the slice plane (or the spine length)
that lines 3572-3615 obtain from the surface library. -/
def FeaSliceArray.CalcNumSlices (current_geom : Option ℚ) (a : FeaSliceArray) : FeaSliceArray :=
  match current_geom with
  | none => a
  | some perp_dist =>
    match a.m_AbsRelParmFlag with
    | ABS_REL_FLAG.REL =>
      let a1 := { a with m_AbsStartLocation := a.m_AbsStartLocation.Set (a.m_RelStartLocation.val * perp_dist) }
      let a2 := { a1 with m_SliceAbsSpacing := a1.m_SliceAbsSpacing.Set (a1.m_SliceRelSpacing.val * perp_dist) }
      if a2.m_PositiveDirectionFlag then
        let a3 := { a2 with m_SliceRelSpacing :=
          a2.m_SliceRelSpacing.SetLowerUpperLimits ((1 - a2.m_RelStartLocation.val) / 100) 1 }
        { a3 with m_NumSlices := 1 + ⌊(1 - a3.m_RelStartLocation.val) / a3.m_SliceRelSpacing.val⌋ }
      else
        let a3 := { a2 with m_SliceRelSpacing :=
          a2.m_SliceRelSpacing.SetLowerUpperLimits (a2.m_RelStartLocation.val / 100) 1 }
        { a3 with m_NumSlices := 1 + ⌊a3.m_RelStartLocation.val / a3.m_SliceRelSpacing.val⌋ }
    | ABS_REL_FLAG.ABS =>
      let a1 := { a with m_RelStartLocation := a.m_RelStartLocation.Set (a.m_AbsStartLocation.val / perp_dist) }
      let a2 := { a1 with m_SliceRelSpacing := a1.m_SliceRelSpacing.Set (a1.m_SliceAbsSpacing.val / perp_dist) }
      if a2.m_PositiveDirectionFlag then
        let a3 := { a2 with m_SliceAbsSpacing :=
          a2.m_SliceAbsSpacing.SetLowerUpperLimits ((perp_dist - a2.m_AbsStartLocation.val) / 100) perp_dist }
        { a3 with m_NumSlices := 1 + ⌊(perp_dist - a3.m_AbsStartLocation.val) / a3.m_SliceAbsSpacing.val⌋ }
      else
        let a3 := { a2 with m_SliceAbsSpacing :=
          a2.m_SliceAbsSpacing.SetLowerUpperLimits (a2.m_AbsStartLocation.val / 100) perp_dist }
        { a3 with m_NumSlices := 1 + ⌊perp_dist / a3.m_SliceAbsSpacing.val⌋ }

/-- The rib array `a` with the stored value of `m_RibRelSpacing` equal to `s`. -/
def FeaRibArray.withRelSpacing (a : FeaRibArray) (s : ℚ) : FeaRibArray :=
  { a with m_RibRelSpacing := { a.m_RibRelSpacing with val := s } }

/-- Point `i` of the arithmetic progression `start + dir * i * spacing` of a rib array in
relative mode, with `dir = +1` for the positive and `-1` for the negative direction.
Written from the words of the claim on the generated members. -/
def FeaRibArray.progression (a : FeaRibArray) (i : Nat) : ℚ :=
  a.m_RelStartLocation.val +
    (if a.m_PositiveDirectionFlag then (1 : ℚ) else -1) * (i : ℚ) * a.m_RibRelSpacing.val

/-! ## Sample inputs -/

/-- A wing of two sections of span 5 each, no end caps: `U_max = 2`. -/
def wing_5_5 : WingGeom :=
  { sects := [some 5, some 5], noEndCapUMin := true, U_max := 2 }

/-- A wing of two sections of spans 2 and 8, no end caps: `U_max = 2`. -/
def wing_2_8 : WingGeom :=
  { sects := [some 2, some 8], noEndCapUMin := true, U_max := 2 }

/-- A wing of two sections of spans 2 and 8 with a root cap and a tip cap: `U_max = 4`. -/
def wing_2_8_capped : WingGeom :=
  { sects := [some 2, some 8], noEndCapUMin := false, U_max := 4 }

/-- A rib array in absolute mode, negative direction, starting at 4 with spacing 1. -/
def ribArray_abs_negative : FeaRibArray :=
  { FeaRibArray.new with
    m_AbsRelParmFlag := ABS_REL_FLAG.ABS
    m_PositiveDirectionFlag := false
    m_AbsStartLocation := Parm.Init 4 0 (10 ^ 12)
    m_RibAbsSpacing := Parm.Init 1 0 (10 ^ 12) }

/-- A rib array in relative mode, positive direction, starting at 7/32 = 0.21875 with
relative spacing 1/128 = 0.0078125, which is `( 1 - 0.21875 ) / 100`. -/
def ribArray_at_lower_limit : FeaRibArray :=
  { FeaRibArray.new with
    m_RelStartLocation := Parm.Init (7 / 32) 0 (10 ^ 12)
    m_RibRelSpacing := Parm.Init (1 / 128) 0 (10 ^ 12) }

/-- A slice array in relative mode, positive direction, starting at 7/32 with relative
spacing 1/128. -/
def sliceArray_at_lower_limit : FeaSliceArray :=
  { FeaSliceArray.new with
    m_RelStartLocation := Parm.Init (7 / 32) 0 (10 ^ 12)
    m_SliceRelSpacing := Parm.Init (1 / 128) 0 (10 ^ 12) }

/-- A rib array in relative mode, positive direction, start 0, relative spacing 0.25. -/
def ribArray_quarter : FeaRibArray :=
  { FeaRibArray.new with m_RibRelSpacing := Parm.Init (1 / 4) 0 (10 ^ 12) }

/-! ## Surfaces, parent geometry and parts -/

/-- The values of `vsp::CFD_NORMAL`, `vsp::CFD_STRUCTURE` and `vsp::CFD_STIFFENER` that
`SetSurfCfdType` receives in this file. -/
inductive CFD_TYPE where
  | CFD_NORMAL
  | CFD_STRUCTURE
  | CFD_STIFFENER
deriving DecidableEq

/-- Modelled from the spec: the class `VspSurf` is declared outside the two source
files. A surface is a geometric content `core` (opaque here), its normal-flip flag
("compare the new surface's normal-flip flag against the parent surface's; invert if
they disagree") and its CFD type. -/
structure VspSurf (Core : Type) where
  core : Core
  m_FlipNormal : Bool
  m_SurfCfdType : CFD_TYPE
deriving DecidableEq

/-- Modelled from the spec: the default constructor `VspSurf()`, normal not flipped. -/
def VspSurf.new {Core : Type} [Inhabited Core] : VspSurf Core :=
  { core := default, m_FlipNormal := false, m_SurfCfdType := CFD_TYPE.CFD_NORMAL }

/-- Modelled from the spec: `VspSurf::GetFlipNormal()` reads the normal-flip flag. -/
def VspSurf.GetFlipNormal {Core : Type} (s : VspSurf Core) : Bool :=
  s.m_FlipNormal

/-- Modelled from the spec: `VspSurf::FlipNormal()` inverts the normal-flip flag. -/
def VspSurf.FlipNormal {Core : Type} (s : VspSurf Core) : VspSurf Core :=
  { s with m_FlipNormal := !s.m_FlipNormal }

/-- Modelled from the spec: `VspSurf::SetSurfCfdType( type )` stores the CFD type. -/
def VspSurf.SetSurfCfdType {Core : Type} (s : VspSurf Core) (t : CFD_TYPE) : VspSurf Core :=
  { s with m_SurfCfdType := t }

/-- What the code obtains from the parent shape `veh->FindGeom( m_ParentGeomID )`, from
the surface library and from the structure manager, all of it declared outside the two
source files and taken as given: the surface vector (`GetSurfVec`), the symmetry index
list of a main surface (`GetSymmIndexs( imain )`, `none` when `imain` is not the index
of a main surface, so that the look-up falls outside the symmetry map), the number of
symmetry copies, the symmetry transforms (`GetFeaTransMatVec`), `VspSurf::Transform`,
the wing sections when the shape is a `WingGeom` (`dynamic_cast`), the number of
surfaces of the part `StructureMgr.GetFeaPart( perp_edge_ID )` (`none` when no part has
that identifier), the extent `perp_dist` perpendicular to an orientation plane, and the
geometry of the primary surfaces that `ComputeRibSurf` (after `GetRibTotalRotation`),
`ComputeSliceSurf`, `FeaSpar::ComputePlanarSurf` and `FeaDome::BuildDomeSurf` construct
from the main surface. The first argument of the last five is `m_MainSurfIndx()`: they
stand for the geometry computed from `surf_vec[m_MainSurfIndx()]`, and the look-up
itself, like every other read of a vector, is made by the embedded code that calls them
(`Geom.surfAt`, `FeaPart.ComputeRibSurf`, `FeaPart.ComputeSliceSurf`, `FeaPart.Update`).
`ComputeRibSurf` then takes `m_IncludedElements()`, the relative centre location,
`m_Theta()` and the perpendicular-edge identifier, `ComputeSliceSurf` takes
`m_IncludedElements()`, the relative centre location, the orientation plane and the
three rotations. -/
structure Geom (Core Mat : Type) where
  surf_vec : List (VspSurf Core)
  GetSymmIndexs : Int → Option (List Nat)
  GetNumSymmCopies : Nat
  GetFeaTransMatVec : List Mat
  Transform : VspSurf Core → Mat → VspSurf Core
  wing : Option WingGeom
  GetFeaPart_surfs : String → Option Nat
  perp_dist : Int → ℚ → ℚ
  ComputeRibSurf : Int → ℚ → ℚ → ℚ → String → VspSurf Core
  ComputeSliceSurf : Int → ℚ → ℚ → ℚ → ℚ → ℚ → ℚ → VspSurf Core
  ComputePlanarSurf : Int → VspSurf Core
  BuildDomeSurf : Int → VspSurf Core

/-- The look-up `surf_vec[m_MainSurfIndx()]` (lines 988, 1072, 1193, 1460, 2050, 2150,
2238, 3405, 3574, 3668): `none` outside the vector, in particular at the initial value
-1 of `m_MainSurfIndx`. -/
def Geom.surfAt {Core Mat : Type} (g : Geom Core Mat) (m_MainSurfIndx : Int) :
    Option (VspSurf Core) :=
  if m_MainSurfIndx < 0 then none else g.surf_vec[m_MainSurfIndx.toNat]?

/-- The values of the enumeration `vsp::FEA_PART_TYPE`, declared outside the two source
files; only their being pairwise distinct matters. -/
def FEA_SLICE : Int := 0

/-- See `FEA_SLICE`. -/
def FEA_RIB : Int := 1

/-- See `FEA_SLICE`. -/
def FEA_SPAR : Int := 2

/-- See `FEA_SLICE`. -/
def FEA_FIX_POINT : Int := 3

/-- See `FEA_SLICE`. -/
def FEA_DOME : Int := 4

/-- See `FEA_SLICE`. -/
def FEA_RIB_ARRAY : Int := 5

/-- See `FEA_SLICE`. -/
def FEA_SLICE_ARRAY : Int := 6

/-- See `FEA_SLICE`. -/
def FEA_SKIN : Int := 7

/-- The value of `vsp::CONST_U`, the last of the orientation planes
`XY_BODY, YZ_BODY, XZ_BODY, XY_ABS, YZ_ABS, XZ_ABS, CONST_U`. -/
def CONST_U : ℚ := 6

/-- The value of `vsp::YZ_BODY`. -/
def YZ_BODY : ℚ := 1

/-- The parameters of a `FeaRib` (those of `FeaPart::FeaPart` and of `FeaRib::FeaRib`). -/
structure FeaRib where
  m_IncludedElements : Parm
  m_AbsRelParmFlag : ABS_REL_FLAG
  m_AbsCenterLocation : Parm
  m_RelCenterLocation : Parm
  m_FeaPropertyIndex : Parm
  m_CapFeaPropertyIndex : Parm
  m_Theta : Parm
  m_PerpendicularEdgeID : String
deriving DecidableEq

/-- The constructors `FeaPart::FeaPart` (lines 810-838) and `FeaRib::FeaRib`
(lines 2545-2549). -/
def FeaRib.new : FeaRib :=
  { m_IncludedElements := Parm.Init 0 0 2
    m_AbsRelParmFlag := ABS_REL_FLAG.REL
    m_AbsCenterLocation := Parm.Init 0 0 (10 ^ 12)
    m_RelCenterLocation := Parm.Init (1 / 2) 0 1
    m_FeaPropertyIndex := Parm.Init 0 0 (10 ^ 12)
    m_CapFeaPropertyIndex := Parm.Init 1 0 (10 ^ 12)
    m_Theta := Parm.Init 0 (-90) 90
    m_PerpendicularEdgeID := "" }

/-- The parameters of a `FeaSlice` (those of `FeaPart::FeaPart` and of
`FeaSlice::FeaSlice`). -/
structure FeaSlice where
  m_IncludedElements : Parm
  m_AbsRelParmFlag : ABS_REL_FLAG
  m_AbsCenterLocation : Parm
  m_RelCenterLocation : Parm
  m_FeaPropertyIndex : Parm
  m_CapFeaPropertyIndex : Parm
  m_OrientationPlane : Parm
  m_XRot : Parm
  m_YRot : Parm
  m_ZRot : Parm
deriving DecidableEq

/-- The constructors `FeaPart::FeaPart` (lines 810-838) and `FeaSlice::FeaSlice`
(lines 2007-2016). -/
def FeaSlice.new : FeaSlice :=
  { m_IncludedElements := Parm.Init 0 0 2
    m_AbsRelParmFlag := ABS_REL_FLAG.REL
    m_AbsCenterLocation := Parm.Init 0 0 (10 ^ 12)
    m_RelCenterLocation := Parm.Init (1 / 2) 0 1
    m_FeaPropertyIndex := Parm.Init 0 0 (10 ^ 12)
    m_CapFeaPropertyIndex := Parm.Init 1 0 (10 ^ 12)
    m_OrientationPlane := Parm.Init YZ_BODY 0 CONST_U
    m_XRot := Parm.Init 0 (-90) 90
    m_YRot := Parm.Init 0 (-90) 90
    m_ZRot := Parm.Init 0 (-90) 90 }

/-- The parameters that `FeaRibArray::AddFeaRib` copies from the array, besides those
of `FeaRibArray`: the remaining ones of `FeaPart::FeaPart` and `m_Theta`,
`m_PerpendicularEdgeID`. -/
structure ArrayCommon where
  m_IncludedElements : Parm
  m_FeaPropertyIndex : Parm
  m_CapFeaPropertyIndex : Parm
  m_Theta : Parm
  m_PerpendicularEdgeID : String
  m_OrientationPlane : Parm
  m_XRot : Parm
  m_YRot : Parm
  m_ZRot : Parm
deriving DecidableEq

/-- The defaults of `FeaPart::FeaPart`, `FeaRibArray::FeaRibArray` and
`FeaSliceArray::FeaSliceArray` for the parameters of `ArrayCommon`. -/
def ArrayCommon.new : ArrayCommon :=
  { m_IncludedElements := Parm.Init 0 0 2
    m_FeaPropertyIndex := Parm.Init 0 0 (10 ^ 12)
    m_CapFeaPropertyIndex := Parm.Init 1 0 (10 ^ 12)
    m_Theta := Parm.Init 0 (-90) 90
    m_PerpendicularEdgeID := ""
    m_OrientationPlane := Parm.Init YZ_BODY 0 CONST_U
    m_XRot := Parm.Init 0 (-90) 90
    m_YRot := Parm.Init 0 (-90) 90
    m_ZRot := Parm.Init 0 (-90) 90 }

/-- The dynamic class of a part, with the parameters of the classes whose `Update` is
followed in detail. -/
inductive FeaPartClass where
  | FeaPart
  | FeaSlice (slice : OpenVSP.FeaSlice)
  | FeaRib (rib : OpenVSP.FeaRib)
  | FeaSpar
  | FeaFixPoint
  | FeaDome
  | FeaSkin
  | FeaRibArray (common : ArrayCommon) (arr : OpenVSP.FeaRibArray)
  | FeaSliceArray (common : ArrayCommon) (arr : OpenVSP.FeaSliceArray)
deriving DecidableEq

/-- A `FeaPart` object: its type tag `m_FeaPartType`, its name, `m_MainSurfIndx`, the
symmetry index list, the surface list, and its dynamic class. -/
structure FeaPart (Core : Type) where
  m_FeaPartType : Int
  m_Name : String
  m_MainSurfIndx : Int
  m_SymmIndexVec : List Nat
  m_FeaPartSurfVec : List (VspSurf Core)
  cls : FeaPartClass

/-- `FeaPart::UpdateSymmIndex` (lines 905-931). On a found parent the result is `none`
when `m_MainSurfIndx()` is not the index of a main surface (the look-up inside
`GetSymmIndexs`, line 923) and when the `assert` of line 927 fails. -/
def FeaPart.UpdateSymmIndex {Core Mat : Type} [Inhabited Core]
    (currgeom : Option (Geom Core Mat)) (p : FeaPart Core) : Option (FeaPart Core) :=
  let p0 := { p with m_SymmIndexVec := [], m_FeaPartSurfVec := [] }
  match currgeom with
  | none => some p0
  | some g =>
    match g.GetSymmIndexs p0.m_MainSurfIndx with
    | none => none
    | some idx =>
      if g.GetNumSymmCopies = idx.length then
        some { p0 with m_SymmIndexVec := idx
                       m_FeaPartSurfVec := List.replicate idx.length VspSurf.new }
      else none

/-- Assignment `v[i] = x` to a vector element; `none` outside the vector. -/
def assignAt {α : Type} (v : List α) (i : Nat) (x : α) : Option (List α) :=
  if i < v.length then some (v.set i x) else none

/-- The loop `for ( j = from; j < from + n; j++ ) v[base + j] = v[base + j - 1]` that
sets up the symmetric copies from the primary surface. -/
def copyFromPrevious {α : Type} (base : Nat) : Nat → Nat → List α → Option (List α)
  | 0, _, v => some v
  | n + 1, j, v =>
    match v[base + j - 1]? with
    | none => none
    | some x =>
      match assignAt v (base + j) x with
      | none => none
      | some v1 => copyFromPrevious base n (j + 1) v1

/-- The loop "Apply Transformations" (lines 893-901, 3442-3450, 3700-3708):
for `j = from .. from + n - 1`, transform surface `base + j` by `transMats[j]` and flip
its normal when the flag differs from that of `surf_vec[j]`. -/
def applyTransformations {Core Mat : Type} (g : Geom Core Mat) (base : Nat) :
    Nat → Nat → List (VspSurf Core) → Option (List (VspSurf Core))
  | 0, _, v => some v
  | n + 1, j, v =>
    match v[base + j]?, g.GetFeaTransMatVec[j]?, g.surf_vec[j]? with
    | some s, some m, some parent =>
      let s1 := g.Transform s m
      let s2 := if parent.GetFlipNormal ≠ s1.GetFlipNormal then s1.FlipNormal else s1
      applyTransformations g base n (j + 1) (v.set (base + j) s2)
    | _, _, _ => none

/-- `FeaPart::UpdateSymmParts` (lines 874-903). -/
def FeaPart.UpdateSymmParts {Core Mat : Type}
    (current_geom : Option (Geom Core Mat)) (p : FeaPart Core) : Option (FeaPart Core) :=
  match current_geom with
  | none => some p
  | some g =>
    if p.m_FeaPartSurfVec.length = 0 then some p
    else
      match applyTransformations g 0 (p.m_SymmIndexVec.length - 1) 1 p.m_FeaPartSurfVec with
      | none => none
      | some v => some { p with m_FeaPartSurfVec := v }

/-- `FeaRib::UpdateParmLimits` (lines 2570-2613). -/
def FeaRib.UpdateParmLimits {Core Mat : Type} (current_wing : Option (Geom Core Mat))
    (r : FeaRib) : Option FeaRib :=
  match current_wing with
  | none => some r
  | some g =>
    match g.wing with
    | none => none
    | some wing =>
      let span := wing.totalSpan
      let r1 := { r with m_RelCenterLocation := r.m_RelCenterLocation.SetUpperLimit span }
      match r1.m_AbsRelParmFlag with
      | ABS_REL_FLAG.REL =>
        some { r1 with m_AbsCenterLocation :=
          r1.m_AbsCenterLocation.Set (span * r1.m_RelCenterLocation.val) }
      | ABS_REL_FLAG.ABS =>
        let r2 := { r1 with m_AbsCenterLocation := r1.m_AbsCenterLocation.SetUpperLimit span }
        some { r2 with m_RelCenterLocation :=
          r2.m_RelCenterLocation.Set (r2.m_AbsCenterLocation.val / span) }

/-- `FeaSlice::UpdateParmLimits` (lines 2036-2104). -/
def FeaSlice.UpdateParmLimits {Core Mat : Type} (current_geom : Option (Geom Core Mat))
    (m_MainSurfIndx : Int) (sl : FeaSlice) : FeaSlice :=
  match current_geom with
  | none => sl
  | some g =>
    let perp_dist := g.perp_dist m_MainSurfIndx sl.m_OrientationPlane.val
    match sl.m_AbsRelParmFlag with
    | ABS_REL_FLAG.REL =>
      { sl with m_AbsCenterLocation :=
        sl.m_AbsCenterLocation.Set (sl.m_RelCenterLocation.val * perp_dist) }
    | ABS_REL_FLAG.ABS =>
      let sl1 := { sl with m_AbsCenterLocation := sl.m_AbsCenterLocation.SetUpperLimit perp_dist }
      { sl1 with m_RelCenterLocation :=
        sl1.m_RelCenterLocation.Set (sl1.m_AbsCenterLocation.val / perp_dist) }

/-- The statements `m_FeaPartSurfVec[0] = primary;` followed by the loop
`for ( j = 1; j < m_SymmIndexVec.size(); j++ ) m_FeaPartSurfVec[j] = m_FeaPartSurfVec[j - 1];`
shared by `FeaSlice::Update`, `FeaRib::Update`, `FeaSpar::ComputePlanarSurf`,
`FeaSkin::BuildSkinSurf` and `FeaDome::BuildDomeSurf`. -/
def setPrimaryAndCopies {Core : Type} (p : FeaPart Core) (primary : VspSurf Core) :
    Option (FeaPart Core) :=
  match assignAt p.m_FeaPartSurfVec 0 primary with
  | none => none
  | some v =>
    match copyFromPrevious 0 (p.m_SymmIndexVec.length - 1) 1 v with
    | none => none
    | some v1 => some { p with m_FeaPartSurfVec := v1 }

/-- The reads of `FeaPart::GetRibTotalRotation` (lines 1058-1160) and of
`FeaPart::ComputeRibSurf` (lines 1164-1431) on a found parent, followed by the geometry
of the rib surface: `none` when `surf_vec[m_MainSurfIndx()]` (lines 1072, 1193, and 988
inside `GetRibPerU`) is outside the surface vector, when the parent is not a wing (the
`assert`s of lines 984 and 1189), when `GetRibPerU` reads outside `wing_sec_span_vec`
(line 1051), or when the perpendicular edge names a part whose surface list is empty
(`part->GetFeaPartSurfVec()[0]`, line 1144). -/
def FeaPart.ComputeRibSurf {Core Mat : Type} (g : Geom Core Mat) (m_MainSurfIndx : Int)
    (m_IncludedElements rel_center_location m_Theta : ℚ) (perp_edge_ID : String) :
    Option (VspSurf Core) :=
  match g.surfAt m_MainSurfIndx with
  | none => none
  | some _ =>
    match g.wing with
    | none => none
    | some wing =>
      match GetRibPerU (some wing) rel_center_location with
      | none => none
      | some _ =>
        if perp_edge_ID ≠ "Trailing Edge" ∧ perp_edge_ID ≠ "Leading Edge" ∧
            perp_edge_ID ≠ "None" ∧ g.GetFeaPart_surfs perp_edge_ID = some 0 then none
        else some (g.ComputeRibSurf m_MainSurfIndx m_IncludedElements rel_center_location
          m_Theta perp_edge_ID)

/-- The read `surf_vec[m_MainSurfIndx()]` of `FeaPart::ComputeSliceSurf` (line 1460) on a
found parent, followed by the geometry of the slice surface: `none` when the index is
outside the surface vector. -/
def FeaPart.ComputeSliceSurf {Core Mat : Type} (g : Geom Core Mat) (m_MainSurfIndx : Int)
    (m_IncludedElements rel_center_location orientation_plane x_rot y_rot z_rot : ℚ) :
    Option (VspSurf Core) :=
  match g.surfAt m_MainSurfIndx with
  | none => none
  | some _ => some (g.ComputeSliceSurf m_MainSurfIndx m_IncludedElements rel_center_location
      orientation_plane x_rot y_rot z_rot)

/-- One pass of the member loop of `FeaRibArray::CreateFeaRibArray` and
`FeaSliceArray::CreateFeaSliceArray` (lines 3423-3450, 3681-3708) for member `i`, with
`n = m_SymmIndexVec.size()` and `main` the primary surface of the member. -/
def createArrayMember {Core Mat : Type} (g : Geom Core Mat) (n : Nat) (wing_surf : VspSurf Core)
    (main : VspSurf Core) (i : Nat) (v : List (VspSurf Core)) : Option (List (VspSurf Core)) :=
  match assignAt v (i * n) main with
  | none => none
  | some v1 =>
    match v1[n * i]? with
    | none => none
    | some s =>
      let v2 := if s.GetFlipNormal ≠ wing_surf.GetFlipNormal then v1.set (n * i) s.FlipNormal else v1
      match copyFromPrevious (n * i) (n - 1) 1 v2 with
      | none => none
      | some v3 => applyTransformations g (n * i) (n - 1) 1 v3

/-- The member loop `for ( size_t i = 0; i < m_NumRibs; i++ )` of the two array classes,
run for `count` members from member `i`, `mainOf i` being the primary surface of
member `i` (`none` when its computation reads outside a vector). -/
def createArrayLoop {Core Mat : Type} (g : Geom Core Mat) (n : Nat) (wing_surf : VspSurf Core)
    (mainOf : Nat → Option (VspSurf Core)) :
    Nat → Nat → List (VspSurf Core) → Option (List (VspSurf Core))
  | 0, _, v => some v
  | count + 1, i, v =>
    match mainOf i with
    | none => none
    | some main =>
      match createArrayMember g n wing_surf main i v with
      | none => none
      | some v1 => createArrayLoop g n wing_surf mainOf count (i + 1) v1

/-- The virtual `Update()` of a part: `FeaPart::Update` (line 845), `FeaSlice::Update`
(2018), `FeaSpar::Update` (2126), `FeaRib::Update` (2551), `FeaFixPoint::Update` (2671),
`FeaSkin::Update` (2990), `FeaDome::Update` (3063), `FeaRibArray::Update` (3308) and
`FeaSliceArray::Update` (3549), as far as the surface list, the counts and the
location parameters go. On a found parent every look-up `surf_vec[m_MainSurfIndx()]`
is made through `Geom.surfAt` where the source makes it (for a slice in
`UpdateParmLimits`, line 2050, before anything else; for a rib and a spar only when the
surface list is not empty; for an array in `CalcNumSlices`, `CreateFeaRibArray` and
`CreateFeaSliceArray` whatever the count), and the result is `none` when it is outside
the vector. The fields `m_SplitSurfIndex` and `m_BorderFlag` of a fix point and the
section parameters of a spar are not part of `FeaPart` here. -/
def FeaPart.Update {Core Mat : Type} [Inhabited Core]
    (geom : Option (Geom Core Mat)) (p : FeaPart Core) : Option (FeaPart Core) :=
  match p.cls with
  | FeaPartClass.FeaPart => some p
  | FeaPartClass.FeaSlice sl =>
    match geom with
    | none =>
      let p1 := { p with cls := FeaPartClass.FeaSlice sl }
      if 0 < p1.m_FeaPartSurfVec.length then setPrimaryAndCopies p1 VspSurf.new else some p1
    | some g =>
      match g.surfAt p.m_MainSurfIndx with
      | none => none
      | some _ =>
        let sl1 := sl.UpdateParmLimits geom p.m_MainSurfIndx
        let p1 := { p with cls := FeaPartClass.FeaSlice sl1 }
        if 0 < p1.m_FeaPartSurfVec.length then
          match FeaPart.ComputeSliceSurf g p1.m_MainSurfIndx sl1.m_IncludedElements.val
              sl1.m_RelCenterLocation.val sl1.m_OrientationPlane.val
              sl1.m_XRot.val sl1.m_YRot.val sl1.m_ZRot.val with
          | none => none
          | some primary => setPrimaryAndCopies p1 primary
        else some p1
  | FeaPartClass.FeaRib r =>
    match r.UpdateParmLimits geom with
    | none => none
    | some r1 =>
      let p1 := { p with cls := FeaPartClass.FeaRib r1 }
      if 0 < p1.m_FeaPartSurfVec.length then
        match geom with
        | none => setPrimaryAndCopies p1 VspSurf.new
        | some g =>
          match FeaPart.ComputeRibSurf g p1.m_MainSurfIndx r1.m_IncludedElements.val
              r1.m_RelCenterLocation.val r1.m_Theta.val r1.m_PerpendicularEdgeID with
          | none => none
          | some primary => setPrimaryAndCopies p1 primary
      else some p1
  | FeaPartClass.FeaSpar =>
    match geom with
    | none => some p
    | some g =>
      if p.m_FeaPartSurfVec.length = 0 then some p
      else
        match g.wing with
        | none => none
        | some _ =>
          match g.surfAt p.m_MainSurfIndx with
          | none => none
          | some _ => setPrimaryAndCopies p (g.ComputePlanarSurf p.m_MainSurfIndx)
  | FeaPartClass.FeaFixPoint => some { p with m_FeaPartSurfVec := [] }
  | FeaPartClass.FeaSkin =>
    match geom with
    | none => some p
    | some g =>
      match p.m_SymmIndexVec[0]? with
      | none => none
      | some k =>
        match g.surf_vec[k]? with
        | none => none
        | some s => setPrimaryAndCopies p (s.SetSurfCfdType CFD_TYPE.CFD_NORMAL)
  | FeaPartClass.FeaDome =>
    match geom with
    | none => some p
    | some g =>
      if p.m_FeaPartSurfVec.length = 0 then some p
      else setPrimaryAndCopies p (g.BuildDomeSurf p.m_MainSurfIndx)
  | FeaPartClass.FeaRibArray c a =>
    match geom with
    | none =>
      if a.m_NumRibs < 0 ∧ p.m_SymmIndexVec.length ≠ 0 then none
      else
        let v : List (VspSurf Core) :=
          List.replicate (p.m_SymmIndexVec.length * a.m_NumRibs.toNat) VspSurf.new
        some { p with m_FeaPartSurfVec := v }
    | some g =>
      match g.wing with
      | none => none
      | some wing =>
        let a1 := a.CalcNumRibs (some wing)
        if a1.m_NumRibs < 0 then none
        else
          let n := p.m_SymmIndexVec.length
          let v := List.replicate (n * a1.m_NumRibs.toNat) (VspSurf.new : VspSurf Core)
          match g.surfAt p.m_MainSurfIndx with
          | none => none
          | some wing_surf =>
            let mainOf : Nat → Option (VspSurf Core) := fun i =>
              let dir : ℚ := if ¬ a1.m_PositiveDirectionFlag then -1 else 1
              FeaPart.ComputeRibSurf g p.m_MainSurfIndx c.m_IncludedElements.val
                (a1.m_RelStartLocation.val + dir * (i : ℚ) * a1.m_RibRelSpacing.val)
                c.m_Theta.val c.m_PerpendicularEdgeID
            match createArrayLoop g n wing_surf mainOf a1.m_NumRibs.toNat 0 v with
            | none => none
            | some v1 =>
              some { p with cls := FeaPartClass.FeaRibArray c a1, m_FeaPartSurfVec := v1 }
  | FeaPartClass.FeaSliceArray c a =>
    match geom with
    | none =>
      if a.m_NumSlices < 0 ∧ p.m_SymmIndexVec.length ≠ 0 then none
      else
        let v : List (VspSurf Core) :=
          List.replicate (p.m_SymmIndexVec.length * a.m_NumSlices.toNat) VspSurf.new
        some { p with m_FeaPartSurfVec := v }
    | some g =>
      match g.surfAt p.m_MainSurfIndx with
      | none => none
      | some current_surf =>
        let a1 := a.CalcNumSlices (some (g.perp_dist p.m_MainSurfIndx c.m_OrientationPlane.val))
        if a1.m_NumSlices < 0 then none
        else
          let n := p.m_SymmIndexVec.length
          let v := List.replicate (n * a1.m_NumSlices.toNat) (VspSurf.new : VspSurf Core)
          let mainOf : Nat → Option (VspSurf Core) := fun i =>
            let dir : ℚ := if ¬ a1.m_PositiveDirectionFlag then -1 else 1
            FeaPart.ComputeSliceSurf g p.m_MainSurfIndx c.m_IncludedElements.val
              (a1.m_RelStartLocation.val + dir * (i : ℚ) * a1.m_SliceRelSpacing.val)
              c.m_OrientationPlane.val c.m_XRot.val c.m_YRot.val c.m_ZRot.val
          match createArrayLoop g n current_surf mainOf a1.m_NumSlices.toNat 0 v with
          | none => none
          | some v1 =>
            some { p with cls := FeaPartClass.FeaSliceArray c a1, m_FeaPartSurfVec := v1 }

/-- `FeaStructure::FeaPartIsFixPoint` (lines 507-520) for the part itself. -/
def FeaPart.IsFixPoint {Core : Type} (p : FeaPart Core) : Bool :=
  p.m_FeaPartType = FEA_FIX_POINT

/-- `FeaStructure::FeaPartIsArray` (lines 536-549) for the part itself. -/
def FeaPart.IsArray {Core : Type} (p : FeaPart Core) : Bool :=
  p.m_FeaPartType = FEA_RIB_ARRAY ∨ p.m_FeaPartType = FEA_SLICE_ARRAY

/-- The body of the loop of `FeaStructure::UpdateFeaParts` (lines 426-443) for one part. -/
def FeaPart.UpdateInStructure {Core Mat : Type} [Inhabited Core]
    (geom : Option (Geom Core Mat)) (p : FeaPart Core) : Option (FeaPart Core) :=
  match p.UpdateSymmIndex geom with
  | none => none
  | some p1 =>
    if p1.IsFixPoint ∧ p1.cls ≠ FeaPartClass.FeaFixPoint then none
    else
      match p1.Update geom with
      | none => none
      | some p2 =>
        if ¬ p2.IsFixPoint ∧ ¬ p2.IsArray then p2.UpdateSymmParts geom
        else some p2

/-- Modelled from the spec: the class `SubSurface` is declared outside the two source
files; of a sub-surface only its name and its type tag are kept. -/
structure SubSurface where
  m_Name : String
  m_Type : Int
deriving DecidableEq

/-- A `FeaStructure`: the part list `m_FeaPartVec`, the running counter
`m_FeaPartCount`, `m_MainSurfIndx` and the sub-surface list `m_FeaSubSurfVec`. -/
structure FeaStructure (Core : Type) where
  m_FeaPartVec : List (FeaPart Core)
  m_FeaPartCount : Nat
  m_MainSurfIndx : Int
  m_FeaSubSurfVec : List SubSurface := []

/-- The loop `for ( i = 0; i < m_FeaPartVec.size(); i++ )` of
`FeaStructure::UpdateFeaParts` over the remaining parts. -/
def UpdateFeaParts_loop {Core Mat : Type} [Inhabited Core] (geom : Option (Geom Core Mat)) :
    List (FeaPart Core) → Option (List (FeaPart Core))
  | [] => some []
  | p :: rest =>
    match p.UpdateInStructure geom with
    | none => none
    | some p1 =>
      match UpdateFeaParts_loop geom rest with
      | none => none
      | some rest1 => some (p1 :: rest1)

/-- `FeaStructure::UpdateFeaParts` (lines 422-445). -/
def FeaStructure.UpdateFeaParts {Core Mat : Type} [Inhabited Core]
    (geom : Option (Geom Core Mat)) (st : FeaStructure Core) : Option (FeaStructure Core) :=
  match UpdateFeaParts_loop geom st.m_FeaPartVec with
  | none => none
  | some parts => some { st with m_FeaPartVec := parts }

/-- `FeaStructure::ValidFeaPartInd` (lines 410-420). -/
def FeaStructure.ValidFeaPartInd {Core : Type} (st : FeaStructure Core) (ind : Int) : Bool :=
  (0 : Int) < st.m_FeaPartVec.length ∧ 0 ≤ ind ∧ ind < st.m_FeaPartVec.length

/-- `FeaStructure::DelFeaPart` (lines 210-217). -/
def FeaStructure.DelFeaPart {Core : Type} (st : FeaStructure Core) (ind : Int) :
    FeaStructure Core :=
  if st.ValidFeaPartInd ind then
    { st with m_FeaPartVec := st.m_FeaPartVec.eraseIdx ind.toNat }
  else st

/-- Modelled from the spec: the overload `FeaStructure::AddFeaPart( FeaPart* )` is defined
outside the two source files; it "appends each to the structure's part list". -/
def FeaStructure.AddFeaPart {Core : Type} (st : FeaStructure Core) (feaprt : FeaPart Core) :
    FeaStructure Core :=
  { st with m_FeaPartVec := st.m_FeaPartVec ++ [feaprt] }

/-- The rib that `FeaRibArray::AddFeaRib` (lines 3455-3486) configures, before its three
update calls: a fresh `FeaRib` (type tag `FEA_RIB`, `m_MainSurfIndx` at its initial
value -1) with the parameters copied from the array. -/
def FeaRibArray.AddFeaRib_configure {Core : Type} (c : ArrayCommon) (a : FeaRibArray)
    (m_Name : String) (center_location : ℚ) (ind : Nat) : FeaPart Core :=
  let r0 := FeaRib.new
  let r1 := { r0 with m_IncludedElements := r0.m_IncludedElements.Set c.m_IncludedElements.val }
  let r2 := match a.m_AbsRelParmFlag with
    | ABS_REL_FLAG.REL =>
      { r1 with m_RelCenterLocation := r1.m_RelCenterLocation.Set center_location }
    | ABS_REL_FLAG.ABS =>
      { r1 with m_AbsCenterLocation := r1.m_AbsCenterLocation.Set center_location }
  let r3 := { r2 with m_AbsRelParmFlag := a.m_AbsRelParmFlag }
  let r4 := { r3 with m_FeaPropertyIndex := r3.m_FeaPropertyIndex.Set c.m_FeaPropertyIndex.val }
  let r5 := { r4 with
    m_CapFeaPropertyIndex := r4.m_CapFeaPropertyIndex.Set c.m_CapFeaPropertyIndex.val }
  let r6 := { r5 with m_Theta := r5.m_Theta.Set c.m_Theta.val }
  let r7 := { r6 with m_PerpendicularEdgeID := c.m_PerpendicularEdgeID }
  { m_FeaPartType := FEA_RIB
    m_Name := m_Name ++ "_Rib_" ++ toString ind
    m_MainSurfIndx := -1
    m_SymmIndexVec := []
    m_FeaPartSurfVec := []
    cls := FeaPartClass.FeaRib r7 }

/-- The three calls `UpdateSymmIndex(); Update(); UpdateSymmParts();` that end
`AddFeaRib` and `AddFeaSlice`. -/
def FeaPart.updateAll {Core Mat : Type} [Inhabited Core]
    (geom : Option (Geom Core Mat)) (p : FeaPart Core) : Option (FeaPart Core) :=
  match p.UpdateSymmIndex geom with
  | none => none
  | some p1 =>
    match p1.Update geom with
    | none => none
    | some p2 => p2.UpdateSymmParts geom

/-- `FeaRibArray::AddFeaRib` (lines 3455-3486). -/
def FeaRibArray.AddFeaRib {Core Mat : Type} [Inhabited Core] (geom : Option (Geom Core Mat))
    (c : ArrayCommon) (a : FeaRibArray) (m_Name : String) (center_location : ℚ) (ind : Nat) :
    Option (FeaPart Core) :=
  (FeaRibArray.AddFeaRib_configure c a m_Name center_location ind).updateAll geom

/-- The slice that `FeaSliceArray::AddFeaSlice` (lines 3713-3743) configures, before its
three update calls. -/
def FeaSliceArray.AddFeaSlice_configure {Core : Type} (c : ArrayCommon) (a : FeaSliceArray)
    (m_Name : String) (center_location : ℚ) (ind : Nat) : FeaPart Core :=
  let s0 := FeaSlice.new
  let s1 := { s0 with m_IncludedElements := s0.m_IncludedElements.Set c.m_IncludedElements.val }
  let s2 := match a.m_AbsRelParmFlag with
    | ABS_REL_FLAG.REL =>
      { s1 with m_RelCenterLocation := s1.m_RelCenterLocation.Set center_location }
    | ABS_REL_FLAG.ABS =>
      { s1 with m_AbsCenterLocation := s1.m_AbsCenterLocation.Set center_location }
  let s3 := { s2 with m_OrientationPlane := s2.m_OrientationPlane.Set CONST_U }
  let s4 := { s3 with m_AbsRelParmFlag := a.m_AbsRelParmFlag }
  let s5 := { s4 with m_FeaPropertyIndex := s4.m_FeaPropertyIndex.Set c.m_FeaPropertyIndex.val }
  let s6 := { s5 with
    m_CapFeaPropertyIndex := s5.m_CapFeaPropertyIndex.Set c.m_CapFeaPropertyIndex.val }
  { m_FeaPartType := FEA_SLICE
    m_Name := m_Name ++ "_Slice_" ++ toString ind
    m_MainSurfIndx := -1
    m_SymmIndexVec := []
    m_FeaPartSurfVec := []
    cls := FeaPartClass.FeaSlice s6 }

/-- `FeaSliceArray::AddFeaSlice` (lines 3713-3743). -/
def FeaSliceArray.AddFeaSlice {Core Mat : Type} [Inhabited Core] (geom : Option (Geom Core Mat))
    (c : ArrayCommon) (a : FeaSliceArray) (m_Name : String) (center_location : ℚ) (ind : Nat) :
    Option (FeaPart Core) :=
  (FeaSliceArray.AddFeaSlice_configure c a m_Name center_location ind).updateAll geom

/-- The value of `center_location` that the loop of `FeaStructure::IndividualizeRibArray`
computes for member `i` (lines 572-581) and passes to `AddFeaRib`. -/
def IndividualizeRibArray_center_location (a : FeaRibArray) (i : Nat) : ℚ :=
  match a.m_AbsRelParmFlag with
  | ABS_REL_FLAG.REL => a.m_RelStartLocation.val + (i : ℚ) * a.m_RibRelSpacing.val
  | ABS_REL_FLAG.ABS => a.m_AbsStartLocation.val + (i : ℚ) * a.m_RibAbsSpacing.val

/-- The loop of `FeaStructure::IndividualizeRibArray` (lines 570-585), run for `count`
members from member `i`. -/
def IndividualizeRibArray_loop {Core Mat : Type} [Inhabited Core] (geom : Option (Geom Core Mat))
    (c : ArrayCommon) (a : FeaRibArray) (m_Name : String) :
    Nat → Nat → FeaStructure Core → Option (FeaStructure Core)
  | 0, _, st => some st
  | count + 1, i, st =>
    match FeaRibArray.AddFeaRib geom c a m_Name (IndividualizeRibArray_center_location a i) i with
    | none => none
    | some rib => IndividualizeRibArray_loop geom c a m_Name count (i + 1) (st.AddFeaPart rib)

/-- `FeaStructure::IndividualizeRibArray` (lines 551-589). -/
def FeaStructure.IndividualizeRibArray {Core Mat : Type} [Inhabited Core]
    (geom : Option (Geom Core Mat)) (st : FeaStructure Core) (rib_array_ind : Int) :
    Option (FeaStructure Core) :=
  if ¬ st.ValidFeaPartInd rib_array_ind then some st
  else
    match st.m_FeaPartVec[rib_array_ind.toNat]? with
    | none => none
    | some prt =>
      if prt.m_FeaPartType = FEA_RIB_ARRAY then
        match prt.cls with
        | FeaPartClass.FeaRibArray c a =>
          if a.m_NumRibs < 0 then none
          else
            match IndividualizeRibArray_loop geom c a prt.m_Name a.m_NumRibs.toNat 0 st with
            | none => none
            | some st1 => some (st1.DelFeaPart rib_array_ind)
        | _ => none
      else some st

/-- The value of `center_location` that the loop of
`FeaStructure::IndividualizeSliceArray` computes for member `i` (lines 612-621) and passes
to `AddFeaSlice`. -/
def IndividualizeSliceArray_center_location (a : FeaSliceArray) (i : Nat) : ℚ :=
  match a.m_AbsRelParmFlag with
  | ABS_REL_FLAG.REL => a.m_RelStartLocation.val + (i : ℚ) * a.m_SliceRelSpacing.val
  | ABS_REL_FLAG.ABS => a.m_AbsStartLocation.val + (i : ℚ) * a.m_SliceAbsSpacing.val

/-- The loop of `FeaStructure::IndividualizeSliceArray` (lines 610-625), run for `count`
members from member `i`. -/
def IndividualizeSliceArray_loop {Core Mat : Type} [Inhabited Core]
    (geom : Option (Geom Core Mat)) (c : ArrayCommon) (a : FeaSliceArray) (m_Name : String) :
    Nat → Nat → FeaStructure Core → Option (FeaStructure Core)
  | 0, _, st => some st
  | count + 1, i, st =>
    match FeaSliceArray.AddFeaSlice geom c a m_Name
        (IndividualizeSliceArray_center_location a i) i with
    | none => none
    | some slice =>
      IndividualizeSliceArray_loop geom c a m_Name count (i + 1) (st.AddFeaPart slice)

/-- `FeaStructure::IndividualizeSliceArray` (lines 591-629). -/
def FeaStructure.IndividualizeSliceArray {Core Mat : Type} [Inhabited Core]
    (geom : Option (Geom Core Mat)) (st : FeaStructure Core) (stiffener_array_ind : Int) :
    Option (FeaStructure Core) :=
  if ¬ st.ValidFeaPartInd stiffener_array_ind then some st
  else
    match st.m_FeaPartVec[stiffener_array_ind.toNat]? with
    | none => none
    | some prt =>
      if prt.m_FeaPartType = FEA_SLICE_ARRAY then
        match prt.cls with
        | FeaPartClass.FeaSliceArray c a =>
          if a.m_NumSlices < 0 then none
          else
            match IndividualizeSliceArray_loop geom c a prt.m_Name a.m_NumSlices.toNat 0 st with
            | none => none
            | some st1 => some (st1.DelFeaPart stiffener_array_ind)
        | _ => none
      else some st

/-! ## Conditions on the parent geometry -/

/-- The parent geometry is consistent: the symmetry index list of every main surface
has as many entries as there are symmetry copies (the `assert` of `UpdateSymmIndex`)
and points into the surface vector, there is at least the primary copy, the transform
list and the surface vector have an entry for every copy, and the index of a main
surface is an index of the surface vector (the main surfaces are its first entries; -1
is the index of none). -/
def Geom.Consistent {Core Mat : Type} (g : Geom Core Mat) : Prop :=
  (∀ (idx : Int) (l : List Nat), g.GetSymmIndexs idx = some l →
    l.length = g.GetNumSymmCopies ∧ ∀ k ∈ l, k < g.surf_vec.length) ∧
  1 ≤ g.GetNumSymmCopies ∧
  g.GetNumSymmCopies ≤ g.GetFeaTransMatVec.length ∧
  g.GetNumSymmCopies ≤ g.surf_vec.length ∧
  (∀ idx : Int, (g.GetSymmIndexs idx).isSome → (g.surfAt idx).isSome)

/-- What `UpdateFeaParts` needs of a part to run through on the parent `g`:
`m_MainSurfIndx()` is the index of a main surface (`GetSymmIndexs`, line 923), a part
tagged `FEA_FIX_POINT` is a `FeaFixPoint` object (the `assert` of line 431), a rib, spar
or rib array has a wing as parent (the `assert`s on `dynamic_cast<WingGeom*>`), the
reads of `GetRibTotalRotation` and `ComputeRibSurf` for a rib and for every member of a
rib array stay inside their vectors (`FeaPart.ComputeRibSurf`), and the count that an
array derives is not negative. -/
def FeaPart.Admissible {Core Mat : Type} (g : Geom Core Mat) (p : FeaPart Core) : Prop :=
  (g.GetSymmIndexs p.m_MainSurfIndx).isSome ∧
  (p.m_FeaPartType = FEA_FIX_POINT → p.cls = FeaPartClass.FeaFixPoint) ∧
  match p.cls with
  | FeaPartClass.FeaRib r =>
    g.wing.isSome ∧
    ∀ r1, r.UpdateParmLimits (some g) = some r1 →
      (FeaPart.ComputeRibSurf g p.m_MainSurfIndx r1.m_IncludedElements.val
        r1.m_RelCenterLocation.val r1.m_Theta.val r1.m_PerpendicularEdgeID).isSome
  | FeaPartClass.FeaSpar => g.wing.isSome
  | FeaPartClass.FeaRibArray c a =>
    g.wing.isSome ∧ 0 ≤ (a.CalcNumRibs g.wing).m_NumRibs ∧
    ∀ i : Nat, (i : Int) < (a.CalcNumRibs g.wing).m_NumRibs →
      (FeaPart.ComputeRibSurf g p.m_MainSurfIndx c.m_IncludedElements.val
        ((a.CalcNumRibs g.wing).m_RelStartLocation.val +
          (if ¬ (a.CalcNumRibs g.wing).m_PositiveDirectionFlag then (-1 : ℚ) else 1) * (i : ℚ) *
            (a.CalcNumRibs g.wing).m_RibRelSpacing.val)
        c.m_Theta.val c.m_PerpendicularEdgeID).isSome
  | FeaPartClass.FeaSliceArray c a =>
    0 ≤ (a.CalcNumSlices (some (g.perp_dist p.m_MainSurfIndx c.m_OrientationPlane.val))).m_NumSlices
  | _ => True

/-- The number of surfaces that `UpdateFeaParts` leaves in a part, by class: none for a
fix point, `N` times the member count for an array, `N` otherwise. -/
def FeaPart.expectedSurfCount {Core : Type} (n : Nat) (p : FeaPart Core) : Nat :=
  match p.cls with
  | FeaPartClass.FeaFixPoint => 0
  | FeaPartClass.FeaRibArray _ a => n * a.m_NumRibs.toNat
  | FeaPartClass.FeaSliceArray _ a => n * a.m_NumSlices.toNat
  | _ => n

/-- The dynamic class of a part without its parameters, as a number: 0 `FeaPart`,
1 `FeaSlice`, 2 `FeaRib`, 3 `FeaSpar`, 4 `FeaFixPoint`, 5 `FeaDome`, 6 `FeaSkin`,
7 `FeaRibArray`, 8 `FeaSliceArray`. -/
def FeaPartClass.kind : FeaPartClass → Nat
  | FeaPartClass.FeaPart => 0
  | FeaPartClass.FeaSlice _ => 1
  | FeaPartClass.FeaRib _ => 2
  | FeaPartClass.FeaSpar => 3
  | FeaPartClass.FeaFixPoint => 4
  | FeaPartClass.FeaDome => 5
  | FeaPartClass.FeaSkin => 6
  | FeaPartClass.FeaRibArray _ _ => 7
  | FeaPartClass.FeaSliceArray _ _ => 8

/-- A surface of the sample geometry: content `k`, normal-flip flag `flip`. -/
def sampleSurf (k : Nat) (flip : Bool) : VspSurf Nat :=
  { core := k, m_FlipNormal := flip, m_SurfCfdType := CFD_TYPE.CFD_NORMAL }

/-- A parent shape with two main surfaces and one planar symmetry: the surface vector
holds the two main surfaces followed by their mirror images (normals flipped), so the
symmetry index list of main surface 0 is `[0, 2]` and that of main surface 1 is
`[1, 3]`; there are two symmetry copies. Surface contents and transforms are numbers;
`Transform` adds 100 times the transform to the content. -/
def geom_two_main : Geom Nat Nat :=
  { surf_vec := [sampleSurf 10 false, sampleSurf 11 false, sampleSurf 12 true, sampleSurf 13 true]
    GetSymmIndexs := fun idx =>
      if idx = 0 then some [0, 2] else if idx = 1 then some [1, 3] else none
    GetNumSymmCopies := 2
    GetFeaTransMatVec := [0, 1, 2, 3]
    Transform := fun s m => { s with core := s.core + 100 * m }
    wing := some wing_5_5
    GetFeaPart_surfs := fun _ => none
    perp_dist := fun _ _ => 10
    ComputeRibSurf := fun _ _ _ _ _ =>
      { core := 20, m_FlipNormal := false, m_SurfCfdType := CFD_TYPE.CFD_STRUCTURE }
    ComputeSliceSurf := fun _ _ _ _ _ _ _ =>
      { core := 21, m_FlipNormal := false, m_SurfCfdType := CFD_TYPE.CFD_STRUCTURE }
    ComputePlanarSurf := fun _ =>
      { core := 22, m_FlipNormal := false, m_SurfCfdType := CFD_TYPE.CFD_STRUCTURE }
    BuildDomeSurf := fun _ =>
      { core := 23, m_FlipNormal := false, m_SurfCfdType := CFD_TYPE.CFD_STRUCTURE } }

/-- A part of the given class and type tag on main surface 0, not yet updated. -/
def samplePart (tag : Int) (name : String) (cls : FeaPartClass) : FeaPart Nat :=
  { m_FeaPartType := tag, m_Name := name, m_MainSurfIndx := 0, m_SymmIndexVec := [],
    m_FeaPartSurfVec := [], cls := cls }

/-- A rib on main surface 0 after `UpdateSymmIndex` and `Update`: symmetry index list
`[0, 2]`, both surfaces equal to the primary rib surface. -/
def rib_before_symm : FeaPart Nat :=
  { m_FeaPartType := FEA_RIB, m_Name := "Rib_0", m_MainSurfIndx := 0, m_SymmIndexVec := [0, 2],
    m_FeaPartSurfVec :=
      [{ core := 20, m_FlipNormal := false, m_SurfCfdType := CFD_TYPE.CFD_STRUCTURE },
       { core := 20, m_FlipNormal := false, m_SurfCfdType := CFD_TYPE.CFD_STRUCTURE }]
    cls := FeaPartClass.FeaRib FeaRib.new }

/-- A structure on main surface 0 with a skin, a rib array whose derived count is 5 and a
slice array whose derived count is 3. -/
def structure_with_arrays : FeaStructure Nat :=
  { m_FeaPartVec :=
      [samplePart FEA_SKIN "Skin" FeaPartClass.FeaSkin,
       samplePart FEA_RIB_ARRAY "RibArray_0"
        (FeaPartClass.FeaRibArray ArrayCommon.new { ribArray_quarter with m_NumRibs := 5 }),
       samplePart FEA_SLICE_ARRAY "SliceArray_1"
        (FeaPartClass.FeaSliceArray ArrayCommon.new { FeaSliceArray.new with m_NumSlices := 3 })]
    m_FeaPartCount := 2
    m_MainSurfIndx := 0 }

/-! ## Edge intersection solver for ribs -/

/-- Modelled from the spec: the class `vec3d` is declared outside the two source files;
a point or vector of space with three coordinates. -/
@[ext]
structure vec3d (K : Type) where
  x : K
  y : K
  z : K

/-- The functions of the C maths library and of `vec3d` that `ComputeRibSurf` calls and
that are defined outside the two source files, taken as given: `sqrt`, `sin`, `cos`,
the constants `PI` and `FLT_EPSILON`, and `signed_angle( a, b, ref )`, the "signed angle
between reference vectors about the plane normal". -/
structure MathLib (K : Type) where
  sqrt : K → K
  sin : K → K
  cos : K → K
  PI : K
  FLT_EPSILON : K
  signed_angle : vec3d K → vec3d K → vec3d K → K

/-- Modelled from the spec: `operator+` of `vec3d`. -/
def vec3d.add {K : Type} [LinearOrderedField K] (a b : vec3d K) : vec3d K :=
  { x := a.x + b.x, y := a.y + b.y, z := a.z + b.z }

/-- Modelled from the spec: `operator-` of `vec3d`. -/
def vec3d.sub {K : Type} [LinearOrderedField K] (a b : vec3d K) : vec3d K :=
  { x := a.x - b.x, y := a.y - b.y, z := a.z - b.z }

/-- Modelled from the spec: `operator/` of `vec3d` by a scalar. -/
def vec3d.sdiv {K : Type} [LinearOrderedField K] (a : vec3d K) (s : K) : vec3d K :=
  { x := a.x / s, y := a.y / s, z := a.z / s }

/-- Modelled from the spec: `dot( a, b )`. -/
def vec3d.dot {K : Type} [LinearOrderedField K] (a b : vec3d K) : K :=
  a.x * b.x + a.y * b.y + a.z * b.z

/-- Modelled from the spec: `cross( a, b )`. -/
def vec3d.cross {K : Type} [LinearOrderedField K] (a b : vec3d K) : vec3d K :=
  { x := a.y * b.z - a.z * b.y, y := a.z * b.x - a.x * b.z, z := a.x * b.y - a.y * b.x }

/-- Modelled from the spec: `vec3d::mag()`, the length of the vector. -/
def vec3d.mag {K : Type} [LinearOrderedField K] (M : MathLib K) (a : vec3d K) : K :=
  M.sqrt (a.x * a.x + a.y * a.y + a.z * a.z)

/-- Modelled from the spec: `vec3d::normalize()` ("unit direction vectors"): the vector
divided by its length, and the zero vector when the length is not positive. -/
def vec3d.normalize {K : Type} [LinearOrderedField K] (M : MathLib K) (a : vec3d K) : vec3d K :=
  let length := a.mag M
  if length ≤ 0 then { x := 0, y := 0, z := 0 }
  else { x := a.x / length, y := a.y / length, z := a.z / length }

/-- Modelled from the spec: `dist( a, b )`, the distance of two points. -/
def vec3d.dist {K : Type} [LinearOrderedField K] (M : MathLib K) (a b : vec3d K) : K :=
  (a.sub b).mag M

/-- The points and numbers that `ComputeRibSurf` obtains from the wing surface before
line 1225: the trailing- and leading-edge points of the rib station
(`u_curve.f( v_min )`, `u_curve.f( v_leading_edge )`), the four corner points of the
wing region (`CompPnt` at `U = 0` and `U = GetUMax()`), and
`wing_bbox.GetLargestDist()`. -/
structure RibRegion (K : Type) where
  trail_edge : vec3d K
  lead_edge : vec3d K
  min_trail_edge : vec3d K
  min_lead_edge : vec3d K
  max_trail_edge : vec3d K
  max_lead_edge : vec3d K
  largestDist : K

/-- "Identify expansion" (lines 1250-1255). -/
def ComputeRibSurf_expan {K : Type} [LinearOrderedField K] (r : RibRegion K) : K :=
  let expan := r.largestDist * (1 / 100000)
  if expan < 1 / 1000000 then 1 / 1000000 else expan

/-- The maths library is the exact real one: `sqrt`, `sin`, `cos` and `PI` are the real
functions and constant, `FLT_EPSILON` is `2^-23`. -/
def MathLib.IsReal (M : MathLib ℝ) : Prop :=
  M.sqrt = Real.sqrt ∧ M.sin = Real.sin ∧ M.cos = Real.cos ∧ M.PI = Real.pi ∧
    M.FLT_EPSILON = 1 / 2 ^ 23

/-- The specification of `signed_angle( a, b, ref )` for unit vectors `a`, `b`
perpendicular to the unit vector `ref`: the angle in `( -PI, PI ]` whose cosine is
`a . b` and whose sine is `( a x b ) . ref`. -/
def MathLib.SignedAngleSpec {K : Type} [LinearOrderedField K] (M : MathLib K) : Prop :=
  ∀ a b ref : vec3d K, a.dot a = 1 → b.dot b = 1 → ref.dot ref = 1 →
    a.dot ref = 0 → b.dot ref = 0 →
    -M.PI < M.signed_angle a b ref ∧ M.signed_angle a b ref ≤ M.PI ∧
    M.cos (M.signed_angle a b ref) = a.dot b ∧
    M.sin (M.signed_angle a b ref) = (a.cross b).dot ref

/-- The rectangular wing region of chord `c` and span `b` in the plane `z = 0`, leading
edge on `x = 0`, trailing edge on `x = c`, inner edge on `y = 0`, outer edge on `y = b`,
with the rib station at span position `y0`. -/
def rectRegion {K : Type} [LinearOrderedField K] (c b y0 largestDist : K) : RibRegion K :=
  { trail_edge := { x := c, y := y0, z := 0 }
    lead_edge := { x := 0, y := y0, z := 0 }
    min_trail_edge := { x := c, y := 0, z := 0 }
    min_lead_edge := { x := 0, y := 0, z := 0 }
    max_trail_edge := { x := c, y := b, z := 0 }
    max_lead_edge := { x := 0, y := b, z := 0 }
    largestDist := largestDist }

/-- A rib array in relative mode, negative direction, relative start 0.5 and relative
spacing 0.125 on a wing of span 10, in the state `CalcNumRibs` leaves it: absolute start
5, absolute spacing 1.25, spacing limits `[0.5 / 100, 1]`, count 5. -/
def ribArray_negative : FeaRibArray :=
  { m_AbsRelParmFlag := ABS_REL_FLAG.REL
    m_PositiveDirectionFlag := false
    m_AbsStartLocation := Parm.Init 5 0 (10 ^ 12)
    m_RelStartLocation := Parm.Init (1 / 2) 0 (10 ^ 12)
    m_RibAbsSpacing := Parm.Init (5 / 4) 0 (10 ^ 12)
    m_RibRelSpacing := Parm.Init (1 / 8) (1 / 200) 1
    m_NumRibs := 5 }

/-- A structure on main surface 0 holding the rib array `ribArray_negative`. -/
def structure_negative_array : FeaStructure Nat :=
  { m_FeaPartVec :=
      [samplePart FEA_RIB_ARRAY "RibArray_0"
        (FeaPartClass.FeaRibArray ArrayCommon.new ribArray_negative)]
    m_FeaPartCount := 1
    m_MainSurfIndx := 0 }

/-- The relative centre location stored in a part that is a rib (`none` for a part of
another class). -/
def FeaPart.ribRelCenter {Core : Type} (p : FeaPart Core) : Option ℚ :=
  match p.cls with
  | FeaPartClass.FeaRib r => some r.m_RelCenterLocation.val
  | _ => none

/-- The settings of a slice or slice array that a created slice is compared on: the
orientation plane, the three rotations, the two property indices and the
included-element mode. -/
structure SliceSettings where
  OrientationPlane : ℚ
  XRot : ℚ
  YRot : ℚ
  ZRot : ℚ
  FeaPropertyIndex : ℚ
  CapFeaPropertyIndex : ℚ
  IncludedElements : ℚ
deriving DecidableEq

/-- The settings stored in the parameters of a slice. -/
def FeaSlice.settings (sl : FeaSlice) : SliceSettings :=
  { OrientationPlane := sl.m_OrientationPlane.val
    XRot := sl.m_XRot.val
    YRot := sl.m_YRot.val
    ZRot := sl.m_ZRot.val
    FeaPropertyIndex := sl.m_FeaPropertyIndex.val
    CapFeaPropertyIndex := sl.m_CapFeaPropertyIndex.val
    IncludedElements := sl.m_IncludedElements.val }

/-- The settings stored in a part that is a slice (`none` for a part of another class). -/
def FeaPart.sliceSettings {Core : Type} (p : FeaPart Core) : Option SliceSettings :=
  match p.cls with
  | FeaPartClass.FeaSlice sl => some sl.settings
  | _ => none

/-- The settings stored in the parameters of a slice array. -/
def ArrayCommon.sliceSettings (c : ArrayCommon) : SliceSettings :=
  { OrientationPlane := c.m_OrientationPlane.val
    XRot := c.m_XRot.val
    YRot := c.m_YRot.val
    ZRot := c.m_ZRot.val
    FeaPropertyIndex := c.m_FeaPropertyIndex.val
    CapFeaPropertyIndex := c.m_CapFeaPropertyIndex.val
    IncludedElements := c.m_IncludedElements.val }

/-- The parameters of a slice array parallel to the body YZ plane, rotated by 30, -15 and
45 degrees about X, Y and Z, with shell property 3, cap property 4 and included-element
mode 2 (`FEA_SHELL_AND_BEAM`). -/
def arrayCommon_rotated : ArrayCommon :=
  { ArrayCommon.new with
    m_IncludedElements := Parm.Init 2 0 2
    m_FeaPropertyIndex := Parm.Init 3 0 (10 ^ 12)
    m_CapFeaPropertyIndex := Parm.Init 4 0 (10 ^ 12)
    m_OrientationPlane := Parm.Init YZ_BODY 0 CONST_U
    m_XRot := Parm.Init 30 (-90) 90
    m_YRot := Parm.Init (-15) (-90) 90
    m_ZRot := Parm.Init 45 (-90) 90 }

/-- A slice array in relative mode, positive direction, start 0, relative spacing 0.5 on
a parent of extent 10, in the state `CalcNumSlices` leaves it: absolute spacing 5,
spacing limits `[1 / 100, 1]`, count 3. -/
def sliceArray_half : FeaSliceArray :=
  { FeaSliceArray.new with
    m_SliceAbsSpacing := Parm.Init 5 0 (10 ^ 12)
    m_SliceRelSpacing := Parm.Init (1 / 2) (1 / 100) 1
    m_NumSlices := 3 }

/-- A structure on main surface 0 holding the slice array `sliceArray_half` with the
parameters `arrayCommon_rotated`. -/
def structure_rotated_slices : FeaStructure Nat :=
  { m_FeaPartVec :=
      [samplePart FEA_SLICE_ARRAY "SliceArray_0"
        (FeaPartClass.FeaSliceArray arrayCommon_rotated sliceArray_half)]
    m_FeaPartCount := 1
    m_MainSurfIndx := 0 }

/-! ## Sample inputs for the parameter limits -/

/-- The parent shape `geom_two_main` as a wing of one section of span 0.5. -/
def geom_short_wing : Geom Nat Nat :=
  { geom_two_main with wing := some { sects := [some (1 / 2)], noEndCapUMin := true, U_max := 1 } }

/-- The values of `Vehicle::REORDER_MOVE_UP`, `REORDER_MOVE_DOWN`, `REORDER_MOVE_TOP` and
`REORDER_MOVE_BOTTOM`, declared outside the two source files; only their being pairwise
distinct matters. -/
def REORDER_MOVE_UP : Int := 0

/-- See `REORDER_MOVE_UP`. -/
def REORDER_MOVE_DOWN : Int := 1

/-- See `REORDER_MOVE_UP`. -/
def REORDER_MOVE_TOP : Int := 2

/-- See `REORDER_MOVE_UP`. -/
def REORDER_MOVE_BOTTOM : Int := 3

/-- `FeaStructure::GetFeaPart` (lines 486-493); a null pointer is `none`. -/
def FeaStructure.GetFeaPart {Core : Type} (st : FeaStructure Core) (ind : Int) :
    Option (FeaPart Core) :=
  if st.ValidFeaPartInd ind then st.m_FeaPartVec[ind.toNat]? else none

/-- `FeaStructure::GetFeaPartName` (lines 495-505). -/
def FeaStructure.GetFeaPartName {Core : Type} (st : FeaStructure Core) (ind : Int) : String :=
  match st.GetFeaPart ind with
  | some fea_part => fea_part.m_Name
  | none => ""

/-- The loop of `ReorderFeaPart` for `REORDER_MOVE_UP` and `REORDER_MOVE_DOWN`
(lines 249-263) from position `i` on: the element at `ind` changes place with its
successor (`down`) or its predecessor (`up`); `skip` is set for the position that the
extra `i++` of line 257 jumps over. The part pointers of the list being pairwise
distinct, `m_FeaPartVec[i] == GetFeaPart( ind )` is `i = ind`. -/
def ReorderFeaPart_swap {α : Type} (down up : Bool) (ind : Nat) :
    Nat → Bool → List α → List α
  | _, _, [] => []
  | i, skip, x :: tl =>
    if skip then ReorderFeaPart_swap down up ind (i + 1) false tl
    else
      match tl with
      | [] => [x]
      | y :: _ =>
        if (down ∧ i = ind) ∨ (up ∧ i + 1 = ind) then
          y :: x :: ReorderFeaPart_swap down up ind (i + 1) true tl
        else x :: ReorderFeaPart_swap down up ind (i + 1) false tl

/-- `FeaStructure::ReorderFeaPart` (lines 219-267). -/
def FeaStructure.ReorderFeaPart {Core : Type} (st : FeaStructure Core) (ind action : Int) :
    FeaStructure Core :=
  if ¬ st.ValidFeaPartInd ind then st
  else
    let moved : List (FeaPart Core) := (st.m_FeaPartVec[ind.toNat]?).toList
    let new_prt_vec : List (FeaPart Core) :=
      if action = REORDER_MOVE_TOP ∨ action = REORDER_MOVE_BOTTOM then
        (if action = REORDER_MOVE_TOP then moved else []) ++
          st.m_FeaPartVec.eraseIdx ind.toNat ++
          (if action = REORDER_MOVE_BOTTOM then moved else [])
      else if action = REORDER_MOVE_UP ∨ action = REORDER_MOVE_DOWN then
        ReorderFeaPart_swap (action = REORDER_MOVE_DOWN) (action = REORDER_MOVE_UP) ind.toNat 0
          false st.m_FeaPartVec
      else []
    { st with m_FeaPartVec := new_prt_vec }

/-- `FeaStructure::ValidFeaSubSurfInd` (lines 330-340). -/
def FeaStructure.ValidFeaSubSurfInd {Core : Type} (st : FeaStructure Core) (ind : Int) : Bool :=
  (0 : Int) < st.m_FeaSubSurfVec.length ∧ 0 ≤ ind ∧ ind < st.m_FeaSubSurfVec.length

/-- `FeaStructure::DelFeaSubSurf` (lines 342-349). -/
def FeaStructure.DelFeaSubSurf {Core : Type} (st : FeaStructure Core) (ind : Int) :
    FeaStructure Core :=
  if st.ValidFeaSubSurfInd ind then
    { st with m_FeaSubSurfVec := st.m_FeaSubSurfVec.eraseIdx ind.toNat }
  else st

/-- `FeaStructure::GetFeaSubSurf` (lines 351-358); a null pointer is `none`. -/
def FeaStructure.GetFeaSubSurf {Core : Type} (st : FeaStructure Core) (ind : Int) :
    Option SubSurface :=
  if st.ValidFeaSubSurfInd ind then st.m_FeaSubSurfVec[ind.toNat]? else none

/-- The sample structure `structure_with_arrays` with two sub-surfaces. -/
def structure_with_subsurfs : FeaStructure Nat :=
  { structure_with_arrays with
    m_FeaSubSurfVec := [{ m_Name := "SSLINE_0", m_Type := 0 }, { m_Name := "SSRect_1", m_Type := 1 }] }

/-! ## Fixed point classifier -/

/-- Modelled from the spec: `piecewise_surface_type` of the surface library is declared
outside the two source files. Of the surface of a split sub-patch the classifier reads the
parameter range (`get_u0`, `get_umax`, `get_v0`, `get_vmax`) and, patch by patch, the y
coordinate of every control point (`get_patch( ip, jp )->get_control_point( icp, jcp ).y()`,
in loop order). -/
structure piecewise_surface_type where
  u0 : ℚ
  umax : ℚ
  v0 : ℚ
  vmax : ℚ
  control_point_y : List (List ℚ)
deriving DecidableEq

/-- Modelled from the spec: an `XferSurf`, of which only the member `m_Surface` is read. -/
structure XferSurf where
  m_Surface : piecewise_surface_type
deriving DecidableEq

/-- What `IdentifySplitSurfIndex` reads of one surface `parent_surf_vec[i]` of the parent
part: `GetUMax`, `GetWMax`, `IsClosedU`, `IsClosedW`, `IsMagicVParm`, and the split
sub-patches that `FetchXFerSurf` returns for it. -/
structure ParentSurf where
  GetUMax : ℚ
  GetWMax : ℚ
  IsClosedU : Bool
  IsClosedW : Bool
  IsMagicVParm : Bool
  FetchXFerSurf : List XferSurf

/-- The members of a `FeaFixPoint` that the classifier reads and writes; `uw` is
`GetUW()`, the pair `( m_PosU, m_PosW )`. -/
structure FeaFixPoint where
  uw : ℚ × ℚ
  m_HalfMeshFlag : Bool
  m_BorderFlag : Bool
  m_SplitSurfIndex : List (List Nat)
deriving DecidableEq

/-- `FeaFixPoint::PlaneAtYZero` (lines 2678-2710). -/
def FeaFixPoint.PlaneAtYZero (surface : piecewise_surface_type) : Bool :=
  let tol : ℚ := 1 / 1000000
  surface.control_point_y.all (fun patch => patch.all (fun y => ¬ (|y| > tol)))

/-- `FeaFixPoint::LessThanY` (lines 2712-2742). -/
def FeaFixPoint.LessThanY (surface : piecewise_surface_type) (val : ℚ) : Bool :=
  surface.control_point_y.all (fun patch => patch.all (fun y => ¬ (y > val)))

/-- The chain of tests of lines 2829-2868 for one sub-patch with the range
`[umin, umax] x [vmin, vmax]`: `some false` when the fix point is classified as lying on
the surface, `some true` when it is classified as lying on a border, `none` when no test
applies. In each of these cases but the last the index of the sub-patch is recorded. -/
def IdentifySplitSurfIndex_classify (uw : ℚ × ℚ) (umin umax vmin vmax : ℚ)
    (closedU closedW : Bool) (parent_Umin parent_Umax parent_Wmin parent_Wmax : ℚ) :
    Option Bool :=
  if uw.1 > umin ∧ uw.1 < umax ∧ uw.2 > vmin ∧ uw.2 < vmax then some false
  else if (uw.1 > umin ∧ uw.1 < umax) ∧ (uw.2 = vmin ∨ uw.2 = vmax) then some true
  else if (uw.1 = umin ∨ uw.1 = umax) ∧ (uw.2 > vmin ∧ uw.2 < vmax) then some true
  else if (uw.1 = umin ∨ uw.1 = umax) ∧ (uw.2 = vmin ∨ uw.2 = vmax) then some true
  else if (closedU ∧ umax = parent_Umax ∧ uw.1 = parent_Umin) ∧ (uw.2 > vmin ∧ uw.2 < vmax) then
    some true
  else if (closedU ∧ umin = parent_Umin ∧ uw.2 = parent_Umax) ∧ (uw.2 > vmin ∧ uw.2 < vmax) then
    some true
  else if (uw.1 > umin ∧ uw.1 < umax) ∧ (closedW ∧ vmax = parent_Wmax ∧ uw.2 = parent_Wmin) then
    some true
  else if (uw.1 > umin ∧ uw.1 < umax) ∧ (closedW ∧ vmin = parent_Wmin ∧ uw.2 = parent_Wmax) then
    some true
  else none

/-- The body of the second loop over the sub-patches (lines 2802-2869) for one sub-patch:
the half-mesh trimming, the widening of the range by `TMAGIC`, and the classification. -/
def IdentifySplitSurfIndex_patch (TMAGIC : ℚ) (fp : FeaFixPoint) (parent : ParentSurf)
    (on_valid_patch : Bool) (x : XferSurf) : Option Bool :=
  let addSurfFlag0 : Bool :=
    if fp.m_HalfMeshFlag ∧ FeaFixPoint.LessThanY x.m_Surface (1 / 1000000) then false else true
  let addSurfFlag : Bool :=
    if fp.m_HalfMeshFlag ∧ FeaFixPoint.PlaneAtYZero x.m_Surface then false else addSurfFlag0
  if addSurfFlag then
    let umax := x.m_Surface.umax
    let umin := x.m_Surface.u0
    let widen : Bool := parent.IsMagicVParm ∧ ¬ on_valid_patch
    let vmax := if widen then x.m_Surface.vmax + TMAGIC else x.m_Surface.vmax
    let vmin := if widen then x.m_Surface.v0 - TMAGIC else x.m_Surface.v0
    IdentifySplitSurfIndex_classify fp.uw umin umax vmin vmax parent.IsClosedU parent.IsClosedW
      0 parent.GetUMax 0 parent.GetWMax
  else none

/-- The first loop over the sub-patches (lines 2787-2798): whether the fix point lies on
one of them. -/
def IdentifySplitSurfIndex_on_valid_patch (uw : ℚ × ℚ) (tempxfersurfs : List XferSurf) : Bool :=
  tempxfersurfs.any (fun x =>
    uw.2 ≥ x.m_Surface.v0 ∧ uw.2 ≤ x.m_Surface.vmax ∧
      uw.1 ≥ x.m_Surface.u0 ∧ uw.1 ≤ x.m_Surface.umax)

/-- The second loop over the sub-patches (lines 2800-2870) of surface `i` from sub-patch
`j` on; the state is the list `m_SplitSurfIndex[i]` and `m_BorderFlag`. -/
def IdentifySplitSurfIndex_patches (TMAGIC : ℚ) (fp : FeaFixPoint) (parent : ParentSurf)
    (on_valid_patch : Bool) (i num_split_surfs : Nat) :
    Nat → List XferSurf → List Nat × Bool → List Nat × Bool
  | _, [], state => state
  | j, x :: rest, state =>
    let state1 : List Nat × Bool :=
      match IdentifySplitSurfIndex_patch TMAGIC fp parent on_valid_patch x with
      | some border => (state.1 ++ [j + i * num_split_surfs], border)
      | none => state
    IdentifySplitSurfIndex_patches TMAGIC fp parent on_valid_patch i num_split_surfs (j + 1)
      rest state1

/-- The loop over the surfaces of the parent part (lines 2763-2871) from surface `i` on;
the state is `m_SplitSurfIndex` up to surface `i` and `m_BorderFlag`. -/
def IdentifySplitSurfIndex_surfaces (TMAGIC : ℚ) (fp : FeaFixPoint) :
    Nat → List ParentSurf → List (List Nat) × Bool → List (List Nat) × Bool
  | _, [], state => state
  | i, parent :: rest, state =>
    let tempxfersurfs := parent.FetchXFerSurf
    let on_valid_patch := IdentifySplitSurfIndex_on_valid_patch fp.uw tempxfersurfs
    let r := IdentifySplitSurfIndex_patches TMAGIC fp parent on_valid_patch i
      tempxfersurfs.length 0 tempxfersurfs ([], state.2)
    IdentifySplitSurfIndex_surfaces TMAGIC fp (i + 1) rest (state.1 ++ [r.1], r.2)

/-- `FeaFixPoint::IdentifySplitSurfIndex` (lines 2744-2872). `parent_surf_vec` is `none`
when the parent part or the vehicle is not found; `TMAGIC` is the constant of that name,
declared outside the two source files. -/
def FeaFixPoint.IdentifySplitSurfIndex (TMAGIC : ℚ) (parent_surf_vec : Option (List ParentSurf))
    (fp : FeaFixPoint) : FeaFixPoint :=
  match parent_surf_vec with
  | none => fp
  | some surfs =>
    let r := IdentifySplitSurfIndex_surfaces TMAGIC fp 0 surfs ([], fp.m_BorderFlag)
    { fp with m_SplitSurfIndex := r.1, m_BorderFlag := r.2 }

/-- The point `( u, w )` lies strictly inside the parameter range of the sub-patch. -/
def XferSurf.interior (x : XferSurf) (u w : ℚ) : Prop :=
  x.m_Surface.u0 < u ∧ u < x.m_Surface.umax ∧ x.m_Surface.v0 < w ∧ w < x.m_Surface.vmax

/-- The parameter range `( u0, umax, v0, vmax )` of a sub-patch. -/
def XferSurf.range (x : XferSurf) : ℚ × ℚ × ℚ × ℚ :=
  (x.m_Surface.u0, x.m_Surface.umax, x.m_Surface.v0, x.m_Surface.vmax)

/-- The sub-patch with the y coordinates of its control points replaced by `cps`. -/
def XferSurf.setControlPoints (x : XferSurf) (cps : List (List ℚ)) : XferSurf :=
  { m_Surface := { x.m_Surface with control_point_y := cps } }

/-- The surface of the parent part with the control points of every sub-patch `x`
replaced by `g x`. -/
def ParentSurf.setControlPoints (g : XferSurf → List (List ℚ)) (parent : ParentSurf) :
    ParentSurf :=
  { parent with FetchXFerSurf := parent.FetchXFerSurf.map (fun x => x.setControlPoints (g x)) }

/-- The sub-patch `[0, 1/2] x [0, 1]` of an upper copy, control points at positive y. -/
def patch_left_up : XferSurf :=
  { m_Surface := { u0 := 0, umax := 1 / 2, v0 := 0, vmax := 1, control_point_y := [[1 / 2, 1]] } }

/-- The sub-patch `[1/2, 1] x [0, 1]` of an upper copy, control points at positive y. -/
def patch_right_up : XferSurf :=
  { m_Surface := { u0 := 1 / 2, umax := 1, v0 := 0, vmax := 1, control_point_y := [[1, 2]] } }

/-- The sub-patch `[0, 1/2] x [0, 1]` of a mirrored copy, control points at negative y. -/
def patch_left_down : XferSurf :=
  { m_Surface := { u0 := 0, umax := 1 / 2, v0 := 0, vmax := 1,
                   control_point_y := [[-1 / 2, -1]] } }

/-- The sub-patch `[1/2, 1] x [0, 1]` of a mirrored copy, control points at negative y. -/
def patch_right_down : XferSurf :=
  { m_Surface := { u0 := 1 / 2, umax := 1, v0 := 0, vmax := 1, control_point_y := [[-1, -2]] } }

/-- A surface of the parent part on the side of positive y, split into two sub-patches. -/
def skin_copy_up : ParentSurf :=
  { GetUMax := 1, GetWMax := 1, IsClosedU := false, IsClosedW := false, IsMagicVParm := false,
    FetchXFerSurf := [patch_left_up, patch_right_up] }

/-- The mirror image of `skin_copy_up`, split into the same parameter ranges. -/
def skin_copy_down : ParentSurf :=
  { GetUMax := 1, GetWMax := 1, IsClosedU := false, IsClosedW := false, IsMagicVParm := false,
    FetchXFerSurf := [patch_left_down, patch_right_down] }

/-- The surface list of a parent part with two symmetry copies. -/
def skin_two_copies : List ParentSurf := [skin_copy_up, skin_copy_down]

/-- A fix point at `( u, w ) = ( 1/2, 0 )`, the minimum corner of the right sub-patch, with
the half-mesh flag set. -/
def fixPoint_on_corner : FeaFixPoint :=
  { uw := (1 / 2, 0), m_HalfMeshFlag := true, m_BorderFlag := false, m_SplitSurfIndex := [] }

/-- The fix point `fixPoint_on_corner` with the half-mesh flag not set. -/
def fixPoint_full_mesh : FeaFixPoint :=
  { fixPoint_on_corner with m_HalfMeshFlag := false }

/-- The sub-patch `[u0, u0 + 1/2] x [v0, v0 + 1/2]`, a quarter of the unit square, control
points at positive y. -/
def patch_quarter (u0 v0 : ℚ) : XferSurf :=
  { m_Surface := { u0 := u0, umax := u0 + 1 / 2, v0 := v0, vmax := v0 + 1 / 2,
                   control_point_y := [[1, 2]] } }

/-- The sub-patch `[0, 1] x [0, 1]`, the whole unit square. -/
def patch_whole : XferSurf :=
  { m_Surface := { u0 := 0, umax := 1, v0 := 0, vmax := 1, control_point_y := [[1, 2]] } }

/-- A sub-patch of no width: `[1/2, 1/2] x [1/2, 1]`. -/
def patch_no_width : XferSurf :=
  { m_Surface := { u0 := 1 / 2, umax := 1 / 2, v0 := 1 / 2, vmax := 1,
                   control_point_y := [[1, 2]] } }

/-- A surface of the parent part split into four quarters at `u = 1/2` and `w = 1/2`. -/
def surf_four_quarters : ParentSurf :=
  { GetUMax := 1, GetWMax := 1, IsClosedU := false, IsClosedW := false, IsMagicVParm := false,
    FetchXFerSurf := [patch_quarter 0 0, patch_quarter (1 / 2) 0, patch_quarter 0 (1 / 2),
      patch_quarter (1 / 2) (1 / 2)] }

/-- A surface of the parent part that is not split: one sub-patch, the whole square. -/
def surf_unsplit : ParentSurf :=
  { GetUMax := 1, GetWMax := 1, IsClosedU := false, IsClosedW := false, IsMagicVParm := false,
    FetchXFerSurf := [patch_whole] }

/-- A surface of the parent part whose sub-patches are one of no width followed by the
whole square. -/
def surf_with_no_width : ParentSurf :=
  { GetUMax := 1, GetWMax := 1, IsClosedU := false, IsClosedW := false, IsMagicVParm := false,
    FetchXFerSurf := [patch_no_width, patch_whole] }

/-- A fix point at `( 1/2, 1/2 )`, full mesh, border flag not yet set. -/
def fixPoint_center : FeaFixPoint :=
  { uw := (1 / 2, 1 / 2), m_HalfMeshFlag := false, m_BorderFlag := false,
    m_SplitSurfIndex := [] }

/-! ## Orientation of a slice surface -/

/-- Modelled from the spec: the class `Matrix4d` is declared outside the two source
files. An affine transformation matrix, kept as the three rows of its linear part and
its translation column. -/
@[ext]
structure Matrix4d (K : Type) where
  rx : vec3d K
  ry : vec3d K
  rz : vec3d K
  t : vec3d K

/-- Modelled from the spec: `Matrix4d::loadIdentity()`. -/
def Matrix4d.loadIdentity {K : Type} [LinearOrderedField K] : Matrix4d K :=
  { rx := { x := 1, y := 0, z := 0 }
    ry := { x := 0, y := 1, z := 0 }
    rz := { x := 0, y := 0, z := 1 }
    t := { x := 0, y := 0, z := 0 } }

/-- Modelled from the spec: `Matrix4d::xform( p )`, the image of a point. -/
def Matrix4d.xform {K : Type} [LinearOrderedField K] (m : Matrix4d K) (p : vec3d K) : vec3d K :=
  { x := m.rx.dot p + m.t.x, y := m.ry.dot p + m.t.y, z := m.rz.dot p + m.t.z }

/-- Modelled from the spec: `Matrix4d::postMult( n )`, the product `m * n`, which maps a
point first by `n` and then by `m`. -/
def Matrix4d.postMult {K : Type} [LinearOrderedField K] (m n : Matrix4d K) : Matrix4d K :=
  { rx := { x := m.rx.dot { x := n.rx.x, y := n.ry.x, z := n.rz.x }
            y := m.rx.dot { x := n.rx.y, y := n.ry.y, z := n.rz.y }
            z := m.rx.dot { x := n.rx.z, y := n.ry.z, z := n.rz.z } }
    ry := { x := m.ry.dot { x := n.rx.x, y := n.ry.x, z := n.rz.x }
            y := m.ry.dot { x := n.rx.y, y := n.ry.y, z := n.rz.y }
            z := m.ry.dot { x := n.rx.z, y := n.ry.z, z := n.rz.z } }
    rz := { x := m.rz.dot { x := n.rx.x, y := n.ry.x, z := n.rz.x }
            y := m.rz.dot { x := n.rx.y, y := n.ry.y, z := n.rz.y }
            z := m.rz.dot { x := n.rx.z, y := n.ry.z, z := n.rz.z } }
    t := m.xform n.t }

/-- Modelled from the spec: `Matrix4d::translatef( x, y, z )` multiplies the matrix by the
translation by `( x, y, z )`. -/
def Matrix4d.translatef {K : Type} [LinearOrderedField K] (m : Matrix4d K) (x y z : K) :
    Matrix4d K :=
  m.postMult { (Matrix4d.loadIdentity : Matrix4d K) with t := { x := x, y := y, z := z } }

/-- Modelled from the spec: `Matrix4d::rotate( angle, axis )` multiplies the matrix by the
rotation by `angle` about the unit vector `axis` (Rodrigues' formula). -/
def Matrix4d.rotate {K : Type} [LinearOrderedField K] (M : MathLib K) (m : Matrix4d K)
    (angle : K) (axis : vec3d K) : Matrix4d K :=
  let c := M.cos angle
  let s := M.sin angle
  m.postMult
    { rx := { x := c + axis.x * axis.x * (1 - c)
              y := axis.x * axis.y * (1 - c) - axis.z * s
              z := axis.x * axis.z * (1 - c) + axis.y * s }
      ry := { x := axis.y * axis.x * (1 - c) + axis.z * s
              y := c + axis.y * axis.y * (1 - c)
              z := axis.y * axis.z * (1 - c) - axis.x * s }
      rz := { x := axis.z * axis.x * (1 - c) - axis.y * s
              y := axis.z * axis.y * (1 - c) + axis.x * s
              z := c + axis.z * axis.z * (1 - c) }
      t := { x := 0, y := 0, z := 0 } }

/-- Modelled from the spec: `Matrix4d::affineInverse()`, the inverse of a matrix made of a
rotation and a translation: the linear part transposed, the translation mapped by the
transposed linear part and negated. -/
def Matrix4d.affineInverse {K : Type} [LinearOrderedField K] (m : Matrix4d K) : Matrix4d K :=
  let cx : vec3d K := { x := m.rx.x, y := m.ry.x, z := m.rz.x }
  let cy : vec3d K := { x := m.rx.y, y := m.ry.y, z := m.rz.y }
  let cz : vec3d K := { x := m.rx.z, y := m.ry.z, z := m.rz.z }
  { rx := cx, ry := cy, rz := cz
    t := { x := -(cx.dot m.t), y := -(cy.dot m.t), z := -(cz.dot m.t) } }

/-- Modelled from the spec: the planar surface that
`MakePlaneSurf( cornerA, cornerB, cornerC, cornerD )` builds, kept as its four corner
points. -/
@[ext]
structure PlaneSurf (K : Type) where
  cornerA : vec3d K
  cornerB : vec3d K
  cornerC : vec3d K
  cornerD : vec3d K

/-- Modelled from the spec: `VspSurf::Transform( mat )` on a planar surface maps its
corner points. -/
def PlaneSurf.Transform {K : Type} [LinearOrderedField K] (s : PlaneSurf K) (mat : Matrix4d K) :
    PlaneSurf K :=
  { cornerA := mat.xform s.cornerA, cornerB := mat.xform s.cornerB
    cornerC := mat.xform s.cornerC, cornerD := mat.xform s.cornerD }

/-- The value of `vsp::XY_BODY`. -/
def XY_BODY : ℚ := 0

/-- The value of `vsp::XZ_BODY`. -/
def XZ_BODY : ℚ := 2

/-- The value of `vsp::YZ_ABS`. -/
def YZ_ABS : ℚ := 4

/-- `FeaPart::RefFrameIsBody` (lines 1433-1443). -/
def RefFrameIsBody (orientation_plane : ℚ) : Bool :=
  orientation_plane = XY_BODY ∨ orientation_plane = YZ_BODY ∨ orientation_plane = XZ_BODY

/-- The part of `FeaPart::ComputeSliceSurf` that orients the plane: the inversion of the
model matrix at lines 1474-1475 and the sequence of transformations of lines 1807-1835,
applied to the surface `slice_surf` that `MakePlaneSurf` has built around `slice_center`
with the axes `x_axis`, `y_axis`, `z_axis`. `DEG_2_RAD` is `PI / 180`. -/
def ComputeSliceSurf_transform {K : Type} [LinearOrderedField K] (M : MathLib K)
    (getModelMatrix : Matrix4d K) (slice_surf : PlaneSurf K)
    (slice_center x_axis y_axis z_axis : vec3d K) (orientation_plane : ℚ)
    (x_rot y_rot z_rot : K) : PlaneSurf K :=
  let DEG_2_RAD := M.PI / 180
  let model_matrix := getModelMatrix.affineInverse
  let trans_mat_1 := (Matrix4d.loadIdentity : Matrix4d K).translatef
    (slice_center.x * -1) (slice_center.y * -1) (slice_center.z * -1)
  let slice_surf := slice_surf.Transform trans_mat_1
  let rot_mat_x := (Matrix4d.loadIdentity : Matrix4d K).rotate M (DEG_2_RAD * x_rot) x_axis
  let slice_surf := slice_surf.Transform rot_mat_x
  let rot_mat_y := (Matrix4d.loadIdentity : Matrix4d K).rotate M (DEG_2_RAD * y_rot) y_axis
  let slice_surf := slice_surf.Transform rot_mat_y
  let rot_mat_z := (Matrix4d.loadIdentity : Matrix4d K).rotate M (DEG_2_RAD * z_rot) z_axis
  let slice_surf := slice_surf.Transform rot_mat_z
  let trans_mat_2 := (Matrix4d.loadIdentity : Matrix4d K).translatef
    slice_center.x slice_center.y slice_center.z
  let slice_surf := slice_surf.Transform trans_mat_2
  if RefFrameIsBody orientation_plane then
    let model_matrix := model_matrix.affineInverse
    slice_surf.Transform model_matrix
  else slice_surf

/-- The sequence of transformations in the words of the claim: translation by minus the
slice centre, rotation about X, about Y, about Z, translation by plus the slice centre,
and a last matrix `last` when there is one. Written from the words of the claim. -/
def specSliceSurf {K : Type} [LinearOrderedField K] (M : MathLib K) (slice_surf : PlaneSurf K)
    (slice_center x_axis y_axis z_axis : vec3d K) (x_rot y_rot z_rot : K)
    (last : Option (Matrix4d K)) : PlaneSurf K :=
  let minus : Matrix4d K := { (Matrix4d.loadIdentity : Matrix4d K) with
    t := { x := -slice_center.x, y := -slice_center.y, z := -slice_center.z } }
  let plus : Matrix4d K := { (Matrix4d.loadIdentity : Matrix4d K) with t := slice_center }
  let rot_x := (Matrix4d.loadIdentity : Matrix4d K).rotate M (M.PI / 180 * x_rot) x_axis
  let rot_y := (Matrix4d.loadIdentity : Matrix4d K).rotate M (M.PI / 180 * y_rot) y_axis
  let rot_z := (Matrix4d.loadIdentity : Matrix4d K).rotate M (M.PI / 180 * z_rot) z_axis
  let s := ((((slice_surf.Transform minus).Transform rot_x).Transform rot_y).Transform
    rot_z).Transform plus
  match last with
  | some m => s.Transform m
  | none => s

/-- The matrix is a rotation followed by a translation: the rows of its linear part are
orthonormal. -/
def Matrix4d.IsRigid {K : Type} [LinearOrderedField K] (m : Matrix4d K) : Prop :=
  m.rx.dot m.rx = 1 ∧ m.ry.dot m.ry = 1 ∧ m.rz.dot m.rz = 1 ∧
    m.rx.dot m.ry = 0 ∧ m.rx.dot m.rz = 0 ∧ m.ry.dot m.rz = 0

/-- The translation by `( 1, 0, 0 )`. -/
def translation_x {K : Type} [LinearOrderedField K] : Matrix4d K :=
  (Matrix4d.loadIdentity : Matrix4d K).translatef 1 0 0

/-- A square in the plane `x = 0` around the origin. -/
def plane_yz {K : Type} [LinearOrderedField K] : PlaneSurf K :=
  { cornerA := { x := 0, y := -1, z := -1 }, cornerB := { x := 0, y := 1, z := -1 }
    cornerC := { x := 0, y := -1, z := 1 }, cornerD := { x := 0, y := 1, z := 1 } }

/-! ## Adding a part by its type code -/

/-- The constructor `FeaStructure::FeaStructure( geomID, surf_index )` (lines 27-37): no
part, no sub-surface, the part counter at 0. -/
def FeaStructure.new {Core : Type} (surf_index : Int) : FeaStructure Core :=
  { m_FeaPartVec := [], m_FeaPartCount := 0, m_MainSurfIndx := surf_index, m_FeaSubSurfVec := [] }

/-- `FeaStructure::GetFeaSkin` (lines 662-672): the first part tagged `FEA_SKIN`. -/
def FeaStructure.GetFeaSkin {Core : Type} (st : FeaStructure Core) : Option (FeaPart Core) :=
  st.m_FeaPartVec.find? (fun p => p.m_FeaPartType = FEA_SKIN)

/-- A part as its constructor leaves it: type tag, dynamic class, `m_MainSurfIndx` at its
initial value -1, no surface. The name is the one `ParmContainer` gives, kept empty. -/
def FeaPart.new {Core : Type} (type : Int) (cls : FeaPartClass) : FeaPart Core :=
  { m_FeaPartType := type, m_Name := "", m_MainSurfIndx := -1, m_SymmIndexVec := [],
    m_FeaPartSurfVec := [], cls := cls }

/-- The object that `FeaStructure::AddFeaPart( int type )` creates (lines 155-198): a
`FeaPart` of the base class tagged `type`, replaced by an object of the class of the type
code when the code is one of the seven that are tested; for `FEA_FIX_POINT` it is replaced
only when the structure has a skin. -/
def FeaStructure.AddFeaPart_create {Core : Type} (st : FeaStructure Core) (type : Int) :
    FeaPart Core :=
  let feaprt : FeaPart Core := FeaPart.new type FeaPartClass.FeaPart
  let count := toString st.m_FeaPartCount
  if type = FEA_SLICE then
    { (FeaPart.new FEA_SLICE (FeaPartClass.FeaSlice FeaSlice.new) : FeaPart Core) with
      m_Name := "Slice_" ++ count }
  else if type = FEA_RIB then
    { (FeaPart.new FEA_RIB (FeaPartClass.FeaRib FeaRib.new) : FeaPart Core) with
      m_Name := "Rib_" ++ count }
  else if type = FEA_SPAR then
    { (FeaPart.new FEA_SPAR FeaPartClass.FeaSpar : FeaPart Core) with
      m_Name := "Spar_" ++ count }
  else if type = FEA_FIX_POINT then
    match st.GetFeaSkin with
    | some _ =>
      { (FeaPart.new FEA_FIX_POINT FeaPartClass.FeaFixPoint : FeaPart Core) with
        m_Name := "FixPoint_" ++ count }
    | none => feaprt
  else if type = FEA_DOME then
    { (FeaPart.new FEA_DOME FeaPartClass.FeaDome : FeaPart Core) with
      m_Name := "Dome_" ++ count }
  else if type = FEA_RIB_ARRAY then
    { (FeaPart.new FEA_RIB_ARRAY
        (FeaPartClass.FeaRibArray ArrayCommon.new FeaRibArray.new) : FeaPart Core) with
      m_Name := "RibArray_" ++ count }
  else if type = FEA_SLICE_ARRAY then
    { (FeaPart.new FEA_SLICE_ARRAY
        (FeaPartClass.FeaSliceArray ArrayCommon.new FeaSliceArray.new) : FeaPart Core) with
      m_Name := "SliceArray_" ++ count }
  else feaprt

/-- `FeaStructure::AddFeaPart( int type )` (lines 153-208): the created object gets the
main surface index of the structure (`m_MainSurfIndx.Set`, range `[-1, 1e12]`), is
appended to the part list, and the part counter is incremented. -/
def FeaStructure.AddFeaPart_type {Core : Type} (st : FeaStructure Core) (type : Int) :
    FeaStructure Core :=
  let feaprt := st.AddFeaPart_create type
  let idx : Int :=
    if st.m_MainSurfIndx < -1 then -1
    else if 10 ^ 12 < st.m_MainSurfIndx then 10 ^ 12 else st.m_MainSurfIndx
  { (st.AddFeaPart { feaprt with m_MainSurfIndx := idx }) with
    m_FeaPartCount := st.m_FeaPartCount + 1 }

/-- `FeaStructure::ReorderFeaSubSurf` (lines 360-408). -/
def FeaStructure.ReorderFeaSubSurf {Core : Type} (st : FeaStructure Core) (ind action : Int) :
    FeaStructure Core :=
  if ¬ st.ValidFeaSubSurfInd ind then st
  else
    let moved : List SubSurface := (st.m_FeaSubSurfVec[ind.toNat]?).toList
    let new_ss_vec : List SubSurface :=
      if action = REORDER_MOVE_TOP ∨ action = REORDER_MOVE_BOTTOM then
        (if action = REORDER_MOVE_TOP then moved else []) ++
          st.m_FeaSubSurfVec.eraseIdx ind.toNat ++
          (if action = REORDER_MOVE_BOTTOM then moved else [])
      else if action = REORDER_MOVE_UP ∨ action = REORDER_MOVE_DOWN then
        ReorderFeaPart_swap (action = REORDER_MOVE_DOWN) (action = REORDER_MOVE_UP) ind.toNat 0
          false st.m_FeaSubSurfVec
      else []
    { st with m_FeaSubSurfVec := new_ss_vec }

/-! ## Sample inputs for the section search and the periodic seam -/

/-- A wing of one section of span 0.25, no end caps. -/
def wing_quarter_span : WingGeom :=
  { sects := [some (1 / 4)], noEndCapUMin := true, U_max := 1 }

/-- A wing of two sections, the first of span 1 and the second of span 0. -/
def wing_zero_tip : WingGeom :=
  { sects := [some 1, some 0], noEndCapUMin := true, U_max := 2 }

/-- The sub-patch `[0, 1] x [0, 1]` of a surface closed in U with the range `[0, 2]`. -/
def patch_seam_low : XferSurf :=
  { m_Surface := { u0 := 0, umax := 1, v0 := 0, vmax := 1, control_point_y := [[1, 2]] } }

/-- The sub-patch `[1, 2] x [0, 1]` of a surface closed in U with the range `[0, 2]`. -/
def patch_seam_high : XferSurf :=
  { m_Surface := { u0 := 1, umax := 2, v0 := 0, vmax := 1, control_point_y := [[1, 2]] } }

/-- A surface closed in U, `GetUMax() = 2`, `GetWMax() = 1`, split at `u = 1`. -/
def surf_closed_u : ParentSurf :=
  { GetUMax := 2, GetWMax := 1, IsClosedU := true, IsClosedW := false, IsMagicVParm := false,
    FetchXFerSurf := [patch_seam_low, patch_seam_high] }

/-- A fix point on the seam at the minimum U: `( u, w ) = ( 0, 1/2 )`. -/
def fixPoint_seam_min : FeaFixPoint :=
  { uw := (0, 1 / 2), m_HalfMeshFlag := false, m_BorderFlag := false, m_SplitSurfIndex := [] }

/-- A fix point on the seam at the maximum U: `( u, w ) = ( 2, 1/2 )`. -/
def fixPoint_seam_max : FeaFixPoint :=
  { uw := (2, 1 / 2), m_HalfMeshFlag := false, m_BorderFlag := false, m_SplitSurfIndex := [] }

/-- A fix point at `( u, w ) = ( 3, 3 )`, outside every sub-patch of `skin_two_copies`, with
the given prior value of the border flag. -/
def fixPoint_outside (m_BorderFlag : Bool) : FeaFixPoint :=
  { uw := (3, 3), m_HalfMeshFlag := false, m_BorderFlag := m_BorderFlag,
    m_SplitSurfIndex := [] }

/-! ## Cross-sections -/

/-- Modelled from the spec: the class `VspCurve` is declared outside the two source files;
a curve is kept as the list of its control points. -/
@[ext]
structure VspCurve (K : Type) where
  pnts : List (vec3d K)

/-- Modelled from the spec: `VspCurve::Transform( mat )` maps the control points. -/
def VspCurve.Transform {K : Type} [LinearOrderedField K] (c : VspCurve K) (mat : Matrix4d K) :
    VspCurve K :=
  { pnts := c.pnts.map mat.xform }

/-- Modelled from the spec: `VspCurve::RotateX( ang )`, the rotation about the x axis. -/
def VspCurve.RotateX {K : Type} [LinearOrderedField K] (M : MathLib K) (c : VspCurve K)
    (ang : K) : VspCurve K :=
  { pnts := c.pnts.map (fun p =>
      { x := p.x, y := M.cos ang * p.y - M.sin ang * p.z, z := M.sin ang * p.y + M.cos ang * p.z }) }

/-- Modelled from the spec: `VspCurve::RotateY( ang )`, the rotation about the y axis. -/
def VspCurve.RotateY {K : Type} [LinearOrderedField K] (M : MathLib K) (c : VspCurve K)
    (ang : K) : VspCurve K :=
  { pnts := c.pnts.map (fun p =>
      { x := M.cos ang * p.x + M.sin ang * p.z, y := p.y, z := M.cos ang * p.z - M.sin ang * p.x }) }

/-- Modelled from the spec: `VspCurve::RotateZ( ang )`, the rotation about the z axis. -/
def VspCurve.RotateZ {K : Type} [LinearOrderedField K] (M : MathLib K) (c : VspCurve K)
    (ang : K) : VspCurve K :=
  { pnts := c.pnts.map (fun p =>
      { x := M.cos ang * p.x - M.sin ang * p.y, y := M.sin ang * p.x + M.cos ang * p.y, z := p.z }) }

/-- Modelled from the spec: `VspCurve::OffsetX( d )`. -/
def VspCurve.OffsetX {K : Type} [LinearOrderedField K] (c : VspCurve K) (d : K) : VspCurve K :=
  { pnts := c.pnts.map (fun p => { p with x := p.x + d }) }

/-- Modelled from the spec: `VspCurve::OffsetY( d )`. -/
def VspCurve.OffsetY {K : Type} [LinearOrderedField K] (c : VspCurve K) (d : K) : VspCurve K :=
  { pnts := c.pnts.map (fun p => { p with y := p.y + d }) }

/-- Modelled from the spec: `VspCurve::OffsetZ( d )`. -/
def VspCurve.OffsetZ {K : Type} [LinearOrderedField K] (c : VspCurve K) (d : K) : VspCurve K :=
  { pnts := c.pnts.map (fun p => { p with z := p.z + d }) }

/-- Modelled from the spec: an `XSecCurve`, of which `XSec::Update` reads `GetWidth()` and
`GetCurve()`, the base (untransformed) curve. -/
structure XSecCurve (K : Type) where
  GetWidth : K
  GetCurve : VspCurve K

/-- The members of an `XSec` that `XSec::Update` reads and writes; a parameter is kept as
its value. -/
structure XSec (K : Type) where
  m_XSCurve : XSecCurve K
  m_rotation : Matrix4d K
  m_center : Bool
  m_RefLength : K
  m_XLocPercent : K
  m_YLocPercent : K
  m_ZLocPercent : K
  m_XRotate : K
  m_YRotate : K
  m_ZRotate : K
  m_Spin : K
  m_LateUpdateFlag : Bool
  m_TransformedCurve : VspCurve K

/-- The constant `DBL_EPSILON` of `<float.h>`. -/
def DBL_EPSILON {K : Type} [LinearOrderedField K] : K := 1 / 2 ^ 52

/-- `XSec::GetUntransformedCurve` (lines 204-207). -/
def XSec.GetUntransformedCurve {K : Type} (xs : XSec K) : VspCurve K :=
  xs.m_XSCurve.GetCurve

/-- `XSec::Update` (lines 135-191): the cross-section after the call and the lines written
to `std::cerr`. Of the copy `mat` of `m_rotation` the entries `pm[12]`, `pm[13]`, `pm[14]`
are the translation column; the entries `pm[3]`, `pm[7]`, `pm[11]`, `pm[15]`, set to 0,
take no part in the image of a point. -/
def XSec.Update {K : Type} [LinearOrderedField K] (M : MathLib K) (xs : XSec K) :
    XSec K × List String :=
  let DEG_2_RAD := M.PI / 180
  let mat0 : Matrix4d K := { xs.m_rotation with t := { x := 0, y := 0, z := 0 } }
  let mat : Matrix4d K :=
    if xs.m_center then { mat0 with t := { mat0.t with y := -xs.m_XSCurve.GetWidth / 2 } }
    else mat0
  let baseCurve := xs.GetUntransformedCurve.Transform mat
  let cerr : List String :=
    if |xs.m_Spin| > DBL_EPSILON then ["XSec spin not implemented."] else []
  let c1 := baseCurve.RotateX M (xs.m_XRotate * DEG_2_RAD)
  let c2 := c1.RotateY M (xs.m_YRotate * DEG_2_RAD)
  let c3 := c2.RotateZ M (xs.m_ZRotate * DEG_2_RAD)
  let c4 := c3.OffsetX (xs.m_XLocPercent * xs.m_RefLength)
  let c5 := c4.OffsetY (xs.m_YLocPercent * xs.m_RefLength)
  let c6 := c5.OffsetZ (xs.m_ZLocPercent * xs.m_RefLength)
  ({ xs with m_LateUpdateFlag := false, m_TransformedCurve := c6 }, cerr)

/-- A cross-section on the unit segment of the y axis, centred, rotated by 30 degrees
about x, with the given spin. -/
def xsec_with_spin {K : Type} [LinearOrderedField K] (spin : K) : XSec K :=
  { m_XSCurve := { GetWidth := 1
                   GetCurve := { pnts := [{ x := 0, y := 0, z := 0 }, { x := 0, y := 1, z := 0 }] } }
    m_rotation := Matrix4d.loadIdentity
    m_center := true
    m_RefLength := 4
    m_XLocPercent := 1 / 2
    m_YLocPercent := 0
    m_ZLocPercent := 0
    m_XRotate := 30
    m_YRotate := 0
    m_ZRotate := 0
    m_Spin := spin
    m_LateUpdateFlag := true
    m_TransformedCurve := { pnts := [] } }

/-! ## Divisions of the half-length computations -/

/-- The edge block of `ComputeRibSurf` (see `ComputeRibSurf_edge_length`) together with the
divisors of the divisions it executes, in the order of execution: the length of the edge
and the sine of the rotation; no division in the fallback. -/
def ComputeRibSurf_edge_length_traced {K : Type} [LinearOrderedField K] (M : MathLib K)
    (rotation length_rib_0 : K) (center edge_trail edge_lead : vec3d K) : K × List K :=
  if |M.sin rotation| ≤ M.FLT_EPSILON ∨ (edge_lead.sub edge_trail).mag M ≤ M.FLT_EPSILON then
    (length_rib_0, [])
  else
    let perp_dist := ((center.sub edge_trail).cross (center.sub edge_lead)).mag M /
      (edge_lead.sub edge_trail).mag M
    (|perp_dist / M.sin rotation|, [(edge_lead.sub edge_trail).mag M, M.sin rotation])

/-- The law-of-sines block of `ComputeRibSurf` (see `ComputeRibSurf_sine_length`) together
with the divisor of the division it executes. -/
def ComputeRibSurf_sine_length_traced {K : Type} [LinearOrderedField K] (M : MathLib K)
    (length_rib_0 sweep phi : K) : K × List K :=
  if |M.sin phi| ≤ M.FLT_EPSILON then (length_rib_0, [])
  else (|length_rib_0 * M.sin sweep / M.sin phi|, [M.sin phi])

/-- The reference half-length `length_rib_0` of `ComputeRibSurf` (line 1257). -/
def ComputeRibSurf_length_rib_0 {K : Type} [LinearOrderedField K] (M : MathLib K)
    (r : RibRegion K) : K :=
  r.trail_edge.dist M r.lead_edge / 2 + ComputeRibSurf_expan r

/-- The half-length computation of `FeaPart::ComputeRibSurf` (lines 1225-1398): the pair
`length_rib_te`, `length_rib_le`, each with the divisors of the divisions executed for it. -/
def ComputeRibSurf_half_lengths_traced {K : Type} [LinearOrderedField K] (M : MathLib K)
    (r : RibRegion K) (rotation : K) : (K × List K) × (K × List K) :=
  let center := (r.trail_edge.add r.lead_edge).sdiv 2
  let trail_edge_vec := (r.max_trail_edge.sub r.min_trail_edge).normalize M
  let lead_edge_vec := (r.max_lead_edge.sub r.min_lead_edge).normalize M
  let inner_edge_vec := (r.min_lead_edge.sub r.min_trail_edge).normalize M
  let outer_edge_vec := (r.max_lead_edge.sub r.min_trail_edge).normalize M
  let center_to_trail_edge := (r.trail_edge.sub center).normalize M
  let center_to_lead_edge := (center.sub r.lead_edge).normalize M
  let length_rib_0 := ComputeRibSurf_length_rib_0 M r
  let normal_vec :=
    (if M.FLT_EPSILON ≤ inner_edge_vec.mag M then lead_edge_vec.cross inner_edge_vec
      else lead_edge_vec.cross outer_edge_vec).normalize M
  let center_to_le_min_vec := (r.min_lead_edge.sub center).normalize M
  let center_to_te_min_vec := (r.min_trail_edge.sub center).normalize M
  let center_to_le_max_vec := (r.max_lead_edge.sub center).normalize M
  let center_to_te_max_vec := (r.max_trail_edge.sub center).normalize M
  let max_angle_inner_le :=
    -M.PI + M.signed_angle center_to_le_min_vec center_to_lead_edge normal_vec
  let max_angle_inner_te := M.signed_angle center_to_te_min_vec center_to_trail_edge normal_vec
  let max_angle_outer_le :=
    M.PI - M.signed_angle center_to_lead_edge center_to_le_max_vec normal_vec
  let max_angle_outer_te := M.signed_angle center_to_te_max_vec center_to_trail_edge normal_vec
  let sweep_te := -1 * M.signed_angle trail_edge_vec center_to_trail_edge normal_vec
  let sweep_le := -1 * M.signed_angle lead_edge_vec center_to_lead_edge normal_vec
  let phi_te := M.PI - (rotation + sweep_te)
  let phi_le := M.PI - (rotation + sweep_le)
  let length_rib_le :=
    if rotation ≤ 0 then
      if rotation ≤ max_angle_inner_le then
        ComputeRibSurf_edge_length_traced M rotation length_rib_0 center r.min_trail_edge
          r.min_lead_edge
      else ComputeRibSurf_sine_length_traced M length_rib_0 sweep_le phi_le
    else
      if max_angle_outer_le ≤ rotation then
        ComputeRibSurf_edge_length_traced M rotation length_rib_0 center r.max_trail_edge
          r.max_lead_edge
      else ComputeRibSurf_sine_length_traced M length_rib_0 sweep_le phi_le
  let length_rib_te :=
    if rotation ≤ 0 then
      if rotation ≤ max_angle_outer_te then
        ComputeRibSurf_edge_length_traced M rotation length_rib_0 center r.max_trail_edge
          r.max_lead_edge
      else ComputeRibSurf_sine_length_traced M length_rib_0 sweep_te phi_te
    else
      if max_angle_inner_te ≤ rotation then
        ComputeRibSurf_edge_length_traced M rotation length_rib_0 center r.min_trail_edge
          r.min_lead_edge
      else ComputeRibSurf_sine_length_traced M length_rib_0 sweep_te phi_te
  (length_rib_te, length_rib_le)

/-- The values that `FeaSpar::ComputePlanarSurf` has computed before the branch of lines
2390-2499: the four corner points of the wing region, the centre of the spar, the angles
`theta`, `alpha_0`, `beta_le`, `beta_te` and the four threshold angles, the expansion and
the initial half length. -/
structure SparRegion (K : Type) where
  min_trail_edge : vec3d K
  min_lead_edge : vec3d K
  max_trail_edge : vec3d K
  max_lead_edge : vec3d K
  center : vec3d K
  theta : K
  alpha_0 : K
  beta_le : K
  beta_te : K
  max_angle_inner_le : K
  max_angle_inner_te : K
  max_angle_outer_le : K
  max_angle_outer_te : K
  expan : K
  length_spar_0 : K

/-- One block of the branch of `FeaSpar::ComputePlanarSurf` (for instance lines 2394-2402):
the amount added to the half length, with the divisors of the divisions executed. `trig`
is the sine or cosine that the block tests, `edge` the edge vector whose length it tests,
`a` and `b` the two corner points of the cross product. -/
def ComputePlanarSurf_block_traced {K : Type} [LinearOrderedField K] (M : MathLib K)
    (trig length_spar_0 : K) (center a b edge : vec3d K) : K × List K :=
  if |trig| ≤ M.FLT_EPSILON ∨ edge.mag M ≤ M.FLT_EPSILON then (length_spar_0, [])
  else
    let perp_dist := ((center.sub a).cross (center.sub b)).mag M / edge.mag M
    (|perp_dist / trig|, [edge.mag M, trig])

/-- The half-length computation of `FeaSpar::ComputePlanarSurf` (lines 2385-2499): the pair
`length_spar_in`, `length_spar_out`, each with the divisors of the divisions executed for
it. -/
def ComputePlanarSurf_half_lengths_traced {K : Type} [LinearOrderedField K] (M : MathLib K)
    (s : SparRegion K) : (K × List K) × (K × List K) :=
  let length_spar_in := s.expan
  let length_spar_out := s.expan
  let add : K → K × List K → K × List K := fun length block => (length + block.1, block.2)
  if s.theta ≥ 0 then
    let spar_in :=
      if s.theta > s.max_angle_inner_le then
        add length_spar_in (ComputePlanarSurf_block_traced M (M.sin (s.theta + s.beta_le))
          s.length_spar_0 s.center s.max_lead_edge s.min_lead_edge
          (s.min_lead_edge.sub s.max_lead_edge))
      else
        add length_spar_in (ComputePlanarSurf_block_traced M (M.cos (s.theta + s.alpha_0))
          s.length_spar_0 s.center s.min_lead_edge s.min_trail_edge
          (s.min_trail_edge.sub s.min_lead_edge))
    let spar_out :=
      if s.theta > s.max_angle_outer_te then
        add length_spar_out (ComputePlanarSurf_block_traced M (M.sin (s.theta - s.beta_te))
          s.length_spar_0 s.center s.max_trail_edge s.min_trail_edge
          (s.min_trail_edge.sub s.max_trail_edge))
      else
        add length_spar_out (ComputePlanarSurf_block_traced M (M.cos (s.theta + s.alpha_0))
          s.length_spar_0 s.center s.max_lead_edge s.max_trail_edge
          (s.max_trail_edge.sub s.max_lead_edge))
    (spar_in, spar_out)
  else
    let spar_in :=
      if s.theta < s.max_angle_inner_te then
        add length_spar_in (ComputePlanarSurf_block_traced M (M.sin (s.theta - s.beta_te))
          s.length_spar_0 s.center s.max_trail_edge s.min_trail_edge
          (s.max_trail_edge.sub s.min_trail_edge))
      else
        add length_spar_in (ComputePlanarSurf_block_traced M (M.cos (s.theta + s.alpha_0))
          s.length_spar_0 s.center s.min_lead_edge s.min_trail_edge
          (s.min_trail_edge.sub s.min_lead_edge))
    let spar_out :=
      if s.theta < s.max_angle_outer_le then
        add length_spar_out (ComputePlanarSurf_block_traced M (M.sin (s.theta + s.beta_le))
          s.length_spar_0 s.center s.max_lead_edge s.min_lead_edge
          (s.max_lead_edge.sub s.min_lead_edge))
      else
        add length_spar_out (ComputePlanarSurf_block_traced M (M.cos (s.theta + s.alpha_0))
          s.length_spar_0 s.center s.max_lead_edge s.max_trail_edge
          (s.max_trail_edge.sub s.max_lead_edge))
    (spar_in, spar_out)

/-- A spar region on the rectangular wing of chord 2 and span 10, the spar along the
mid-chord line, rotated by `theta`. -/
def spar_mid_chord {K : Type} [LinearOrderedField K] (theta : K) : SparRegion K :=
  { min_trail_edge := { x := 2, y := 0, z := 0 }
    min_lead_edge := { x := 0, y := 0, z := 0 }
    max_trail_edge := { x := 2, y := 10, z := 0 }
    max_lead_edge := { x := 0, y := 10, z := 0 }
    center := { x := 1, y := 5, z := 0 }
    theta := theta
    alpha_0 := 0
    beta_le := 0
    beta_te := 0
    max_angle_inner_le := 1 / 5
    max_angle_inner_te := -1 / 5
    max_angle_outer_le := -1 / 5
    max_angle_outer_te := 1 / 5
    expan := 1 / 10000
    length_spar_0 := 5 }

/-! ## Sizing of an axis-aligned slice plane -/

/-- The value of `vsp::XY_ABS`. -/
def XY_ABS : ℚ := 3

/-- The value of `vsp::XZ_ABS`. -/
def XZ_ABS : ℚ := 5

/-- Modelled from the spec: the class `BndBox` is declared outside the two source files;
a bounding box is kept as its minimum and maximum corner and `GetLargestDist()`;
`GetMin( i )`, `GetMax( i )` are the coordinates of the corners. -/
structure BndBox (K : Type) where
  GetMin : vec3d K
  GetMax : vec3d K
  GetLargestDist : K

/-- Modelled from the spec: `BndBox::GetCenter()`, the midpoint of the two corners. -/
def BndBox.GetCenter {K : Type} [LinearOrderedField K] (b : BndBox K) : vec3d K :=
  (b.GetMin.add b.GetMax).sdiv 2

/-- A division by the sine or the cosine of a rotation angle: whether the sine branch was
taken, the angle in radians, and the divisor. -/
structure TrigDivision (K : Type) where
  sine : Bool
  angle : K
  divisor : K

/-- The block that resizes the plane for one rotation (for instance lines 1578-1585): the
amount added to the extent, with the division by the sine or the cosine that it executes.
`atan` is the function of the C maths library. -/
def ComputeSliceSurf_resize_traced {K : Type} [LinearOrderedField K] (M : MathLib K)
    (atan : K → K) (angle num den : K) : K × List (TrigDivision K) :=
  if |angle| > atan (num / den) then
    (|num / M.sin angle|, [{ sine := true, angle := angle, divisor := M.sin angle }])
  else (|den / M.cos angle|, [{ sine := false, angle := angle, divisor := M.cos angle }])

/-- The extents `del_x_plus`, ... of the slice plane about its centre. -/
structure SliceExtents (K : Type) where
  del_x_plus : K
  del_x_minus : K
  del_y_plus : K
  del_y_minus : K
  del_z_plus : K
  del_z_minus : K

/-- The sizing of the slice plane in `FeaPart::ComputeSliceSurf` for the planes other than
`CONST_U` (lines 1503-1508 and 1561-1790): the centre of the slice, the six extents after
the resizing for the two rotations out of the plane and the swaps for negative angles, and
the divisions by a sine or cosine in the order of execution. `geom_bbox` is the bounding
box after `Expand( 0.5 )`. -/
def ComputeSliceSurf_sizes_traced {K : Type} [LinearOrderedField K] (M : MathLib K)
    (atan : K → K) (geom_bbox : BndBox K) (rel_center_location : K) (orientation_plane : ℚ)
    (x_rot y_rot z_rot : K) : vec3d K × SliceExtents K × List (TrigDivision K) :=
  let DEG_2_RAD := M.PI / 180
  let geom_center := geom_bbox.GetCenter
  let del_x := geom_bbox.GetMax.x - geom_bbox.GetMin.x
  let del_y := geom_bbox.GetMax.y - geom_bbox.GetMin.y
  let del_z := geom_bbox.GetMax.z - geom_bbox.GetMin.z
  let expan0 := geom_bbox.GetLargestDist * (1 / 100000)
  let expan := if expan0 < 1 / 1000000 then 1 / 1000000 else expan0
  if orientation_plane = YZ_BODY ∨ orientation_plane = YZ_ABS then
    let slice_center : vec3d K :=
      { x := geom_bbox.GetMin.x + del_x * rel_center_location, y := geom_center.y,
        z := geom_center.z }
    let x_off := (slice_center.sub geom_center).x
    let b1 := ComputeSliceSurf_resize_traced M atan (DEG_2_RAD * y_rot) (del_x + 2 * x_off) del_z
    let del_z_plus := expan + b1.1
    let b2 := ComputeSliceSurf_resize_traced M atan (DEG_2_RAD * y_rot) (del_x - 2 * x_off) del_z
    let del_z_minus := expan + b2.1
    let b3 := ComputeSliceSurf_resize_traced M atan (DEG_2_RAD * z_rot) (del_x + 2 * x_off) del_y
    let del_y_minus := expan + b3.1
    let b4 := ComputeSliceSurf_resize_traced M atan (DEG_2_RAD * z_rot) (del_x - 2 * x_off) del_y
    let del_y_plus := expan + b4.1
    (slice_center,
     { del_x_plus := expan, del_x_minus := expan
       del_y_plus := if z_rot < 0 then del_y_minus else del_y_plus
       del_y_minus := if z_rot < 0 then del_y_plus else del_y_minus
       del_z_plus := if y_rot < 0 then del_z_minus else del_z_plus
       del_z_minus := if y_rot < 0 then del_z_plus else del_z_minus },
     b1.2 ++ b2.2 ++ b3.2 ++ b4.2)
  else if orientation_plane = XY_BODY ∨ orientation_plane = XY_ABS then
    let slice_center : vec3d K :=
      { x := geom_center.x, y := geom_center.y,
        z := geom_bbox.GetMin.z + del_z * rel_center_location }
    let z_off := (slice_center.sub geom_center).z
    let b1 := ComputeSliceSurf_resize_traced M atan (DEG_2_RAD * y_rot) (del_z + 2 * z_off) del_x
    let del_x_minus := expan + b1.1
    let b2 := ComputeSliceSurf_resize_traced M atan (DEG_2_RAD * y_rot) (del_z - 2 * z_off) del_x
    let del_x_plus := expan + b2.1
    let b3 := ComputeSliceSurf_resize_traced M atan (DEG_2_RAD * x_rot) (del_z + 2 * z_off) del_y
    let del_y_plus := expan + b3.1
    let b4 := ComputeSliceSurf_resize_traced M atan (DEG_2_RAD * x_rot) (del_z - 2 * z_off) del_y
    let del_y_minus := expan + b4.1
    (slice_center,
     { del_x_plus := if y_rot < 0 then del_x_minus else del_x_plus
       del_x_minus := if y_rot < 0 then del_x_plus else del_x_minus
       del_y_plus := if x_rot < 0 then del_y_minus else del_y_plus
       del_y_minus := if x_rot < 0 then del_y_plus else del_y_minus
       del_z_plus := expan, del_z_minus := expan },
     b1.2 ++ b2.2 ++ b3.2 ++ b4.2)
  else if orientation_plane = XZ_BODY ∨ orientation_plane = XZ_ABS then
    let slice_center : vec3d K :=
      { x := geom_center.x, y := geom_bbox.GetMin.y + del_y * rel_center_location,
        z := geom_center.z }
    let y_off := (slice_center.sub geom_center).y
    let b1 := ComputeSliceSurf_resize_traced M atan (DEG_2_RAD * z_rot) (del_y + 2 * y_off) del_x
    let del_x_plus := expan + b1.1
    let b2 := ComputeSliceSurf_resize_traced M atan (DEG_2_RAD * z_rot) (del_y - 2 * y_off) del_x
    let del_x_minus := expan + b2.1
    let b3 := ComputeSliceSurf_resize_traced M atan (DEG_2_RAD * x_rot) (del_y + 2 * y_off) del_z
    let del_z_minus := expan + b3.1
    let b4 := ComputeSliceSurf_resize_traced M atan (DEG_2_RAD * x_rot) (del_y - 2 * y_off) del_z
    let del_z_plus := expan + b4.1
    (slice_center,
     { del_x_plus := if z_rot < 0 then del_x_minus else del_x_plus
       del_x_minus := if z_rot < 0 then del_x_plus else del_x_minus
       del_y_plus := expan, del_y_minus := expan
       del_z_plus := if x_rot < 0 then del_z_minus else del_z_plus
       del_z_minus := if x_rot < 0 then del_z_plus else del_z_minus },
     b1.2 ++ b2.2 ++ b3.2 ++ b4.2)
  else
    ({ x := 0, y := 0, z := 0 },
     { del_x_plus := expan, del_x_minus := expan, del_y_plus := expan, del_y_minus := expan
       del_z_plus := expan, del_z_minus := expan }, [])

/-- A bounding box with the corners `( 0, -1, -1 )` and `( 4, 1, 1 )`. -/
def bbox_4_2_2 {K : Type} [LinearOrderedField K] : BndBox K :=
  { GetMin := { x := 0, y := -1, z := -1 }, GetMax := { x := 4, y := 1, z := 1 }
    GetLargestDist := 4 }

/-! ## The rib plane -/

/-- What the order of the part list and the cross-references between parts read of a part:
its identifier `GetID()` (the class `ParmContainer`, declared outside the two source
files, gives every new object an identifier of its own), its type tag, and, for an object
of the class `FeaFixPoint`, the member `m_ParentFeaPartID` (`none` for the other classes). -/
structure PartEntry where
  m_ID : String
  m_FeaPartType : Int
  m_ParentFeaPartID : Option String
deriving DecidableEq

/-- `FeaStructure::GetFeaSkin` (lines 662-672) on the entries of the part list. -/
def GetFeaSkin_entries (parts : List PartEntry) : Option PartEntry :=
  parts.find? (fun p => p.m_FeaPartType = FEA_SKIN)

/-- `FeaStructure::AddFeaPart( int type )` (lines 153-208) on the entries of the part list;
`newID` is the identifier of the object that is appended. For `FEA_FIX_POINT` on a part
list with a skin the object is a `FeaFixPoint` constructed with `skin->GetID()`; in every
other case it stores no identifier of another part. The type tag of the object is `type`
in every case (`new FeaSlice` is tagged `FEA_SLICE`, and so on). -/
def AddFeaPart_entries (parts : List PartEntry) (type : Int) (newID : String) :
    List PartEntry :=
  let feaprt : PartEntry :=
    if type = FEA_FIX_POINT then
      match GetFeaSkin_entries parts with
      | some skin =>
        { m_ID := newID, m_FeaPartType := FEA_FIX_POINT, m_ParentFeaPartID := some skin.m_ID }
      | none => { m_ID := newID, m_FeaPartType := type, m_ParentFeaPartID := none }
    else { m_ID := newID, m_FeaPartType := type, m_ParentFeaPartID := none }
  parts ++ [feaprt]

/-- `FeaStructure::ValidFeaPartInd` (lines 410-420) on the entries of the part list. -/
def ValidFeaPartInd_entries (parts : List PartEntry) (ind : Int) : Bool :=
  (0 : Int) < parts.length ∧ 0 ≤ ind ∧ ind < parts.length

/-- `FeaStructure::DelFeaPart` (lines 210-217) on the entries of the part list. -/
def DelFeaPart_entries (parts : List PartEntry) (ind : Int) : List PartEntry :=
  if ValidFeaPartInd_entries parts ind then parts.eraseIdx ind.toNat else parts

/-- `FeaStructure::ReorderFeaPart` (lines 219-267) on the entries of the part list. -/
def ReorderFeaPart_entries (parts : List PartEntry) (ind action : Int) : List PartEntry :=
  if ¬ ValidFeaPartInd_entries parts ind then parts
  else
    let moved : List PartEntry := (parts[ind.toNat]?).toList
    if action = REORDER_MOVE_TOP ∨ action = REORDER_MOVE_BOTTOM then
      (if action = REORDER_MOVE_TOP then moved else []) ++ parts.eraseIdx ind.toNat ++
        (if action = REORDER_MOVE_BOTTOM then moved else [])
    else if action = REORDER_MOVE_UP ∨ action = REORDER_MOVE_DOWN then
      ReorderFeaPart_swap (action = REORDER_MOVE_DOWN) (action = REORDER_MOVE_UP) ind.toNat 0
        false parts
    else []

/-- The entry of the rib or slice that `AddFeaRib`, `AddFeaSlice` creates for a member of
an array: it stores no identifier of another part. -/
def PartEntry.member (member_type : Int) (id : String) : PartEntry :=
  { m_ID := id, m_FeaPartType := member_type, m_ParentFeaPartID := none }

/-- `FeaStructure::IndividualizeRibArray` (lines 551-589) and
`FeaStructure::IndividualizeSliceArray` (lines 591-629) on the entries of the part list:
when the part at the index is tagged `array_type` (`FEA_RIB_ARRAY`, `FEA_SLICE_ARRAY`), one
object tagged `member_type` (`FEA_RIB`, `FEA_SLICE`) is appended per member, with the
identifiers `newIDs` in the order of creation, and the array is deleted. -/
def Individualize_entries (array_type member_type : Int) (parts : List PartEntry) (ind : Int)
    (newIDs : List String) : List PartEntry :=
  if ¬ ValidFeaPartInd_entries parts ind then parts
  else
    match parts[ind.toNat]? with
    | none => parts
    | some prt =>
      if prt.m_FeaPartType = array_type then
        DelFeaPart_entries (parts ++ newIDs.map (PartEntry.member member_type)) ind
      else parts

/-- The identifier is new to the part list: no part has it and no fix point stores it. -/
def FreshID (parts : List PartEntry) (id : String) : Prop :=
  id ∉ parts.map PartEntry.m_ID ∧ some id ∉ parts.map PartEntry.m_ParentFeaPartID

/-- Each fix point stands later in the part list than the part it references, when that
part is in the list. `UpdateFeaParts` updates the parts in the order of the list. -/
def FixPointsAfterParents (parts : List PartEntry) : Prop :=
  ∀ (i j : Nat) (fix parent : PartEntry), parts[i]? = some fix → parts[j]? = some parent →
    fix.m_ParentFeaPartID = some parent.m_ID → j < i

/-- The part lists reachable from the list that the constructor leaves (no part) or that
`InitFeaSkin` leaves (the skin alone) through `AddFeaPart( type )`, `DelFeaPart`,
`IndividualizeRibArray` and `IndividualizeSliceArray`, every new object having an
identifier of its own. -/
inductive ReachableWithoutReorder : List PartEntry → Prop
  | constructed : ReachableWithoutReorder []
  | InitFeaSkin (id : String) :
    ReachableWithoutReorder [{ m_ID := id, m_FeaPartType := FEA_SKIN, m_ParentFeaPartID := none }]
  | AddFeaPart (parts : List PartEntry) (type : Int) (newID : String) :
    ReachableWithoutReorder parts → FreshID parts newID →
    ReachableWithoutReorder (AddFeaPart_entries parts type newID)
  | DelFeaPart (parts : List PartEntry) (ind : Int) :
    ReachableWithoutReorder parts → ReachableWithoutReorder (DelFeaPart_entries parts ind)
  | IndividualizeRibArray (parts : List PartEntry) (ind : Int) (newIDs : List String) :
    ReachableWithoutReorder parts → (∀ id ∈ newIDs, FreshID parts id) →
    ReachableWithoutReorder (Individualize_entries FEA_RIB_ARRAY FEA_RIB parts ind newIDs)
  | IndividualizeSliceArray (parts : List PartEntry) (ind : Int) (newIDs : List String) :
    ReachableWithoutReorder parts → (∀ id ∈ newIDs, FreshID parts id) →
    ReachableWithoutReorder (Individualize_entries FEA_SLICE_ARRAY FEA_SLICE parts ind newIDs)

/-- The skin alone, as `InitFeaSkin` leaves the part list; its identifier is "SKIN". -/
def entries_skin : List PartEntry :=
  [{ m_ID := "SKIN", m_FeaPartType := FEA_SKIN, m_ParentFeaPartID := none }]

/-- A structure with the skin alone. -/
def structure_skin : FeaStructure Nat :=
  { m_FeaPartVec := [samplePart FEA_SKIN "Skin" FeaPartClass.FeaSkin]
    m_FeaPartCount := 0
    m_MainSurfIndx := 0 }

/-! ## Binary64 arithmetic

The count derivation of a rib array, the member locations and the sizing of a slice
plane once more, with the rounding of IEEE 754 binary64 (`double`): every operation
returns the exact result rounded to the nearest number with 53 significant bits, ties
to the even significand. The exponent is not bounded, which agrees with binary64
wherever no subnormal number, overflow, infinity or NaN occurs; a division by zero is
`none`. -/

/-- The number of binary digits of `n` (0 for 0), by halving at most `fuel` times; `fuel = n`
is always enough. -/
def bitLength : Nat → Nat → Nat
  | 0, _ => 0
  | fuel + 1, n => if n = 0 then 0 else 1 + bitLength fuel (n / 2)

/-- A finite binary64 number, written `m * 2 ^ e`; after a rounding `|m| ≤ 2 ^ 53`. -/
structure Binary64 where
  m : Int
  e : Int
deriving DecidableEq

/-- The rational value of a binary64 number. -/
def Binary64.toRat (x : Binary64) : ℚ :=
  (x.m : ℚ) * (2 : ℚ) ^ x.e

/-- The binary64 number nearest to the rational `num / den` (`den > 0`), ties to the even
significand: with `e` such that `2 ^ 52 ≤ |num / den| / 2 ^ e < 2 ^ 53`, the significand
is `|num / den| / 2 ^ e` rounded to the nearest integer. -/
def Binary64.roundNearestEven (num : Int) (den : Nat) : Binary64 :=
  if num = 0 then { m := 0, e := 0 }
  else
    let a := num.natAbs
    let k : Int := (bitLength a a : Int) - (bitLength den den : Int)
    let ge : Bool := if 0 ≤ k then den * 2 ^ k.toNat ≤ a else den ≤ a * 2 ^ (-k).toNat
    let e : Int := (if ge then k else k - 1) - 52
    let N : Nat := if 0 ≤ e then a else a * 2 ^ (-e).toNat
    let D : Nat := if 0 ≤ e then den * 2 ^ e.toNat else den
    let q := N / D
    let r := N % D
    let q1 := if 2 * r < D then q else if D < 2 * r then q + 1 else if q % 2 = 0 then q else q + 1
    { m := if num < 0 then -(q1 : Int) else (q1 : Int), e := e }

/-- The conversion of an integer (`int`, `size_t`) to `double`. -/
def Binary64.ofInt (n : Int) : Binary64 :=
  Binary64.roundNearestEven n 1

/-- The binary64 sum `x + y`. -/
def Binary64.add (x y : Binary64) : Binary64 :=
  let emin := min x.e y.e
  let s := x.m * 2 ^ (x.e - emin).toNat + y.m * 2 ^ (y.e - emin).toNat
  if 0 ≤ emin then Binary64.roundNearestEven (s * 2 ^ emin.toNat) 1
  else Binary64.roundNearestEven s (2 ^ (-emin).toNat)

/-- The negation `-x`, which is exact. -/
def Binary64.neg (x : Binary64) : Binary64 :=
  { x with m := -x.m }

/-- The absolute value `abs( x )`, which is exact. -/
def Binary64.abs (x : Binary64) : Binary64 :=
  { x with m := |x.m| }

/-- The binary64 difference `x - y`. -/
def Binary64.sub (x y : Binary64) : Binary64 :=
  x.add y.neg

/-- The binary64 product `x * y`. -/
def Binary64.mul (x y : Binary64) : Binary64 :=
  let e := x.e + y.e
  if 0 ≤ e then Binary64.roundNearestEven (x.m * y.m * 2 ^ e.toNat) 1
  else Binary64.roundNearestEven (x.m * y.m) (2 ^ (-e).toNat)

/-- The binary64 quotient `x / y`; `none` for a zero divisor, where the program obtains
an infinity or a NaN. -/
def Binary64.div (x y : Binary64) : Option Binary64 :=
  if y.m = 0 then none
  else
    let e := x.e - y.e
    let num := if y.m < 0 then -x.m else x.m
    if 0 ≤ e then some (Binary64.roundNearestEven (num * 2 ^ e.toNat) y.m.natAbs)
    else some (Binary64.roundNearestEven num (y.m.natAbs * 2 ^ (-e).toNat))

/-- The value of `(int)floor( x )`. -/
def Binary64.floor (x : Binary64) : Int :=
  if 0 ≤ x.e then x.m * 2 ^ x.e.toNat else x.m / 2 ^ (-x.e).toNat

/-- The comparison `x < y`. -/
def Binary64.lt (x y : Binary64) : Bool :=
  let emin := min x.e y.e
  x.m * 2 ^ (x.e - emin).toNat < y.m * 2 ^ (y.e - emin).toNat

/-- The comparison `x <= y`. -/
def Binary64.le (x y : Binary64) : Bool :=
  let emin := min x.e y.e
  x.m * 2 ^ (x.e - emin).toNat ≤ y.m * 2 ^ (y.e - emin).toNat

/-- The count that `FeaRibArray::CalcNumRibs` derives in relative mode (lines 3357-3367)
in binary64: `1 + (int)floor( ( 1 - m_RelStartLocation() ) / m_RibRelSpacing() )` for the
positive direction and `1 + (int)floor( m_RelStartLocation() / m_RibRelSpacing() )` for
the negative one. -/
def CalcNumRibs_binary64 (m_RelStartLocation m_RibRelSpacing : Binary64)
    (m_PositiveDirectionFlag : Bool) : Option Int :=
  if m_PositiveDirectionFlag then
    (((Binary64.ofInt 1).sub m_RelStartLocation).div m_RibRelSpacing).map
      (fun q => 1 + q.floor)
  else (m_RelStartLocation.div m_RibRelSpacing).map (fun q => 1 + q.floor)

/-- The value of `rel_center_location` for member `i` in the loop of
`FeaRibArray::CreateFeaRibArray` (lines 3410-3419) in binary64:
`m_RelStartLocation() + dir * i * m_RibRelSpacing()`, evaluated from left to right with
`i` converted to `double`. -/
def CreateFeaRibArray_location_binary64 (m_RelStartLocation m_RibRelSpacing : Binary64)
    (m_PositiveDirectionFlag : Bool) (i : Nat) : Binary64 :=
  let dir : Binary64 := if ¬ m_PositiveDirectionFlag then Binary64.ofInt (-1) else Binary64.ofInt 1
  m_RelStartLocation.add ((dir.mul (Binary64.ofInt i)).mul m_RibRelSpacing)

/-- The functions of the C maths library that the sizing of a slice plane calls, and the
constant `DEG_2_RAD`, on binary64 numbers. -/
structure MathLib64 where
  sin : Binary64 → Binary64
  cos : Binary64 → Binary64
  atan : Binary64 → Binary64
  DEG_2_RAD : Binary64

/-- The numerator `del_x + 2 * x_off` of the first resizing block of
`FeaPart::ComputeSliceSurf` for a plane parallel to YZ (lines 1503, 1573-1578) in
binary64. `GetMin_x` and `GetMax_x` are the x coordinates of the corners of `geom_bbox`
after `Expand( 0.5 )`; `BndBox::GetCenter()` is `( min + max ) * 0.5`. -/
def ComputeSliceSurf_numerator_binary64 (GetMin_x GetMax_x rel_center_location : Binary64) :
    Binary64 :=
  let del_x := GetMax_x.sub GetMin_x
  let geom_center_x := (GetMin_x.add GetMax_x).mul (Binary64.roundNearestEven 1 2)
  let slice_center_x := GetMin_x.add (del_x.mul rel_center_location)
  let x_off := slice_center_x.sub geom_center_x
  del_x.add ((Binary64.ofInt 2).mul x_off)

/-- The first resizing block of `FeaPart::ComputeSliceSurf` for a plane parallel to YZ
(lines 1578-1585) in binary64, up to the division by the sine or the cosine that it
executes: the test `abs( DEG_2_RAD * y_rot ) > atan( ( del_x + 2 * x_off ) / del_z )`
selects the sine branch. `del_z` is the extent of `geom_bbox` in z; the result is `none`
when `del_z` is zero. -/
def ComputeSliceSurf_resize_binary64 (L : MathLib64) (GetMin_x GetMax_x del_z
    rel_center_location y_rot : Binary64) : Option (TrigDivision Binary64) :=
  let num := ComputeSliceSurf_numerator_binary64 GetMin_x GetMax_x rel_center_location
  let angle := L.DEG_2_RAD.mul y_rot
  match num.div del_z with
  | none => none
  | some q =>
    if (L.atan q).lt angle.abs then
      some { sine := true, angle := angle, divisor := L.sin angle }
    else some { sine := false, angle := angle, divisor := L.cos angle }

/-- A maths library made of first-order approximations: `sin x = x`, `cos x = 1`,
`atan x = x`, with `DEG_2_RAD` the binary64 number nearest to `PI / 180`,
`0.017453292519943295`. -/
def mathLib64_first_order : MathLib64 :=
  { sin := fun x => x
    cos := fun _ => Binary64.ofInt 1
    atan := fun x => x
    DEG_2_RAD := { m := 5030569068109113, e := -58 } }

/-! ## Lemmas on the count derivation -/

theorem CalcNumRibs_rel_start (wing : WingGeom) (a : FeaRibArray)
    (hrel : a.m_AbsRelParmFlag = ABS_REL_FLAG.REL) :
    (a.CalcNumRibs (some wing)).m_RelStartLocation = a.m_RelStartLocation := by
  unfold FeaRibArray.CalcNumRibs
  simp only [hrel]
  split <;> rfl

theorem CalcNumRibs_rel_spacing (wing : WingGeom) (a : FeaRibArray)
    (hrel : a.m_AbsRelParmFlag = ABS_REL_FLAG.REL) :
    (a.CalcNumRibs (some wing)).m_RibRelSpacing.val = a.m_RibRelSpacing.val := by
  unfold FeaRibArray.CalcNumRibs
  simp only [hrel]
  split <;> rfl

theorem CalcNumRibs_rel_direction (wing : WingGeom) (a : FeaRibArray)
    (hrel : a.m_AbsRelParmFlag = ABS_REL_FLAG.REL) :
    (a.CalcNumRibs (some wing)).m_PositiveDirectionFlag = a.m_PositiveDirectionFlag := by
  unfold FeaRibArray.CalcNumRibs
  simp only [hrel]
  split <;> rfl

theorem CalcNumRibs_rel_count (wing : WingGeom) (a : FeaRibArray)
    (hrel : a.m_AbsRelParmFlag = ABS_REL_FLAG.REL) :
    (a.CalcNumRibs (some wing)).m_NumRibs =
      1 + ⌊(if a.m_PositiveDirectionFlag then 1 - a.m_RelStartLocation.val
            else a.m_RelStartLocation.val) / a.m_RibRelSpacing.val⌋ := by
  unfold FeaRibArray.CalcNumRibs
  simp only [hrel]
  split <;> rename_i h <;> simp [h, Parm.SetLowerUpperLimits]

/-! ## Placement resolver -/

/-- C2: on the two-section wing with spans 2 and 8 (no end caps, `U_max = 2`) and
relative location 0.75, `GetRibPerU` returns 15/8, although the only section whose
cumulative-span interval contains `r * S = 7.5` is section 2 and the interpolation
asked for gives `(1 + (7.5 - 2) / 8) / 2 = 27/32`: the search compares the relative
location with the absolute cumulative spans and so selects section 1. On two sections
of span 5 each, `r = 0.5` does resolve to the station `U = 1` of `U_max = 2`. -/
theorem GetRibPerU_selects_wrong_section :
    GetRibPerU (some wing_2_8) (3 / 4) = some (15 / 8) ∧
    (∀ k : Nat, 1 ≤ k → k ≤ 2 →
      (([2, 8] : List ℚ).take (k - 1)).sum ≤ (3 / 4 : ℚ) * ([2, 8] : List ℚ).sum →
      (3 / 4 : ℚ) * ([2, 8] : List ℚ).sum ≤ (([2, 8] : List ℚ).take k).sum →
      specRibPerU [2, 8] true 2 (3 / 4) k = 27 / 32) ∧
    GetRibPerU (some wing_5_5) (1 / 2) = some (1 / 2) := by
  refine ⟨?_, ?_, ?_⟩
  · simp [GetRibPerU, GetRibPerU_search, wing_2_8, WingGeom.totalSpan, vecAt]
    norm_num
  · intro k h1 h2 hlo hhi
    interval_cases k
    · norm_num at hhi
    · norm_num [specRibPerU]
  · simp [GetRibPerU, GetRibPerU_search, wing_5_5, WingGeom.totalSpan, vecAt]
    norm_num

/-- C3: on the two-section wing with spans 2 and 8, a root cap and a tip cap
(`U_max = 4`), the relative location 0.75 makes `GetRibPerU` return 19/16, which is
above 1. -/
theorem GetRibPerU_exceeds_one :
    ∃ per_u : ℚ, GetRibPerU (some wing_2_8_capped) (3 / 4) = some per_u ∧ 1 < per_u := by
  refine ⟨19 / 16, ?_, by norm_num⟩
  simp [GetRibPerU, GetRibPerU_search, wing_2_8_capped, WingGeom.totalSpan, vecAt]
  norm_num

/-! ## Array expander -/

/-- C4: in absolute mode and negative direction, on a wing of total span 10 with
start 4 and spacing 1, `CalcNumRibs` sets the count to `1 + floor( 10 / 1 ) = 11`
(the whole span over the spacing), not to `1 + floor( 4 / 1 ) = 5` (the distance from
the start to the near end over the spacing). -/
theorem CalcNumRibs_abs_negative_counts_whole_span :
    (ribArray_abs_negative.CalcNumRibs (some wing_5_5)).m_NumRibs = 11 ∧
    (1 : Int) + ⌊(ribArray_abs_negative.CalcNumRibs (some wing_5_5)).m_AbsStartLocation.val /
      (ribArray_abs_negative.CalcNumRibs (some wing_5_5)).m_RibAbsSpacing.val⌋ = 5 := by
  norm_num [FeaRibArray.CalcNumRibs, ribArray_abs_negative, FeaRibArray.new, wing_5_5,
    WingGeom.totalSpan, Parm.Set, Parm.Init, Parm.SetLowerUpperLimits]

/-- C5: with the spacing equal to the lower limit that the derivation installs
(start 0.21875, relative spacing 0.0078125 = (1 - 0.21875) / 100, positive direction),
the spacing lies within its limits and `CalcNumRibs` yields 101 ribs; the same input
makes `CalcNumSlices` yield 101 slices. -/
theorem CalcNum_at_lower_limit_is_101 :
    ((ribArray_at_lower_limit.CalcNumRibs (some wing_5_5)).m_RibRelSpacing.lower ≤
        (ribArray_at_lower_limit.CalcNumRibs (some wing_5_5)).m_RibRelSpacing.val ∧
      (ribArray_at_lower_limit.CalcNumRibs (some wing_5_5)).m_RibRelSpacing.val ≤
        (ribArray_at_lower_limit.CalcNumRibs (some wing_5_5)).m_RibRelSpacing.upper ∧
      (ribArray_at_lower_limit.CalcNumRibs (some wing_5_5)).m_NumRibs = 101) ∧
    ((sliceArray_at_lower_limit.CalcNumSlices (some 10)).m_SliceRelSpacing.lower ≤
        (sliceArray_at_lower_limit.CalcNumSlices (some 10)).m_SliceRelSpacing.val ∧
      (sliceArray_at_lower_limit.CalcNumSlices (some 10)).m_SliceRelSpacing.val ≤
        (sliceArray_at_lower_limit.CalcNumSlices (some 10)).m_SliceRelSpacing.upper ∧
      (sliceArray_at_lower_limit.CalcNumSlices (some 10)).m_NumSlices = 101) := by
  simp [FeaRibArray.CalcNumRibs, ribArray_at_lower_limit, FeaRibArray.new,
    FeaSliceArray.CalcNumSlices, sliceArray_at_lower_limit, FeaSliceArray.new, wing_5_5,
    WingGeom.totalSpan, Parm.Set, Parm.Init, Parm.SetLowerUpperLimits]
  norm_num

/-- C6: in relative mode with the start location in [0,1] and a spacing `s > 0`, the
count that `CalcNumRibs` derives with spacing `s / 2` is at least the count it derives
with spacing `s`, in both directions (the bounds of the allowed spacing range are not
needed for this). -/
theorem CalcNumRibs_halving_spacing_monotone (wing : WingGeom) (a : FeaRibArray) (s : ℚ)
    (hrel : a.m_AbsRelParmFlag = ABS_REL_FLAG.REL)
    (h0 : 0 ≤ a.m_RelStartLocation.val) (h1 : a.m_RelStartLocation.val ≤ 1)
    (hs : 0 < s) :
    ((a.withRelSpacing s).CalcNumRibs (some wing)).m_NumRibs ≤
    ((a.withRelSpacing (s / 2)).CalcNumRibs (some wing)).m_NumRibs := by
  rw [CalcNumRibs_rel_count wing (a.withRelSpacing s) hrel,
    CalcNumRibs_rel_count wing (a.withRelSpacing (s / 2)) hrel]
  have hrem : 0 ≤ (if a.m_PositiveDirectionFlag then 1 - a.m_RelStartLocation.val
      else a.m_RelStartLocation.val) := by
    split <;> linarith
  simp only [FeaRibArray.withRelSpacing]
  apply add_le_add_left
  apply Int.floor_le_floor
  apply div_le_div_of_nonneg_left hrem (by linarith) (by linarith)

/-- Witness of C6: start 0, spacing 0.25 against 0.125 on the wing of span 10. -/
theorem CalcNumRibs_halving_spacing_monotone_witness :
    ((ribArray_quarter.withRelSpacing (1 / 4)).CalcNumRibs (some wing_5_5)).m_NumRibs ≤
    ((ribArray_quarter.withRelSpacing (1 / 4 / 2)).CalcNumRibs (some wing_5_5)).m_NumRibs :=
  CalcNumRibs_halving_spacing_monotone wing_5_5 ribArray_quarter (1 / 4) rfl
    (by simp [ribArray_quarter, FeaRibArray.new, Parm.Init])
    (by simp [ribArray_quarter, FeaRibArray.new, Parm.Init])
    (by norm_num)

/-- In exact arithmetic: in relative mode with the start location in [0,1] and a positive
spacing, the count derived by `CalcNumRibs` is at least 1, the members generated by
`CreateFeaRibArray` are exactly the points `start + dir * i * spacing` for
`i = 0 .. count - 1`, each of them lies in [0,1], and the next point of the
progression (`i = count`) lies outside [0,1]. -/
theorem CreateFeaRibArray_members_fill_unit_interval (wing : WingGeom) (a : FeaRibArray)
    (hrel : a.m_AbsRelParmFlag = ABS_REL_FLAG.REL)
    (h0 : 0 ≤ a.m_RelStartLocation.val) (h1 : a.m_RelStartLocation.val ≤ 1)
    (hs : 0 < a.m_RibRelSpacing.val) :
    1 ≤ (a.CalcNumRibs (some wing)).m_NumRibs ∧
    (a.CalcNumRibs (some wing)).CreateFeaRibArray_locations =
      (List.range (a.CalcNumRibs (some wing)).m_NumRibs.toNat).map a.progression ∧
    (∀ i : Nat, (i : Int) < (a.CalcNumRibs (some wing)).m_NumRibs →
      0 ≤ a.progression i ∧ a.progression i ≤ 1) ∧
    (a.progression (a.CalcNumRibs (some wing)).m_NumRibs.toNat < 0 ∨
      1 < a.progression (a.CalcNumRibs (some wing)).m_NumRibs.toNat) := by
  have hcount := CalcNumRibs_rel_count wing a hrel
  have hstart := CalcNumRibs_rel_start wing a hrel
  have hsp := CalcNumRibs_rel_spacing wing a hrel
  have hdir := CalcNumRibs_rel_direction wing a hrel
  obtain ⟨sp, hspdef⟩ : ∃ sp : ℚ, sp = a.m_RibRelSpacing.val := ⟨_, rfl⟩
  obtain ⟨st, hstdef⟩ : ∃ st : ℚ, st = a.m_RelStartLocation.val := ⟨_, rfl⟩
  obtain ⟨rem, hremdef⟩ : ∃ rem : ℚ, rem = (if a.m_PositiveDirectionFlag then 1 - st else st) :=
    ⟨_, rfl⟩
  rw [← hspdef] at hs hsp hcount
  rw [← hstdef] at h0 h1 hcount
  rw [← hremdef] at hcount
  have hrem : 0 ≤ rem := by
    rw [hremdef]; split <;> linarith
  have hfloor : 0 ≤ ⌊rem / sp⌋ := Int.floor_nonneg.mpr (div_nonneg hrem hs.le)
  have hle : (⌊rem / sp⌋ : ℚ) * sp ≤ rem := by
    have := Int.floor_le (rem / sp)
    calc (⌊rem / sp⌋ : ℚ) * sp ≤ rem / sp * sp := by
          exact mul_le_mul_of_nonneg_right this hs.le
      _ = rem := div_mul_cancel₀ rem hs.ne'
  have hlt : rem < ((⌊rem / sp⌋ : ℚ) + 1) * sp := by
    have := Int.lt_floor_add_one (rem / sp)
    calc rem = rem / sp * sp := (div_mul_cancel₀ rem hs.ne').symm
      _ < ((⌊rem / sp⌋ : ℚ) + 1) * sp := mul_lt_mul_of_pos_right this hs
  refine ⟨by rw [hcount]; linarith, ?_, ?_, ?_⟩
  · unfold FeaRibArray.CreateFeaRibArray_locations
    apply List.map_congr_left
    intro i _
    simp only [FeaRibArray.progression, hstart, hsp, hdir, ← hspdef]
    cases a.m_PositiveDirectionFlag <;> simp
  · intro i hi
    rw [hcount] at hi
    have hi' : (i : Int) ≤ ⌊rem / sp⌋ := by linarith
    have hiq : (i : ℚ) ≤ (⌊rem / sp⌋ : ℚ) := by exact_mod_cast hi'
    have hisp : (i : ℚ) * sp ≤ rem := le_trans (mul_le_mul_of_nonneg_right hiq hs.le) hle
    have hin : 0 ≤ (i : ℚ) * sp := mul_nonneg (Nat.cast_nonneg i) hs.le
    unfold FeaRibArray.progression
    rw [← hspdef, ← hstdef]
    cases hflag : a.m_PositiveDirectionFlag <;> simp [hflag] at hremdef ⊢ <;>
      constructor <;> linarith
  · rw [hcount]
    have hnat : ((1 + ⌊rem / sp⌋).toNat : ℚ) = (⌊rem / sp⌋ : ℚ) + 1 := by
      have h1f : 0 ≤ 1 + ⌊rem / sp⌋ := by linarith
      have : ((1 + ⌊rem / sp⌋).toNat : Int) = 1 + ⌊rem / sp⌋ := Int.toNat_of_nonneg h1f
      have hq : (((1 + ⌊rem / sp⌋).toNat : Int) : ℚ) = ((1 + ⌊rem / sp⌋ : Int) : ℚ) := by
        rw [this]
      push_cast at hq
      linarith
    unfold FeaRibArray.progression
    rw [← hspdef, ← hstdef, hnat]
    cases hflag : a.m_PositiveDirectionFlag <;> simp [hflag] at hremdef ⊢
    · left; linarith
    · right; linarith

/-- In exact arithmetic, start 0.0, relative spacing 0.25, positive direction gives exactly
the 5 members 0.0, 0.25, 0.5, 0.75, 1.0, and the general statement holds at this input. -/
theorem CreateFeaRibArray_members_fill_unit_interval_witness :
    (ribArray_quarter.CalcNumRibs (some wing_5_5)).m_NumRibs = 5 ∧
    (ribArray_quarter.CalcNumRibs (some wing_5_5)).CreateFeaRibArray_locations =
      [0, 1 / 4, 1 / 2, 3 / 4, 1] ∧
    (1 ≤ (ribArray_quarter.CalcNumRibs (some wing_5_5)).m_NumRibs ∧
      (ribArray_quarter.CalcNumRibs (some wing_5_5)).CreateFeaRibArray_locations =
        (List.range (ribArray_quarter.CalcNumRibs (some wing_5_5)).m_NumRibs.toNat).map
          ribArray_quarter.progression ∧
      (∀ i : Nat, (i : Int) < (ribArray_quarter.CalcNumRibs (some wing_5_5)).m_NumRibs →
        0 ≤ ribArray_quarter.progression i ∧ ribArray_quarter.progression i ≤ 1) ∧
      (ribArray_quarter.progression
          (ribArray_quarter.CalcNumRibs (some wing_5_5)).m_NumRibs.toNat < 0 ∨
        1 < ribArray_quarter.progression
          (ribArray_quarter.CalcNumRibs (some wing_5_5)).m_NumRibs.toNat)) := by
  have hn : (ribArray_quarter.CalcNumRibs (some wing_5_5)).m_NumRibs = 5 := by
    norm_num [FeaRibArray.CalcNumRibs, ribArray_quarter, FeaRibArray.new, wing_5_5,
      WingGeom.totalSpan, Parm.Set, Parm.Init, Parm.SetLowerUpperLimits]
  refine ⟨hn, ?_, CreateFeaRibArray_members_fill_unit_interval wing_5_5 ribArray_quarter rfl
    (by simp [ribArray_quarter, FeaRibArray.new, Parm.Init])
    (by simp [ribArray_quarter, FeaRibArray.new, Parm.Init])
    (by norm_num [ribArray_quarter, FeaRibArray.new, Parm.Init])⟩
  unfold FeaRibArray.CreateFeaRibArray_locations
  rw [hn]
  norm_num [FeaRibArray.CalcNumRibs, ribArray_quarter, FeaRibArray.new, wing_5_5,
    WingGeom.totalSpan, Parm.Set, Parm.Init, Parm.SetLowerUpperLimits, List.range_succ,
    Int.toNat]

/-! ## The count and the members in binary64 -/

theorem Binary64_roundNearestEven_samples :
    Binary64.roundNearestEven 1 10 = { m := 7205759403792794, e := -56 } ∧
    Binary64.roundNearestEven 3 10 = { m := 5404319552844595, e := -54 } ∧
    Binary64.roundNearestEven 1 2 = { m := 4503599627370496, e := -53 } ∧
    Binary64.roundNearestEven (2 ^ 53 + 1) 1 = { m := 4503599627370496, e := 1 } ∧
    Binary64.roundNearestEven (2 ^ 53 + 3) 1 = { m := 4503599627370498, e := 1 } ∧
    Binary64.roundNearestEven (-7) 4 = { m := -7881299347898368, e := -52 } := by
  refine ⟨?_, ?_, ?_, ?_, ?_, ?_⟩ <;> rfl

set_option maxRecDepth 100000 in
/-- C7: in binary64, a rib array in relative mode with start 0.3 and relative spacing 0.1
(the `double`s nearest to these), positive direction: `( 1 - 0.3 ) / 0.1` is
6.999999999999999 (below 7), so `CalcNumRibs` derives the count 7, and the last member
is at 0.9000000000000001; the next point of the progression, `0.3 + 1 * 7 * 0.1` as
`CreateFeaRibArray` computes it, is exactly 1, inside `[0, 1]`. For start 0 and spacing
0.25 the count is 5 and the members are exactly 0, 0.25, 0.5, 0.75, 1. -/
theorem CalcNumRibs_binary64_stops_before_one :
    (((Binary64.ofInt 1).sub (Binary64.roundNearestEven 3 10)).div
      (Binary64.roundNearestEven 1 10)).map Binary64.toRat =
        some (7881299347898367 / 2 ^ 50) ∧
    (7881299347898367 / 2 ^ 50 : ℚ) < 7 ∧
    CalcNumRibs_binary64 (Binary64.roundNearestEven 3 10) (Binary64.roundNearestEven 1 10)
      true = some 7 ∧
    (CreateFeaRibArray_location_binary64 (Binary64.roundNearestEven 3 10)
      (Binary64.roundNearestEven 1 10) true 6).toRat = 8106479329266894 / 2 ^ 53 ∧
    (CreateFeaRibArray_location_binary64 (Binary64.roundNearestEven 3 10)
      (Binary64.roundNearestEven 1 10) true 7).toRat = 1 ∧
    CalcNumRibs_binary64 (Binary64.ofInt 0) (Binary64.roundNearestEven 1 4) true = some 5 ∧
    (List.range 5).map (fun i => (CreateFeaRibArray_location_binary64 (Binary64.ofInt 0)
      (Binary64.roundNearestEven 1 4) true i).toRat) = [0, 1 / 4, 1 / 2, 3 / 4, 1] := by
  have h1 : ((Binary64.ofInt 1).sub (Binary64.roundNearestEven 3 10)).div
      (Binary64.roundNearestEven 1 10) = some { m := 7881299347898367, e := -50 } := by rfl
  have h6 : CreateFeaRibArray_location_binary64 (Binary64.roundNearestEven 3 10)
      (Binary64.roundNearestEven 1 10) true 6 = { m := 8106479329266894, e := -53 } := by rfl
  have h7 : CreateFeaRibArray_location_binary64 (Binary64.roundNearestEven 3 10)
      (Binary64.roundNearestEven 1 10) true 7 = { m := 4503599627370496, e := -52 } := by rfl
  have hl : (List.range 5).map (fun i => CreateFeaRibArray_location_binary64 (Binary64.ofInt 0)
      (Binary64.roundNearestEven 1 4) true i) =
      [{ m := 0, e := 0 }, { m := 4503599627370496, e := -54 },
       { m := 4503599627370496, e := -53 }, { m := 6755399441055744, e := -53 },
       { m := 4503599627370496, e := -52 }] := by rfl
  refine ⟨?_, by norm_num, by rfl, ?_, ?_, by rfl, ?_⟩
  · rw [h1]
    norm_num [Binary64.toRat]
  · rw [h6]
    norm_num [Binary64.toRat]
  · rw [h7]
    norm_num [Binary64.toRat]
  · have := congrArg (List.map Binary64.toRat) hl
    simp only [List.map_map] at this
    rw [show (fun i => (CreateFeaRibArray_location_binary64 (Binary64.ofInt 0)
      (Binary64.roundNearestEven 1 4) true i).toRat) = Binary64.toRat ∘ (fun i =>
        CreateFeaRibArray_location_binary64 (Binary64.ofInt 0)
          (Binary64.roundNearestEven 1 4) true i) from rfl, this]
    norm_num [Binary64.toRat]

/-! ## Lemmas on the surface lists -/

theorem assignAt_of_lt {α : Type} (v : List α) (i : Nat) (x : α) (h : i < v.length) :
    assignAt v i x = some (v.set i x) := by
  simp [assignAt, h]

theorem copyFromPrevious_spec {α : Type} (base : Nat) :
    ∀ (n j : Nat) (v : List α), 1 ≤ j → base + j + n ≤ v.length →
      ∃ v1, copyFromPrevious base n j v = some v1 ∧ v1.length = v.length ∧
        ∀ k, k < base + j → v1[k]? = v[k]? := by
  intro n
  induction n with
  | zero =>
    intro j v _ _
    exact ⟨v, rfl, rfl, fun _ _ => rfl⟩
  | succ n ih =>
    intro j v hj hlen
    have h1 : base + j - 1 < v.length := by omega
    have h2 : base + j < v.length := by omega
    obtain ⟨v1, hv1, hl1, hp1⟩ := ih (j + 1) (v.set (base + j) v[base + j - 1]) (by omega)
      (by simp; omega)
    refine ⟨v1, ?_, ?_, ?_⟩
    · simp [copyFromPrevious, List.getElem?_eq_getElem h1, assignAt, h2, hv1]
    · simpa using hl1
    · intro k hk
      rw [hp1 k (by omega)]
      simp [List.getElem?_set]
      omega

theorem flip_to_match {Core : Type} (parent s1 : VspSurf Core) :
    (if parent.GetFlipNormal ≠ s1.GetFlipNormal then s1.FlipNormal else s1).GetFlipNormal =
      parent.GetFlipNormal := by
  unfold VspSurf.GetFlipNormal VspSurf.FlipNormal
  cases hp : parent.m_FlipNormal <;> cases hs : s1.m_FlipNormal <;> simp [hs]

theorem applyTransformations_spec {Core Mat : Type} (g : Geom Core Mat) (base : Nat) :
    ∀ (n j : Nat) (v : List (VspSurf Core)), base + j + n ≤ v.length →
      j + n ≤ g.GetFeaTransMatVec.length → j + n ≤ g.surf_vec.length →
      ∃ v1, applyTransformations g base n j v = some v1 ∧ v1.length = v.length ∧
        (∀ k, k < base + j → v1[k]? = v[k]?) ∧
        (∀ i, j ≤ i → i < j + n → ∃ s parent, v1[base + i]? = some s ∧
          g.surf_vec[i]? = some parent ∧ s.GetFlipNormal = parent.GetFlipNormal) := by
  intro n
  induction n with
  | zero =>
    intro j v _ _ _
    exact ⟨v, rfl, rfl, fun _ _ => rfl, fun i h1 h2 => by omega⟩
  | succ n ih =>
    intro j v hlen hmat hsurf
    have h1 : base + j < v.length := by omega
    have h2 : j < g.GetFeaTransMatVec.length := by omega
    have h3 : j < g.surf_vec.length := by omega
    obtain ⟨s2, hs2⟩ : ∃ s2 : VspSurf Core, s2 =
        (if g.surf_vec[j].GetFlipNormal ≠
            (g.Transform v[base + j] g.GetFeaTransMatVec[j]).GetFlipNormal
          then (g.Transform v[base + j] g.GetFeaTransMatVec[j]).FlipNormal
          else g.Transform v[base + j] g.GetFeaTransMatVec[j]) := ⟨_, rfl⟩
    obtain ⟨v1, hv1, hl1, hp1, hf1⟩ := ih (j + 1) (v.set (base + j) s2)
      (by simp; omega) (by omega) (by omega)
    refine ⟨v1, ?_, ?_, ?_, ?_⟩
    · simp only [applyTransformations, List.getElem?_eq_getElem h1, List.getElem?_eq_getElem h2,
        List.getElem?_eq_getElem h3]
      rw [← hs2]
      exact hv1
    · simpa using hl1
    · intro k hk
      rw [hp1 k (by omega)]
      simp [List.getElem?_set]
      omega
    · intro i hi1 hi2
      by_cases hij : i = j
      · subst hij
        refine ⟨s2, g.surf_vec[i], ?_, List.getElem?_eq_getElem h3, ?_⟩
        · rw [hp1 (base + i) (by omega)]
          simp [List.getElem?_set, h1]
        · rw [hs2]
          exact flip_to_match _ _
      · exact hf1 i (by omega) (by omega)

theorem UpdateSymmIndex_found {Core Mat : Type} [Inhabited Core] (g : Geom Core Mat)
    (hg : g.Consistent) (p : FeaPart Core) (l : List Nat)
    (hl : g.GetSymmIndexs p.m_MainSurfIndx = some l) :
    p.UpdateSymmIndex (some g) = some
      { p with m_SymmIndexVec := l
               m_FeaPartSurfVec := List.replicate l.length VspSurf.new } := by
  simp [FeaPart.UpdateSymmIndex, hl, (hg.1 _ _ hl).1]

theorem surfAt_negative {Core Mat : Type} (g : Geom Core Mat) :
    g.surfAt (-1) = none := by
  simp [Geom.surfAt]

theorem GetSymmIndexs_negative {Core Mat : Type} (g : Geom Core Mat) (hg : g.Consistent) :
    g.GetSymmIndexs (-1) = none := by
  cases h : g.GetSymmIndexs (-1) with
  | none => rfl
  | some l =>
    have := hg.2.2.2.2 (-1) (by rw [h]; rfl)
    rw [surfAt_negative] at this
    exact absurd this (by simp)

theorem UpdateSymmIndex_negative {Core Mat : Type} [Inhabited Core] (g : Geom Core Mat)
    (hg : g.Consistent) (p : FeaPart Core) (h : p.m_MainSurfIndx = -1) :
    p.UpdateSymmIndex (some g) = none := by
  simp [FeaPart.UpdateSymmIndex, h, GetSymmIndexs_negative g hg]

theorem setPrimaryAndCopies_spec {Core : Type} (p : FeaPart Core) (primary : VspSurf Core)
    (h1 : 1 ≤ p.m_FeaPartSurfVec.length)
    (hlen : p.m_SymmIndexVec.length ≤ p.m_FeaPartSurfVec.length) :
    ∃ p2, setPrimaryAndCopies p primary = some p2 ∧
      p2.m_FeaPartType = p.m_FeaPartType ∧ p2.m_Name = p.m_Name ∧
      p2.m_SymmIndexVec = p.m_SymmIndexVec ∧ p2.cls = p.cls ∧
      p2.m_FeaPartSurfVec.length = p.m_FeaPartSurfVec.length ∧
      p2.m_FeaPartSurfVec[0]? = some primary := by
  have h0 : 0 < p.m_FeaPartSurfVec.length := h1
  obtain ⟨v1, hv1, hl1, hp1⟩ := copyFromPrevious_spec 0 (p.m_SymmIndexVec.length - 1) 1
    (p.m_FeaPartSurfVec.set 0 primary) (le_refl 1) (by simp; omega)
  refine ⟨{ p with m_FeaPartSurfVec := v1 }, ?_, rfl, rfl, rfl, rfl, by simpa using hl1, ?_⟩
  · simp [setPrimaryAndCopies, assignAt, h0, hv1]
  · show v1[0]? = some primary
    rw [hp1 0 (by omega)]
    simp [List.getElem?_set, h0]

theorem UpdateSymmParts_spec {Core Mat : Type} (g : Geom Core Mat) (p : FeaPart Core)
    (hmat : p.m_SymmIndexVec.length ≤ g.GetFeaTransMatVec.length)
    (hsurf : p.m_SymmIndexVec.length ≤ g.surf_vec.length)
    (hlen : p.m_FeaPartSurfVec.length = 0 ∨
      (1 ≤ p.m_SymmIndexVec.length ∧ p.m_SymmIndexVec.length ≤ p.m_FeaPartSurfVec.length)) :
    ∃ v, p.UpdateSymmParts (some g) = some { p with m_FeaPartSurfVec := v } ∧
      v.length = p.m_FeaPartSurfVec.length ∧ v[0]? = p.m_FeaPartSurfVec[0]? ∧
      (∀ i, 1 ≤ i → i < p.m_SymmIndexVec.length → 0 < p.m_FeaPartSurfVec.length →
        ∃ s parent, v[i]? = some s ∧ g.surf_vec[i]? = some parent ∧
          s.GetFlipNormal = parent.GetFlipNormal) := by
  rcases hlen with h0 | ⟨h1, h2⟩
  · refine ⟨p.m_FeaPartSurfVec, ?_, rfl, rfl, ?_⟩
    · simp [FeaPart.UpdateSymmParts, h0]
    · intro i _ _ hpos
      omega
  · obtain ⟨v1, hv1, hl1, hp1, hf1⟩ := applyTransformations_spec g 0
      (p.m_SymmIndexVec.length - 1) 1 p.m_FeaPartSurfVec (by omega) (by omega) (by omega)
    have hne : p.m_FeaPartSurfVec.length ≠ 0 := by omega
    refine ⟨v1, ?_, hl1, hp1 0 (by omega), ?_⟩
    · have hne' : ¬ p.m_FeaPartSurfVec = [] := by
        intro h
        rw [h] at hne
        simp at hne
      simp [FeaPart.UpdateSymmParts, hne', hv1]
    · intro i hi1 hi2 _
      have := hf1 i hi1 (by omega)
      simpa using this

theorem createArrayMember_spec {Core Mat : Type} (g : Geom Core Mat) (n : Nat)
    (wing_surf main : VspSurf Core) (i : Nat) (v : List (VspSurf Core))
    (hn : 1 ≤ n) (hmat : n ≤ g.GetFeaTransMatVec.length) (hsurf : n ≤ g.surf_vec.length)
    (hlen : n * i + n ≤ v.length) :
    ∃ v1, createArrayMember g n wing_surf main i v = some v1 ∧ v1.length = v.length := by
  have h0 : i * n < v.length := by
    rw [Nat.mul_comm]; omega
  have h0' : n * i < v.length := by omega
  have hb : n * i < (v.set (i * n) main).length := by simpa using h0'
  obtain ⟨v2, hv2⟩ : ∃ v2 : List (VspSurf Core), v2 =
      (if (v.set (i * n) main)[n * i].GetFlipNormal ≠ wing_surf.GetFlipNormal
        then (v.set (i * n) main).set (n * i) (v.set (i * n) main)[n * i].FlipNormal
        else v.set (i * n) main) := ⟨_, rfl⟩
  have hl2 : v2.length = v.length := by
    rw [hv2]; split <;> simp
  obtain ⟨v3, hv3, hl3, _⟩ := copyFromPrevious_spec (n * i) (n - 1) 1 v2 (le_refl 1)
    (by rw [hl2]; omega)
  obtain ⟨v4, hv4, hl4, _⟩ := applyTransformations_spec g (n * i) (n - 1) 1 v3
    (by rw [hl3, hl2]; omega) (by omega) (by omega)
  refine ⟨v4, ?_, by rw [hl4, hl3, hl2]⟩
  have hget : (v.set (i * n) main)[n * i]? = some (v.set (i * n) main)[n * i] :=
    List.getElem?_eq_getElem hb
  simp only [createArrayMember, assignAt, h0, if_true, hget]
  rw [← hv2, hv3]
  exact hv4

theorem createArrayLoop_spec {Core Mat : Type} (g : Geom Core Mat) (n : Nat)
    (wing_surf : VspSurf Core) (mainOf : Nat → Option (VspSurf Core))
    (hn : 1 ≤ n) (hmat : n ≤ g.GetFeaTransMatVec.length) (hsurf : n ≤ g.surf_vec.length) :
    ∀ (count i : Nat) (v : List (VspSurf Core)), n * (i + count) ≤ v.length →
      (∀ j, i ≤ j → j < i + count → (mainOf j).isSome) →
      ∃ v1, createArrayLoop g n wing_surf mainOf count i v = some v1 ∧
        v1.length = v.length := by
  intro count
  induction count with
  | zero =>
    intro i v _ _
    exact ⟨v, rfl, rfl⟩
  | succ count ih =>
    intro i v hlen hmain
    have hmem : n * i + n ≤ v.length := by
      have : n * (i + (count + 1)) = n * i + n + n * count := by ring
      omega
    obtain ⟨main, hmainI⟩ := Option.isSome_iff_exists.mp (hmain i (le_refl i) (by omega))
    obtain ⟨v1, hv1, hl1⟩ := createArrayMember_spec g n wing_surf main i v hn hmat hsurf hmem
    obtain ⟨v2, hv2, hl2⟩ := ih (i + 1) v1 (by
      rw [hl1]
      have : n * (i + 1 + count) = n * (i + (count + 1)) := by ring
      omega) (fun j h1 h2 => hmain j (by omega) (by omega))
    refine ⟨v2, ?_, by rw [hl2, hl1]⟩
    simp [createArrayLoop, hmainI, hv1, hv2]

theorem Update_spec {Core Mat : Type} [Inhabited Core] (g : Geom Core Mat) (hg : g.Consistent)
    (p : FeaPart Core) (hadm : p.Admissible g)
    (hidx : g.GetSymmIndexs p.m_MainSurfIndx = some p.m_SymmIndexVec)
    (hsurf : p.m_FeaPartSurfVec.length = g.GetNumSymmCopies) :
    ∃ p2, p.Update (some g) = some p2 ∧ p2.m_FeaPartType = p.m_FeaPartType ∧
      p2.m_Name = p.m_Name ∧ p2.m_SymmIndexVec = p.m_SymmIndexVec ∧
      p2.m_FeaPartSurfVec.length = p2.expectedSurfCount g.GetNumSymmCopies ∧
      p2.cls.kind = p.cls.kind ∧
      (∀ c a, p.cls = FeaPartClass.FeaRibArray c a →
        p2.cls = FeaPartClass.FeaRibArray c (a.CalcNumRibs g.wing)) := by
  obtain ⟨hcopies, hN, hmat, hsv, hmain⟩ := hg
  have hidxlen : p.m_SymmIndexVec.length = g.GetNumSymmCopies := (hcopies _ _ hidx).1
  have hin := (hcopies _ _ hidx).2
  obtain ⟨wing_surf, hws⟩ := Option.isSome_iff_exists.mp (hmain p.m_MainSurfIndx (by rw [hidx]; rfl))
  obtain ⟨tag, name, main, symm, surf, cls⟩ := p
  simp only at hidx hsurf hidxlen hin hws
  have h1 : 1 ≤ surf.length := by omega
  have hpos : 0 < surf.length := h1
  have hle : symm.length ≤ surf.length := by omega
  have hne : surf.length ≠ 0 := by omega
  cases cls with
  | FeaPart =>
    exact ⟨_, rfl, rfl, rfl, rfl, by simp [FeaPart.expectedSurfCount, hsurf], rfl,
      fun c a h => by simp at h⟩
  | FeaSlice sl =>
    obtain ⟨p2, hp2, htag, hname, hsymm, hcls, hl, _⟩ := setPrimaryAndCopies_spec
      ({ m_FeaPartType := tag, m_Name := name, m_MainSurfIndx := main, m_SymmIndexVec := symm,
         m_FeaPartSurfVec := surf,
         cls := FeaPartClass.FeaSlice (sl.UpdateParmLimits (some g) main) } : FeaPart Core)
      (g.ComputeSliceSurf main (sl.UpdateParmLimits (some g) main).m_IncludedElements.val
        (sl.UpdateParmLimits (some g) main).m_RelCenterLocation.val
        (sl.UpdateParmLimits (some g) main).m_OrientationPlane.val
        (sl.UpdateParmLimits (some g) main).m_XRot.val
        (sl.UpdateParmLimits (some g) main).m_YRot.val
        (sl.UpdateParmLimits (some g) main).m_ZRot.val) h1 hle
    refine ⟨p2, ?_, htag, hname, hsymm, ?_, by simp [hcls, FeaPartClass.kind],
      fun c a h => by simp at h⟩
    · simp only [FeaPart.Update, FeaPart.ComputeSliceSurf, hws, hpos, if_true]
      exact hp2
    · simp only [FeaPart.expectedSurfCount, hcls]
      rw [hl]; exact hsurf
  | FeaRib r =>
    simp only [FeaPart.Admissible] at hadm
    obtain ⟨wing, hwing⟩ := Option.isSome_iff_exists.mp hadm.2.2.1
    obtain ⟨r1, hr1⟩ : ∃ r1, r.UpdateParmLimits (some g) = some r1 := by
      simp only [FeaRib.UpdateParmLimits, hwing]
      split <;> exact ⟨_, rfl⟩
    obtain ⟨primary, hprim⟩ := Option.isSome_iff_exists.mp (hadm.2.2.2 r1 hr1)
    obtain ⟨p2, hp2, htag, hname, hsymm, hcls, hl, _⟩ := setPrimaryAndCopies_spec
      ({ m_FeaPartType := tag, m_Name := name, m_MainSurfIndx := main, m_SymmIndexVec := symm,
         m_FeaPartSurfVec := surf, cls := FeaPartClass.FeaRib r1 } : FeaPart Core)
      primary h1 hle
    refine ⟨p2, ?_, htag, hname, hsymm, ?_, by simp [hcls, FeaPartClass.kind],
      fun c a h => by simp at h⟩
    · simp only [FeaPart.Update, hr1, hpos, if_true, hprim]
      exact hp2
    · simp only [FeaPart.expectedSurfCount, hcls]
      rw [hl]; exact hsurf
  | FeaSpar =>
    simp only [FeaPart.Admissible] at hadm
    obtain ⟨wing, hwing⟩ := Option.isSome_iff_exists.mp hadm.2.2
    obtain ⟨p2, hp2, htag, hname, hsymm, hcls, hl, _⟩ := setPrimaryAndCopies_spec
      ({ m_FeaPartType := tag, m_Name := name, m_MainSurfIndx := main, m_SymmIndexVec := symm,
         m_FeaPartSurfVec := surf, cls := FeaPartClass.FeaSpar } : FeaPart Core)
      (g.ComputePlanarSurf main) h1 hle
    refine ⟨p2, ?_, htag, hname, hsymm, ?_, by simp [hcls, FeaPartClass.kind],
      fun c a h => by simp at h⟩
    · simp only [FeaPart.Update, hne, if_false, hwing, hws]
      exact hp2
    · simp only [FeaPart.expectedSurfCount, hcls]
      rw [hl]; exact hsurf
  | FeaFixPoint =>
    exact ⟨_, rfl, rfl, rfl, rfl, by simp [FeaPart.expectedSurfCount], rfl,
      fun c a h => by simp at h⟩
  | FeaDome =>
    obtain ⟨p2, hp2, htag, hname, hsymm, hcls, hl, _⟩ := setPrimaryAndCopies_spec
      ({ m_FeaPartType := tag, m_Name := name, m_MainSurfIndx := main, m_SymmIndexVec := symm,
         m_FeaPartSurfVec := surf, cls := FeaPartClass.FeaDome } : FeaPart Core)
      (g.BuildDomeSurf main) h1 hle
    refine ⟨p2, ?_, htag, hname, hsymm, ?_, by simp [hcls, FeaPartClass.kind],
      fun c a h => by simp at h⟩
    · simp only [FeaPart.Update, hne, if_false]
      exact hp2
    · simp only [FeaPart.expectedSurfCount, hcls]
      rw [hl]; exact hsurf
  | FeaSkin =>
    have hs0 : 0 < symm.length := by omega
    have hk : symm[0] < g.surf_vec.length := hin _ (List.getElem_mem _)
    obtain ⟨p2, hp2, htag, hname, hsymm, hcls, hl, _⟩ := setPrimaryAndCopies_spec
      ({ m_FeaPartType := tag, m_Name := name, m_MainSurfIndx := main, m_SymmIndexVec := symm,
         m_FeaPartSurfVec := surf, cls := FeaPartClass.FeaSkin } : FeaPart Core)
      (g.surf_vec[symm[0]].SetSurfCfdType CFD_TYPE.CFD_NORMAL) h1 hle
    refine ⟨p2, ?_, htag, hname, hsymm, ?_, by simp [hcls, FeaPartClass.kind],
      fun c a h => by simp at h⟩
    · simp only [FeaPart.Update, List.getElem?_eq_getElem hs0, List.getElem?_eq_getElem hk]
      exact hp2
    · simp only [FeaPart.expectedSurfCount, hcls]
      rw [hl]; exact hsurf
  | FeaRibArray c a =>
    simp only [FeaPart.Admissible] at hadm
    obtain ⟨wing, hwing⟩ := Option.isSome_iff_exists.mp hadm.2.2.1
    have hadm2 := hadm.2.2.2
    rw [hwing] at hadm2
    have hcount : ¬ (a.CalcNumRibs (some wing)).m_NumRibs < 0 := by
      have := hadm2.1
      omega
    obtain ⟨v1, hv1, hl1⟩ := createArrayLoop_spec g symm.length wing_surf
      (fun i => FeaPart.ComputeRibSurf g main c.m_IncludedElements.val
        ((a.CalcNumRibs (some wing)).m_RelStartLocation.val +
          (if ¬ (a.CalcNumRibs (some wing)).m_PositiveDirectionFlag then (-1 : ℚ) else 1) * (i : ℚ) *
            (a.CalcNumRibs (some wing)).m_RibRelSpacing.val)
        c.m_Theta.val c.m_PerpendicularEdgeID)
      (by omega) (by omega) (by omega) (a.CalcNumRibs (some wing)).m_NumRibs.toNat 0
      (List.replicate (symm.length * (a.CalcNumRibs (some wing)).m_NumRibs.toNat) VspSurf.new)
      (by simp) (fun j _ hj => hadm2.2 j (by omega))
    refine ⟨{ m_FeaPartType := tag, m_Name := name, m_MainSurfIndx := main,
              m_SymmIndexVec := symm, m_FeaPartSurfVec := v1,
              cls := FeaPartClass.FeaRibArray c (a.CalcNumRibs (some wing)) }, ?_, rfl, rfl, rfl, ?_, rfl,
      fun c1 a1 h => by
        simp only [FeaPartClass.FeaRibArray.injEq] at h
        obtain ⟨h1, h2⟩ := h
        subst h1
        subst h2
        simp [hwing]⟩
    · simp only [FeaPart.Update, hwing, hcount, if_false, hws]
      rw [hv1]
    · simp only [FeaPart.expectedSurfCount]
      rw [hl1, List.length_replicate, hidxlen]
  | FeaSliceArray c a =>
    simp only [FeaPart.Admissible] at hadm
    have hcount : ¬ (a.CalcNumSlices (some (g.perp_dist main c.m_OrientationPlane.val))).m_NumSlices < 0 := by
      have := hadm.2.2
      omega
    obtain ⟨v1, hv1, hl1⟩ := createArrayLoop_spec g symm.length wing_surf
      (fun i => FeaPart.ComputeSliceSurf g main c.m_IncludedElements.val
        ((a.CalcNumSlices (some (g.perp_dist main c.m_OrientationPlane.val))).m_RelStartLocation.val +
          (if ¬ (a.CalcNumSlices (some (g.perp_dist main c.m_OrientationPlane.val))).m_PositiveDirectionFlag
            then (-1 : ℚ) else 1) * (i : ℚ) *
            (a.CalcNumSlices (some (g.perp_dist main c.m_OrientationPlane.val))).m_SliceRelSpacing.val)
        c.m_OrientationPlane.val c.m_XRot.val c.m_YRot.val c.m_ZRot.val)
      (by omega) (by omega) (by omega)
      (a.CalcNumSlices (some (g.perp_dist main c.m_OrientationPlane.val))).m_NumSlices.toNat 0
      (List.replicate (symm.length *
        (a.CalcNumSlices (some (g.perp_dist main c.m_OrientationPlane.val))).m_NumSlices.toNat)
        VspSurf.new)
      (by simp) (fun j _ _ => by simp [FeaPart.ComputeSliceSurf, hws])
    refine ⟨{ m_FeaPartType := tag, m_Name := name, m_MainSurfIndx := main,
              m_SymmIndexVec := symm, m_FeaPartSurfVec := v1,
              cls := FeaPartClass.FeaSliceArray c
                (a.CalcNumSlices (some (g.perp_dist main c.m_OrientationPlane.val))) },
      ?_, rfl, rfl, rfl, ?_, rfl, fun c1 a1 h => by simp at h⟩
    · simp only [FeaPart.Update, hcount, if_false, hws]
      rw [hv1]
    · simp only [FeaPart.expectedSurfCount]
      rw [hl1, List.length_replicate, hidxlen]

theorem expectedSurfCount_zero_or_ge {Core : Type} (n : Nat) (p : FeaPart Core) :
    p.expectedSurfCount n = 0 ∨ n ≤ p.expectedSurfCount n := by
  unfold FeaPart.expectedSurfCount
  split
  · left; rfl
  · rename_i a _
    rcases Nat.eq_zero_or_pos a.m_NumRibs.toNat with h | h
    · left; rw [h]; rfl
    · right; exact Nat.le_mul_of_pos_right n h
  · rename_i a _
    rcases Nat.eq_zero_or_pos a.m_NumSlices.toNat with h | h
    · left; rw [h]; rfl
    · right; exact Nat.le_mul_of_pos_right n h
  · right; exact le_refl n

theorem updateAll_found {Core Mat : Type} [Inhabited Core] (g : Geom Core Mat)
    (hg : g.Consistent) (p : FeaPart Core) (hadm : p.Admissible g) :
    ∃ p3, p.updateAll (some g) = some p3 ∧ p3.m_FeaPartType = p.m_FeaPartType ∧
      p3.m_Name = p.m_Name ∧ p3.cls.kind = p.cls.kind ∧
      p3.m_FeaPartSurfVec.length = p3.expectedSurfCount g.GetNumSymmCopies := by
  obtain ⟨l, hl⟩ := Option.isSome_iff_exists.mp hadm.1
  have hidx := UpdateSymmIndex_found g hg p l hl
  obtain ⟨p1, hp1⟩ : ∃ p1 : FeaPart Core, p1 =
      { p with m_SymmIndexVec := l
               m_FeaPartSurfVec := List.replicate l.length VspSurf.new } :=
    ⟨_, rfl⟩
  rw [← hp1] at hidx
  have htag1 : p1.m_FeaPartType = p.m_FeaPartType := by rw [hp1]
  have hname1 : p1.m_Name = p.m_Name := by rw [hp1]
  have hcls1 : p1.cls = p.cls := by rw [hp1]
  have hmain1 : p1.m_MainSurfIndx = p.m_MainSurfIndx := by rw [hp1]
  have hsymm1 : g.GetSymmIndexs p1.m_MainSurfIndx = some p1.m_SymmIndexVec := by
    rw [hp1]; exact hl
  have hsurf1 : p1.m_FeaPartSurfVec.length = g.GetNumSymmCopies := by
    rw [hp1]; simp [(hg.1 _ _ hl).1]
  have hadm1 : p1.Admissible g := by
    unfold FeaPart.Admissible at hadm ⊢
    rw [htag1, hcls1, hmain1]
    exact hadm
  obtain ⟨p2, hp2, htag2, hname2, hsymm2, hlen2, hkind2, _⟩ :=
    Update_spec g hg p1 hadm1 hsymm1 hsurf1
  have hsymmlen : p2.m_SymmIndexVec.length = g.GetNumSymmCopies := by
    rw [hsymm2]; exact (hg.1 _ _ hsymm1).1
  obtain ⟨v, hv, hl, _⟩ := UpdateSymmParts_spec g p2 (by rw [hsymmlen]; exact hg.2.2.1)
    (by rw [hsymmlen]; exact hg.2.2.2.1)
    (by
      rcases expectedSurfCount_zero_or_ge g.GetNumSymmCopies p2 with h | h
      · left; rw [hlen2]; exact h
      · right; rw [hsymmlen, hlen2]; exact ⟨hg.2.1, h⟩)
  refine ⟨{ p2 with m_FeaPartSurfVec := v }, ?_, by rw [← htag1, ← htag2],
    by rw [← hname1, ← hname2], by rw [← hcls1, ← hkind2], ?_⟩
  · simp only [FeaPart.updateAll, hidx, hp2]
    exact hv
  · show v.length = _
    rw [hl, hlen2]
    rfl

theorem AddFeaRib_not_found {Core Mat : Type} [Inhabited Core]
    (c : ArrayCommon) (a : FeaRibArray) (m_Name : String) (center_location : ℚ) (ind : Nat) :
    ∃ rib : FeaPart Core,
      FeaRibArray.AddFeaRib (none : Option (Geom Core Mat)) c a m_Name center_location ind =
        some rib ∧
      rib.m_FeaPartType = FEA_RIB ∧ rib.cls.kind = 2 ∧
      rib.m_Name = m_Name ++ "_Rib_" ++ toString ind := by
  refine ⟨{ (FeaRibArray.AddFeaRib_configure c a m_Name center_location ind : FeaPart Core) with
    m_SymmIndexVec := [], m_FeaPartSurfVec := [] }, ?_, rfl, rfl, rfl⟩
  simp [FeaRibArray.AddFeaRib, FeaPart.updateAll, FeaPart.UpdateSymmIndex, FeaPart.Update,
    FeaRibArray.AddFeaRib_configure, FeaRib.UpdateParmLimits, FeaPart.UpdateSymmParts]

theorem AddFeaSlice_not_found {Core Mat : Type} [Inhabited Core]
    (c : ArrayCommon) (a : FeaSliceArray) (m_Name : String) (center_location : ℚ) (ind : Nat) :
    ∃ slice : FeaPart Core,
      FeaSliceArray.AddFeaSlice (none : Option (Geom Core Mat)) c a m_Name center_location ind =
        some slice ∧
      slice.m_FeaPartType = FEA_SLICE ∧ slice.cls.kind = 1 ∧
      slice.m_Name = m_Name ++ "_Slice_" ++ toString ind := by
  refine ⟨{ (FeaSliceArray.AddFeaSlice_configure c a m_Name center_location ind : FeaPart Core)
    with m_SymmIndexVec := [], m_FeaPartSurfVec := [] }, ?_, rfl, rfl, rfl⟩
  simp [FeaSliceArray.AddFeaSlice, FeaPart.updateAll, FeaPart.UpdateSymmIndex, FeaPart.Update,
    FeaSliceArray.AddFeaSlice_configure, FeaSlice.UpdateParmLimits, FeaPart.UpdateSymmParts]

theorem AddFeaRib_found {Core Mat : Type} [Inhabited Core] (g : Geom Core Mat)
    (hg : g.Consistent) (c : ArrayCommon) (a : FeaRibArray) (m_Name : String)
    (center_location : ℚ) (ind : Nat) :
    FeaRibArray.AddFeaRib (some g) c a m_Name center_location ind =
      (none : Option (FeaPart Core)) := by
  simp only [FeaRibArray.AddFeaRib, FeaPart.updateAll]
  rw [UpdateSymmIndex_negative g hg _ rfl]

theorem AddFeaSlice_found {Core Mat : Type} [Inhabited Core] (g : Geom Core Mat)
    (hg : g.Consistent) (c : ArrayCommon) (a : FeaSliceArray) (m_Name : String)
    (center_location : ℚ) (ind : Nat) :
    FeaSliceArray.AddFeaSlice (some g) c a m_Name center_location ind =
      (none : Option (FeaPart Core)) := by
  simp only [FeaSliceArray.AddFeaSlice, FeaPart.updateAll]
  rw [UpdateSymmIndex_negative g hg _ rfl]

theorem IndividualizeRibArray_loop_found {Core Mat : Type} [Inhabited Core] (g : Geom Core Mat)
    (hg : g.Consistent) (c : ArrayCommon) (a : FeaRibArray) (m_Name : String)
    (count i : Nat) (st : FeaStructure Core) :
    IndividualizeRibArray_loop (some g) c a m_Name (count + 1) i st = none := by
  simp only [IndividualizeRibArray_loop]
  rw [AddFeaRib_found g hg]

theorem IndividualizeSliceArray_loop_found {Core Mat : Type} [Inhabited Core]
    (g : Geom Core Mat) (hg : g.Consistent) (c : ArrayCommon) (a : FeaSliceArray)
    (m_Name : String) (count i : Nat) (st : FeaStructure Core) :
    IndividualizeSliceArray_loop (some g) c a m_Name (count + 1) i st = none := by
  simp only [IndividualizeSliceArray_loop]
  rw [AddFeaSlice_found g hg]

theorem IndividualizeRibArray_loop_spec {Core Mat : Type} [Inhabited Core]
    (c : ArrayCommon) (a : FeaRibArray) (m_Name : String) :
    ∀ (count i : Nat) (st : FeaStructure Core),
      ∃ ribs : List (FeaPart Core),
        IndividualizeRibArray_loop (none : Option (Geom Core Mat)) c a m_Name count i st =
          some { st with m_FeaPartVec := st.m_FeaPartVec ++ ribs } ∧
        ribs.length = count ∧
        ∀ j, j < count → ∃ rib, ribs[j]? = some rib ∧ rib.m_FeaPartType = FEA_RIB ∧
          rib.cls.kind = 2 ∧ rib.m_Name = m_Name ++ "_Rib_" ++ toString (i + j) := by
  intro count
  induction count with
  | zero =>
    intro i st
    exact ⟨[], by simp [IndividualizeRibArray_loop], rfl, fun j hj => by omega⟩
  | succ count ih =>
    intro i st
    obtain ⟨rib, hrib, htag, hkind, hname⟩ :=
      @AddFeaRib_not_found Core Mat _ c a m_Name (IndividualizeRibArray_center_location a i) i
    obtain ⟨ribs, hribs, hlen, hall⟩ := ih (i + 1) (st.AddFeaPart rib)
    refine ⟨rib :: ribs, ?_, by simp [hlen], ?_⟩
    · simp only [IndividualizeRibArray_loop, hrib, hribs]
      simp [FeaStructure.AddFeaPart]
    · intro j hj
      cases j with
      | zero => exact ⟨rib, by simp, htag, hkind, by simpa using hname⟩
      | succ j =>
        obtain ⟨r, hr, h1, h2, h3⟩ := hall j (by omega)
        refine ⟨r, by simpa using hr, h1, h2, ?_⟩
        rw [h3]
        congr 2
        omega

theorem IndividualizeSliceArray_loop_spec {Core Mat : Type} [Inhabited Core]
    (c : ArrayCommon) (a : FeaSliceArray) (m_Name : String) :
    ∀ (count i : Nat) (st : FeaStructure Core),
      ∃ slices : List (FeaPart Core),
        IndividualizeSliceArray_loop (none : Option (Geom Core Mat)) c a m_Name count i st =
          some { st with m_FeaPartVec := st.m_FeaPartVec ++ slices } ∧
        slices.length = count ∧
        ∀ j, j < count → ∃ slice, slices[j]? = some slice ∧ slice.m_FeaPartType = FEA_SLICE ∧
          slice.cls.kind = 1 ∧ slice.m_Name = m_Name ++ "_Slice_" ++ toString (i + j) := by
  intro count
  induction count with
  | zero =>
    intro i st
    exact ⟨[], by simp [IndividualizeSliceArray_loop], rfl, fun j hj => by omega⟩
  | succ count ih =>
    intro i st
    obtain ⟨slice, hslice, htag, hkind, hname⟩ :=
      @AddFeaSlice_not_found Core Mat _ c a m_Name
        (IndividualizeSliceArray_center_location a i) i
    obtain ⟨slices, hslices, hlen, hall⟩ := ih (i + 1) (st.AddFeaPart slice)
    refine ⟨slice :: slices, ?_, by simp [hlen], ?_⟩
    · simp only [IndividualizeSliceArray_loop, hslice, hslices]
      simp [FeaStructure.AddFeaPart]
    · intro j hj
      cases j with
      | zero => exact ⟨slice, by simp, htag, hkind, by simpa using hname⟩
      | succ j =>
        obtain ⟨r, hr, h1, h2, h3⟩ := hall j (by omega)
        refine ⟨r, by simpa using hr, h1, h2, ?_⟩
        rw [h3]
        congr 2
        omega

theorem geom_two_main_consistent : geom_two_main.Consistent := by
  refine ⟨?_, by decide, by decide, by decide, ?_⟩
  · intro idx l hl
    simp only [geom_two_main] at hl ⊢
    split_ifs at hl with h0 h1 <;> simp at hl <;> subst hl <;> simp
  · intro idx hs
    simp only [geom_two_main, Geom.surfAt] at hs ⊢
    split_ifs at hs with h0 h1
    · subst h0; rfl
    · subst h1; rfl
    · simp at hs

/-- C9: on the parent shape with two main surfaces, a rib on main surface 0 has the
symmetry index list `[0, 2]`; after `UpdateSymmParts` the normal-flip flag of its
surface 1 is that of `surf_vec[1]` (not flipped), while the parent surface that
corresponds to copy 1, `surf_vec[2]`, is flipped. -/
theorem UpdateSymmParts_compares_with_wrong_parent_surface :
    (rib_before_symm.UpdateSymmParts (some geom_two_main)).map
        (fun p => (p.m_SymmIndexVec, p.m_FeaPartSurfVec.map VspSurf.GetFlipNormal)) =
      some ([0, 2], [false, false]) ∧
    geom_two_main.surf_vec.map VspSurf.GetFlipNormal = [false, false, true, true] := by
  constructor <;> rfl

/-! ## Individualizing arrays -/

theorem Individualize_not_found_spec {Core Mat : Type} [Inhabited Core]
    (st : FeaStructure Core) (k : Nat) (prt : FeaPart Core)
    (c : ArrayCommon) (hk : st.m_FeaPartVec[k]? = some prt) :
    (∀ a : FeaRibArray,
      prt.m_FeaPartType = FEA_RIB_ARRAY → prt.cls = FeaPartClass.FeaRibArray c a →
      0 ≤ a.m_NumRibs →
      ∃ ribs : List (FeaPart Core),
        st.IndividualizeRibArray (none : Option (Geom Core Mat)) k =
          some { st with m_FeaPartVec := st.m_FeaPartVec.eraseIdx k ++ ribs } ∧
        ribs.length = a.m_NumRibs.toNat ∧
        (st.m_FeaPartVec.eraseIdx k ++ ribs).length + 1 =
          st.m_FeaPartVec.length + a.m_NumRibs.toNat ∧
        ∀ i, i < a.m_NumRibs.toNat → ∃ rib, ribs[i]? = some rib ∧
          rib.m_FeaPartType = FEA_RIB ∧ rib.cls.kind = 2 ∧
          rib.m_Name = prt.m_Name ++ "_Rib_" ++ toString i) ∧
    (∀ a : FeaSliceArray,
      prt.m_FeaPartType = FEA_SLICE_ARRAY → prt.cls = FeaPartClass.FeaSliceArray c a →
      0 ≤ a.m_NumSlices →
      ∃ slices : List (FeaPart Core),
        st.IndividualizeSliceArray (none : Option (Geom Core Mat)) k =
          some { st with m_FeaPartVec := st.m_FeaPartVec.eraseIdx k ++ slices } ∧
        slices.length = a.m_NumSlices.toNat ∧
        (st.m_FeaPartVec.eraseIdx k ++ slices).length + 1 =
          st.m_FeaPartVec.length + a.m_NumSlices.toNat ∧
        ∀ i, i < a.m_NumSlices.toNat → ∃ slice, slices[i]? = some slice ∧
          slice.m_FeaPartType = FEA_SLICE ∧ slice.cls.kind = 1 ∧
          slice.m_Name = prt.m_Name ++ "_Slice_" ++ toString i) := by
  have hklt : k < st.m_FeaPartVec.length := by
    rcases Nat.lt_or_ge k st.m_FeaPartVec.length with h | h
    · exact h
    · rw [List.getElem?_eq_none h] at hk
      exact absurd hk (by simp)
  have hvalid : st.ValidFeaPartInd (k : Int) = true := by
    simp only [FeaStructure.ValidFeaPartInd, decide_eq_true_eq]
    omega
  have hlen : ∀ extra : List (FeaPart Core),
      (st.m_FeaPartVec.eraseIdx k ++ extra).length + 1 = st.m_FeaPartVec.length + extra.length := by
    intro extra
    rw [List.length_append, List.length_eraseIdx, if_pos hklt]
    omega
  constructor
  · intro a htag hcls hn
    obtain ⟨ribs, hribs, hl, hall⟩ := @IndividualizeRibArray_loop_spec Core Mat _ c a prt.m_Name
      a.m_NumRibs.toNat 0 st
    have hn' : ¬ a.m_NumRibs < 0 := by omega
    refine ⟨ribs, ?_, hl, by rw [hlen, hl], ?_⟩
    · simp only [FeaStructure.IndividualizeRibArray, hvalid, not_true_eq_false, if_false,
        Int.toNat_ofNat, hk, htag, if_true, hcls, hn', hribs, FeaStructure.DelFeaPart]
      have hvalid2 : (FeaStructure.ValidFeaPartInd
          ({ st with m_FeaPartVec := st.m_FeaPartVec ++ ribs } : FeaStructure Core) (k : Int)) =
          true := by
        simp only [FeaStructure.ValidFeaPartInd, decide_eq_true_eq, List.length_append]
        omega
      simp only [hvalid2, if_true, Int.toNat_ofNat]
      rw [List.eraseIdx_append_of_lt_length hklt]
    · intro i hi
      obtain ⟨rib, h1, h2, h3, h4⟩ := hall i hi
      exact ⟨rib, h1, h2, h3, by simpa using h4⟩
  · intro a htag hcls hn
    obtain ⟨slices, hslices, hl, hall⟩ := @IndividualizeSliceArray_loop_spec Core Mat _ c a
      prt.m_Name a.m_NumSlices.toNat 0 st
    have hn' : ¬ a.m_NumSlices < 0 := by omega
    refine ⟨slices, ?_, hl, by rw [hlen, hl], ?_⟩
    · simp only [FeaStructure.IndividualizeSliceArray, hvalid, not_true_eq_false, if_false,
        Int.toNat_ofNat, hk, htag, if_true, hcls, hn', hslices, FeaStructure.DelFeaPart]
      have hvalid2 : (FeaStructure.ValidFeaPartInd
          ({ st with m_FeaPartVec := st.m_FeaPartVec ++ slices } : FeaStructure Core) (k : Int)) =
          true := by
        simp only [FeaStructure.ValidFeaPartInd, decide_eq_true_eq, List.length_append]
        omega
      simp only [hvalid2, if_true, Int.toNat_ofNat]
      rw [List.eraseIdx_append_of_lt_length hklt]
    · intro i hi
      obtain ⟨slice, h1, h2, h3, h4⟩ := hall i hi
      exact ⟨slice, h1, h2, h3, by simpa using h4⟩

theorem IndividualizeRibArray_found {Core Mat : Type} [Inhabited Core] (g : Geom Core Mat)
    (hg : g.Consistent) (st : FeaStructure Core) (k : Nat) (prt : FeaPart Core)
    (c : ArrayCommon) (a : FeaRibArray) (hk : st.m_FeaPartVec[k]? = some prt)
    (htag : prt.m_FeaPartType = FEA_RIB_ARRAY) (hcls : prt.cls = FeaPartClass.FeaRibArray c a)
    (hn : 1 ≤ a.m_NumRibs) :
    st.IndividualizeRibArray (some g) k = none := by
  have hklt : k < st.m_FeaPartVec.length := by
    rcases Nat.lt_or_ge k st.m_FeaPartVec.length with h | h
    · exact h
    · rw [List.getElem?_eq_none h] at hk
      exact absurd hk (by simp)
  have hvalid : st.ValidFeaPartInd (k : Int) = true := by
    simp only [FeaStructure.ValidFeaPartInd, decide_eq_true_eq]
    omega
  obtain ⟨m, hm⟩ : ∃ m : Nat, a.m_NumRibs.toNat = m + 1 := ⟨a.m_NumRibs.toNat - 1, by omega⟩
  have hn' : ¬ a.m_NumRibs < 0 := by omega
  simp only [FeaStructure.IndividualizeRibArray, hvalid, not_true_eq_false, if_false,
    Int.toNat_ofNat, hk, htag, if_true, hcls, hn', hm, IndividualizeRibArray_loop_found g hg]

theorem IndividualizeSliceArray_found {Core Mat : Type} [Inhabited Core] (g : Geom Core Mat)
    (hg : g.Consistent) (st : FeaStructure Core) (k : Nat) (prt : FeaPart Core)
    (c : ArrayCommon) (a : FeaSliceArray) (hk : st.m_FeaPartVec[k]? = some prt)
    (htag : prt.m_FeaPartType = FEA_SLICE_ARRAY)
    (hcls : prt.cls = FeaPartClass.FeaSliceArray c a) (hn : 1 ≤ a.m_NumSlices) :
    st.IndividualizeSliceArray (some g) k = none := by
  have hklt : k < st.m_FeaPartVec.length := by
    rcases Nat.lt_or_ge k st.m_FeaPartVec.length with h | h
    · exact h
    · rw [List.getElem?_eq_none h] at hk
      exact absurd hk (by simp)
  have hvalid : st.ValidFeaPartInd (k : Int) = true := by
    simp only [FeaStructure.ValidFeaPartInd, decide_eq_true_eq]
    omega
  obtain ⟨m, hm⟩ : ∃ m : Nat, a.m_NumSlices.toNat = m + 1 := ⟨a.m_NumSlices.toNat - 1, by omega⟩
  have hn' : ¬ a.m_NumSlices < 0 := by omega
  simp only [FeaStructure.IndividualizeSliceArray, hvalid, not_true_eq_false, if_false,
    Int.toNat_ofNat, hk, htag, if_true, hcls, hn', hm, IndividualizeSliceArray_loop_found g hg]

/-- C10: `AddFeaRib` and `AddFeaSlice` leave `m_MainSurfIndx` of the member they create at
its initial value -1, which is the index of no main surface and of no entry of the
surface vector. On the parent shape with two main surfaces, individualizing the rib
array (count 5) at index 1 or the slice array (count 3) at index 2 of the sample
structure therefore does not return: the first member's `UpdateSymmIndex` evaluates
`GetSymmIndexs( -1 )`. The claimed list (the old one without the array, followed by the
members) is produced only when the parent shape is not found, where the update calls
read nothing. -/
theorem Individualize_members_lack_main_surface_index :
    (∀ (c : ArrayCommon) (a : FeaRibArray) (m_Name : String) (center_location : ℚ) (ind : Nat),
      (FeaRibArray.AddFeaRib_configure c a m_Name center_location ind :
        FeaPart Nat).m_MainSurfIndx = -1) ∧
    (∀ (c : ArrayCommon) (a : FeaSliceArray) (m_Name : String) (center_location : ℚ)
      (ind : Nat),
      (FeaSliceArray.AddFeaSlice_configure c a m_Name center_location ind :
        FeaPart Nat).m_MainSurfIndx = -1) ∧
    geom_two_main.GetSymmIndexs (-1) = none ∧ geom_two_main.surfAt (-1) = none ∧
    structure_with_arrays.IndividualizeRibArray (some geom_two_main) 1 = none ∧
    structure_with_arrays.IndividualizeSliceArray (some geom_two_main) 2 = none ∧
    (∃ ribs : List (FeaPart Nat),
      structure_with_arrays.IndividualizeRibArray (none : Option (Geom Nat Nat)) 1 =
        some { structure_with_arrays with
          m_FeaPartVec := structure_with_arrays.m_FeaPartVec.eraseIdx 1 ++ ribs } ∧
      ribs.length = 5) ∧
    (∃ slices : List (FeaPart Nat),
      structure_with_arrays.IndividualizeSliceArray (none : Option (Geom Nat Nat)) 2 =
        some { structure_with_arrays with
          m_FeaPartVec := structure_with_arrays.m_FeaPartVec.eraseIdx 2 ++ slices } ∧
      slices.length = 3) := by
  refine ⟨fun _ _ _ _ _ => rfl, fun _ _ _ _ _ => rfl, rfl, rfl, ?_, ?_, ?_, ?_⟩
  · exact IndividualizeRibArray_found geom_two_main geom_two_main_consistent
      structure_with_arrays 1 _ ArrayCommon.new { ribArray_quarter with m_NumRibs := 5 } rfl rfl
      rfl (by decide)
  · exact IndividualizeSliceArray_found geom_two_main geom_two_main_consistent
      structure_with_arrays 2 _ ArrayCommon.new { FeaSliceArray.new with m_NumSlices := 3 } rfl
      rfl rfl (by decide)
  · obtain ⟨ribs, h1, h2, _⟩ := (@Individualize_not_found_spec Nat Nat _ structure_with_arrays 1
      (samplePart FEA_RIB_ARRAY "RibArray_0"
        (FeaPartClass.FeaRibArray ArrayCommon.new { ribArray_quarter with m_NumRibs := 5 }))
      ArrayCommon.new rfl).1 { ribArray_quarter with m_NumRibs := 5 } rfl rfl (by decide)
    exact ⟨ribs, h1, h2⟩
  · obtain ⟨slices, h1, h2, _⟩ := (@Individualize_not_found_spec Nat Nat _ structure_with_arrays 2
      (samplePart FEA_SLICE_ARRAY "SliceArray_1"
        (FeaPartClass.FeaSliceArray ArrayCommon.new { FeaSliceArray.new with m_NumSlices := 3 }))
      ArrayCommon.new rfl).2 { FeaSliceArray.new with m_NumSlices := 3 } rfl rfl (by decide)
    exact ⟨slices, h1, h2⟩

/-! ## Lemmas on the edge intersection solver -/

theorem exists_real_mathlib : ∃ M : MathLib ℝ, M.IsReal ∧ M.SignedAngleSpec := by
  refine ⟨{ sqrt := Real.sqrt, sin := Real.sin, cos := Real.cos, PI := Real.pi,
            FLT_EPSILON := 1 / 2 ^ 23,
            signed_angle := fun a b ref =>
              if (a.cross b).dot ref < 0 then -Real.arccos (a.dot b)
              else Real.arccos (a.dot b) }, ⟨rfl, rfl, rfl, rfl, rfl⟩, ?_⟩
  intro a b ref ha hb hr har hbr
  have key : ((a.cross b).dot ref) ^ 2 = 1 - (a.dot b) ^ 2 := by
    have hgram : ((a.cross b).dot ref) ^ 2 =
        a.dot a * (b.dot b) * (ref.dot ref) + 2 * (a.dot b) * (b.dot ref) * (a.dot ref)
          - a.dot a * (b.dot ref) ^ 2 - b.dot b * (a.dot ref) ^ 2
          - ref.dot ref * (a.dot b) ^ 2 := by
      simp only [vec3d.dot, vec3d.cross]
      ring
    rw [hgram, ha, hb, hr, har, hbr]
    ring
  have hle : (a.dot b) ^ 2 ≤ 1 := by nlinarith [sq_nonneg ((a.cross b).dot ref)]
  have h1 : -1 ≤ a.dot b := by nlinarith
  have h2 : a.dot b ≤ 1 := by nlinarith
  have hsqrt : Real.sqrt (1 - (a.dot b) ^ 2) = |(a.cross b).dot ref| := by
    rw [← key, Real.sqrt_sq_eq_abs]
  show -Real.pi < (if (a.cross b).dot ref < 0 then -Real.arccos (a.dot b)
        else Real.arccos (a.dot b)) ∧
      (if (a.cross b).dot ref < 0 then -Real.arccos (a.dot b)
        else Real.arccos (a.dot b)) ≤ Real.pi ∧
      Real.cos (if (a.cross b).dot ref < 0 then -Real.arccos (a.dot b)
        else Real.arccos (a.dot b)) = a.dot b ∧
      Real.sin (if (a.cross b).dot ref < 0 then -Real.arccos (a.dot b)
        else Real.arccos (a.dot b)) = (a.cross b).dot ref
  have hpi := Real.pi_pos
  have hnn := Real.arccos_nonneg (a.dot b)
  have hlepi := Real.arccos_le_pi (a.dot b)
  split
  · rename_i hneg
    have hne : Real.arccos (a.dot b) ≠ Real.pi := by
      intro h
      have h3 : a.dot b ≤ -1 := Real.arccos_eq_pi.mp h
      have h4 : a.dot b = -1 := le_antisymm h3 h1
      rw [h4] at key
      have h5 : (a.cross b).dot ref = 0 := by nlinarith
      linarith
    have hlt : Real.arccos (a.dot b) < Real.pi := lt_of_le_of_ne hlepi hne
    refine ⟨by linarith, by linarith, by rw [Real.cos_neg, Real.cos_arccos h1 h2], ?_⟩
    rw [Real.sin_neg, Real.sin_arccos, hsqrt, abs_of_neg hneg]
    ring
  · rename_i hpos
    refine ⟨by linarith, hlepi, Real.cos_arccos h1 h2, ?_⟩
    rw [Real.sin_arccos, hsqrt, abs_of_nonneg (not_lt.mp hpos)]

theorem UpdateSymmIndex_cls {Core Mat : Type} [Inhabited Core] (geom : Option (Geom Core Mat))
    (p p1 : FeaPart Core) (h : p.UpdateSymmIndex geom = some p1) :
    p1.cls = p.cls ∧ p1.m_MainSurfIndx = p.m_MainSurfIndx ∧ p1.m_Name = p.m_Name ∧
      p1.m_FeaPartType = p.m_FeaPartType := by
  unfold FeaPart.UpdateSymmIndex at h
  cases geom with
  | none =>
    simp only [Option.some.injEq] at h
    rw [← h]
    exact ⟨rfl, rfl, rfl, rfl⟩
  | some g =>
    simp only at h
    split at h
    · exact absurd h (by simp)
    · split at h
      · simp only [Option.some.injEq] at h
        rw [← h]
        exact ⟨rfl, rfl, rfl, rfl⟩
      · exact absurd h (by simp)

theorem setPrimaryAndCopies_cls {Core : Type} (p p1 : FeaPart Core) (primary : VspSurf Core)
    (h : setPrimaryAndCopies p primary = some p1) :
    p1.cls = p.cls ∧ p1.m_MainSurfIndx = p.m_MainSurfIndx ∧ p1.m_Name = p.m_Name ∧
      p1.m_FeaPartType = p.m_FeaPartType := by
  unfold setPrimaryAndCopies at h
  split at h
  · exact absurd h (by simp)
  · split at h
    · exact absurd h (by simp)
    · simp only [Option.some.injEq] at h
      rw [← h]
      exact ⟨rfl, rfl, rfl, rfl⟩

theorem UpdateSymmParts_cls {Core Mat : Type} (geom : Option (Geom Core Mat))
    (p p1 : FeaPart Core) (h : p.UpdateSymmParts geom = some p1) :
    p1.cls = p.cls ∧ p1.m_MainSurfIndx = p.m_MainSurfIndx ∧ p1.m_Name = p.m_Name ∧
      p1.m_FeaPartType = p.m_FeaPartType := by
  unfold FeaPart.UpdateSymmParts at h
  cases geom with
  | none =>
    simp only [Option.some.injEq] at h
    rw [← h]
    exact ⟨rfl, rfl, rfl, rfl⟩
  | some g =>
    simp only at h
    split at h
    · simp only [Option.some.injEq] at h
      rw [← h]
      exact ⟨rfl, rfl, rfl, rfl⟩
    · split at h
      · exact absurd h (by simp)
      · simp only [Option.some.injEq] at h
        rw [← h]
        exact ⟨rfl, rfl, rfl, rfl⟩

/-- The three update calls leave a rib a rib, with the parameters that
`FeaRib::UpdateParmLimits` yields. -/
theorem updateAll_cls_rib {Core Mat : Type} [Inhabited Core] (geom : Option (Geom Core Mat))
    (p p3 : FeaPart Core) (r : FeaRib) (hcls : p.cls = FeaPartClass.FeaRib r)
    (h : p.updateAll geom = some p3) :
    ∃ r1, r.UpdateParmLimits geom = some r1 ∧ p3.cls = FeaPartClass.FeaRib r1 := by
  unfold FeaPart.updateAll at h
  cases h1 : p.UpdateSymmIndex geom with
  | none => rw [h1] at h; exact absurd h (by simp)
  | some p1 =>
    rw [h1] at h
    simp only at h
    obtain ⟨hc1, _⟩ := UpdateSymmIndex_cls geom p p1 h1
    cases h2 : p1.Update geom with
    | none => rw [h2] at h; exact absurd h (by simp)
    | some p2 =>
      rw [h2] at h
      simp only at h
      obtain ⟨hc3, _⟩ := UpdateSymmParts_cls geom p2 p3 h
      unfold FeaPart.Update at h2
      rw [hc1, hcls] at h2
      simp only at h2
      cases h4 : r.UpdateParmLimits geom with
      | none => rw [h4] at h2; exact absurd h2 (by simp)
      | some r1 =>
        rw [h4] at h2
        simp only at h2
        refine ⟨r1, rfl, ?_⟩
        rw [hc3]
        split at h2
        · cases geom with
          | none => exact (setPrimaryAndCopies_cls _ _ _ h2).1
          | some g =>
            simp only at h2
            split at h2
            · exact absurd h2 (by simp)
            · exact (setPrimaryAndCopies_cls _ _ _ h2).1
        · simp only [Option.some.injEq] at h2
          rw [← h2]

/-- The three update calls leave a slice a slice, with the parameters that
`FeaSlice::UpdateParmLimits` yields. -/
theorem updateAll_cls_slice {Core Mat : Type} [Inhabited Core] (geom : Option (Geom Core Mat))
    (p p3 : FeaPart Core) (sl : FeaSlice) (hcls : p.cls = FeaPartClass.FeaSlice sl)
    (h : p.updateAll geom = some p3) :
    p3.cls = FeaPartClass.FeaSlice (sl.UpdateParmLimits geom p.m_MainSurfIndx) := by
  unfold FeaPart.updateAll at h
  cases h1 : p.UpdateSymmIndex geom with
  | none => rw [h1] at h; exact absurd h (by simp)
  | some p1 =>
    rw [h1] at h
    simp only at h
    obtain ⟨hc1, hm1, _⟩ := UpdateSymmIndex_cls geom p p1 h1
    cases h2 : p1.Update geom with
    | none => rw [h2] at h; exact absurd h (by simp)
    | some p2 =>
      rw [h2] at h
      simp only at h
      obtain ⟨hc3, _⟩ := UpdateSymmParts_cls geom p2 p3 h
      unfold FeaPart.Update at h2
      rw [hc1, hcls] at h2
      rw [hc3, ← hm1]
      cases geom with
      | none =>
        simp only at h2
        split at h2
        · exact (setPrimaryAndCopies_cls _ _ _ h2).1
        · simp only [Option.some.injEq] at h2
          rw [← h2]
          rfl
      | some g =>
        simp only at h2
        split at h2
        · exact absurd h2 (by simp)
        · split at h2
          · split at h2
            · exact absurd h2 (by simp)
            · exact (setPrimaryAndCopies_cls _ _ _ h2).1
          · simp only [Option.some.injEq] at h2
            rw [← h2]

theorem FeaRib_UpdateParmLimits_rel {Core Mat : Type} (geom : Option (Geom Core Mat))
    (r r1 : FeaRib) (hrel : r.m_AbsRelParmFlag = ABS_REL_FLAG.REL)
    (h : r.UpdateParmLimits geom = some r1) :
    r1.m_RelCenterLocation.val = r.m_RelCenterLocation.val := by
  unfold FeaRib.UpdateParmLimits at h
  cases geom with
  | none =>
    simp only [Option.some.injEq] at h
    rw [← h]
  | some g =>
    simp only at h
    cases hw : g.wing with
    | none => rw [hw] at h; exact absurd h (by simp)
    | some wing =>
      rw [hw] at h
      simp only [hrel, Option.some.injEq] at h
      rw [← h]
      rfl

/-- In relative mode the rib that `AddFeaRib` returns stores the centre location it was
handed, clamped to the range `[0, 1]` of a fresh rib. -/
theorem AddFeaRib_center {Core Mat : Type} [Inhabited Core] (geom : Option (Geom Core Mat))
    (c : ArrayCommon) (a : FeaRibArray) (m_Name : String) (center_location : ℚ) (ind : Nat)
    (rib : FeaPart Core) (hrel : a.m_AbsRelParmFlag = ABS_REL_FLAG.REL)
    (h : FeaRibArray.AddFeaRib geom c a m_Name center_location ind = some rib) :
    rib.ribRelCenter = some ((Parm.Init (1 / 2) 0 1).Set center_location).val := by
  unfold FeaRibArray.AddFeaRib at h
  obtain ⟨r, hr⟩ : ∃ r, (FeaRibArray.AddFeaRib_configure c a m_Name center_location ind :
      FeaPart Core).cls = FeaPartClass.FeaRib r ∧ r.m_AbsRelParmFlag = ABS_REL_FLAG.REL ∧
      r.m_RelCenterLocation.val = ((Parm.Init (1 / 2) 0 1).Set center_location).val := by
    simp only [FeaRibArray.AddFeaRib_configure, hrel, FeaRib.new]
    exact ⟨_, rfl, rfl, rfl⟩
  obtain ⟨r1, hr1, hc1⟩ := updateAll_cls_rib geom _ rib r hr.1 h
  have := FeaRib_UpdateParmLimits_rel geom r r1 hr.2.1 hr1
  unfold FeaPart.ribRelCenter
  rw [hc1]
  simp only [this, hr.2.2]

theorem IndividualizeRibArray_loop_centers {Core Mat : Type} [Inhabited Core]
    (geom : Option (Geom Core Mat)) (c : ArrayCommon) (a : FeaRibArray) (m_Name : String)
    (hrel : a.m_AbsRelParmFlag = ABS_REL_FLAG.REL) :
    ∀ (count i : Nat) (st st1 : FeaStructure Core),
      IndividualizeRibArray_loop geom c a m_Name count i st = some st1 →
      st1.m_FeaPartVec.map FeaPart.ribRelCenter =
        st.m_FeaPartVec.map FeaPart.ribRelCenter ++
          (List.range count).map (fun (j : Nat) => some ((Parm.Init (1 / 2) 0 1).Set
            (a.m_RelStartLocation.val + ((i + j : Nat) : ℚ) * a.m_RibRelSpacing.val)).val) := by
  intro count
  induction count with
  | zero =>
    intro i st st1 h
    simp only [IndividualizeRibArray_loop, Option.some.injEq] at h
    rw [← h]
    simp
  | succ count ih =>
    intro i st st1 h
    simp only [IndividualizeRibArray_loop, IndividualizeRibArray_center_location, hrel] at h
    cases hadd : FeaRibArray.AddFeaRib geom c a m_Name
        (a.m_RelStartLocation.val + (i : ℚ) * a.m_RibRelSpacing.val) i with
    | none => rw [hadd] at h; exact absurd h (by simp)
    | some rib =>
      rw [hadd] at h
      simp only at h
      have hc := AddFeaRib_center geom c a m_Name _ i rib hrel hadd
      rw [ih (i + 1) _ st1 h]
      simp only [FeaStructure.AddFeaPart, List.map_append, List.map_cons, List.map_nil, hc,
        List.append_assoc, List.singleton_append, List.range_succ_eq_map, List.map_map]
      congr 2
      simp
      intro j _
      rw [add_assoc, add_comm (1 : ℚ) (j : ℚ)]

theorem IndividualizeRibArray_eq {Core Mat : Type} [Inhabited Core]
    (geom : Option (Geom Core Mat)) (st : FeaStructure Core) (k : Nat) (prt : FeaPart Core)
    (c : ArrayCommon) (a : FeaRibArray) (hk : st.m_FeaPartVec[k]? = some prt)
    (htag : prt.m_FeaPartType = FEA_RIB_ARRAY) (hcls : prt.cls = FeaPartClass.FeaRibArray c a)
    (hn : 0 ≤ a.m_NumRibs) :
    st.IndividualizeRibArray geom k =
      (IndividualizeRibArray_loop geom c a prt.m_Name a.m_NumRibs.toNat 0 st).map
        (fun st1 => st1.DelFeaPart k) := by
  have hklt : k < st.m_FeaPartVec.length := by
    rcases Nat.lt_or_ge k st.m_FeaPartVec.length with h | h
    · exact h
    · rw [List.getElem?_eq_none h] at hk
      exact absurd hk (by simp)
  have hvalid : st.ValidFeaPartInd (k : Int) = true := by
    simp only [FeaStructure.ValidFeaPartInd, decide_eq_true_eq]
    omega
  have hn2 : ¬ a.m_NumRibs < 0 := by omega
  simp only [FeaStructure.IndividualizeRibArray, hvalid, not_true_eq_false, if_false,
    Int.toNat_ofNat, hk, htag, if_true, hcls, hn2]
  cases IndividualizeRibArray_loop geom c a prt.m_Name a.m_NumRibs.toNat 0 st <;> rfl

theorem IndividualizeSliceArray_eq {Core Mat : Type} [Inhabited Core]
    (geom : Option (Geom Core Mat)) (st : FeaStructure Core) (k : Nat) (prt : FeaPart Core)
    (c : ArrayCommon) (a : FeaSliceArray) (hk : st.m_FeaPartVec[k]? = some prt)
    (htag : prt.m_FeaPartType = FEA_SLICE_ARRAY)
    (hcls : prt.cls = FeaPartClass.FeaSliceArray c a) (hn : 0 ≤ a.m_NumSlices) :
    st.IndividualizeSliceArray geom k =
      (IndividualizeSliceArray_loop geom c a prt.m_Name a.m_NumSlices.toNat 0 st).map
        (fun st1 => st1.DelFeaPart k) := by
  have hklt : k < st.m_FeaPartVec.length := by
    rcases Nat.lt_or_ge k st.m_FeaPartVec.length with h | h
    · exact h
    · rw [List.getElem?_eq_none h] at hk
      exact absurd hk (by simp)
  have hvalid : st.ValidFeaPartInd (k : Int) = true := by
    simp only [FeaStructure.ValidFeaPartInd, decide_eq_true_eq]
    omega
  have hn2 : ¬ a.m_NumSlices < 0 := by omega
  simp only [FeaStructure.IndividualizeSliceArray, hvalid, not_true_eq_false, if_false,
    Int.toNat_ofNat, hk, htag, if_true, hcls, hn2]
  cases IndividualizeSliceArray_loop geom c a prt.m_Name a.m_NumSlices.toNat 0 st <;> rfl

theorem DelFeaPart_append {Core : Type} (st : FeaStructure Core) (k : Nat)
    (extra : List (FeaPart Core)) (hk : k < st.m_FeaPartVec.length) :
    ({ st with m_FeaPartVec := st.m_FeaPartVec ++ extra } : FeaStructure Core).DelFeaPart k =
      { st with m_FeaPartVec := st.m_FeaPartVec.eraseIdx k ++ extra } := by
  have hvalid : (FeaStructure.ValidFeaPartInd
      ({ st with m_FeaPartVec := st.m_FeaPartVec ++ extra } : FeaStructure Core) (k : Int)) =
      true := by
    simp only [FeaStructure.ValidFeaPartInd, decide_eq_true_eq, List.length_append]
    omega
  simp only [FeaStructure.DelFeaPart, hvalid, if_true, Int.toNat_ofNat]
  rw [List.eraseIdx_append_of_lt_length hk]

/-- The stored state of the sample array is the one `CalcNumRibs` derives. -/
theorem ribArray_negative_derived :
    ribArray_negative.CalcNumRibs (some wing_5_5) = ribArray_negative := by
  norm_num [FeaRibArray.CalcNumRibs, ribArray_negative, wing_5_5, WingGeom.totalSpan, Parm.Set,
    Parm.Init, Parm.SetLowerUpperLimits]

/-! ## Individualized ribs and the direction flag -/

/-- C11: the rib array with relative start 0.5, relative spacing 0.125 and negative
direction has its five members at 0.5, 0.375, 0.25, 0.125, 0 (`CreateFeaRibArray`),
while the loop of `IndividualizeRibArray` hands `AddFeaRib` the centre locations 0.5,
0.625, 0.75, 0.875, 1, which the ribs it configures store. With the parent shape not
found, where the update calls of `AddFeaRib` read nothing, `IndividualizeRibArray`
returns and replaces the array by five ribs with these relative centre locations: the
direction is not applied. -/
theorem IndividualizeRibArray_ignores_direction :
    ribArray_negative.CreateFeaRibArray_locations = [1 / 2, 3 / 8, 1 / 4, 1 / 8, 0] ∧
    (List.range 5).map (IndividualizeRibArray_center_location ribArray_negative) =
      [1 / 2, 5 / 8, 3 / 4, 7 / 8, 1] ∧
    (List.range 5).map (fun i =>
      (FeaRibArray.AddFeaRib_configure ArrayCommon.new ribArray_negative "RibArray_0"
        (IndividualizeRibArray_center_location ribArray_negative i) i :
          FeaPart Nat).ribRelCenter) =
      [some (1 / 2), some (5 / 8), some (3 / 4), some (7 / 8), some 1] ∧
    ∃ st1 : FeaStructure Nat,
      structure_negative_array.IndividualizeRibArray (none : Option (Geom Nat Nat)) 0 =
        some st1 ∧
      st1.m_FeaPartVec.map FeaPart.ribRelCenter =
        [some (1 / 2), some (5 / 8), some (3 / 4), some (7 / 8), some 1] := by
  refine ⟨?_, ?_, ?_, ?_⟩
  · norm_num [FeaRibArray.CreateFeaRibArray_locations, ribArray_negative, Parm.Init,
      List.range_succ, Int.toNat]
  · norm_num [IndividualizeRibArray_center_location, ribArray_negative, Parm.Init,
      List.range_succ]
  · norm_num [IndividualizeRibArray_center_location, FeaRibArray.AddFeaRib_configure,
      FeaPart.ribRelCenter, FeaRib.new, ribArray_negative, Parm.Init, Parm.Set, List.range_succ]
  · obtain ⟨ribs, hribs, _, _⟩ := @IndividualizeRibArray_loop_spec Nat Nat _
      ArrayCommon.new ribArray_negative "RibArray_0" 5 0 structure_negative_array
    have hcent := IndividualizeRibArray_loop_centers (none : Option (Geom Nat Nat))
      ArrayCommon.new ribArray_negative "RibArray_0" rfl 5 0 structure_negative_array _ hribs
    have heq := IndividualizeRibArray_eq (none : Option (Geom Nat Nat))
      structure_negative_array 0
      (samplePart FEA_RIB_ARRAY "RibArray_0"
        (FeaPartClass.FeaRibArray ArrayCommon.new ribArray_negative))
      ArrayCommon.new ribArray_negative rfl rfl rfl (by decide)
    have h5 : ribArray_negative.m_NumRibs.toNat = 5 := rfl
    have hname : (samplePart FEA_RIB_ARRAY "RibArray_0"
        (FeaPartClass.FeaRibArray ArrayCommon.new ribArray_negative)).m_Name = "RibArray_0" :=
      rfl
    rw [h5, hname, hribs, Option.map_some'] at heq
    rw [DelFeaPart_append structure_negative_array 0 ribs (by decide)] at heq
    refine ⟨_, heq, ?_⟩
    have hmap : List.map FeaPart.ribRelCenter structure_negative_array.m_FeaPartVec = [none] :=
      rfl
    have herase : structure_negative_array.m_FeaPartVec.eraseIdx 0 = [] := rfl
    simp only [List.map_append, hmap, List.singleton_append, List.cons.injEq, true_and]
      at hcent
    simp only [herase, List.nil_append, hcent]
    norm_num [ribArray_negative, Parm.Init, Parm.Set, List.range_succ]

theorem FeaSlice_UpdateParmLimits_settings {Core Mat : Type} (geom : Option (Geom Core Mat))
    (idx : Int) (sl : FeaSlice) : (sl.UpdateParmLimits geom idx).settings = sl.settings := by
  unfold FeaSlice.UpdateParmLimits
  cases geom with
  | none => rfl
  | some g =>
    simp only
    cases sl.m_AbsRelParmFlag <;> rfl

/-- The slice that `AddFeaSlice` returns has the orientation plane `CONST_U`, the
rotations of a fresh slice, and the property indices and included-element mode handed
over through `Set`. -/
theorem AddFeaSlice_settings {Core Mat : Type} [Inhabited Core] (geom : Option (Geom Core Mat))
    (c : ArrayCommon) (a : FeaSliceArray) (m_Name : String) (center_location : ℚ) (ind : Nat)
    (slice : FeaPart Core)
    (h : FeaSliceArray.AddFeaSlice geom c a m_Name center_location ind = some slice) :
    slice.sliceSettings = some
      { OrientationPlane := ((Parm.Init YZ_BODY 0 CONST_U).Set CONST_U).val
        XRot := 0
        YRot := 0
        ZRot := 0
        FeaPropertyIndex := ((Parm.Init 0 0 (10 ^ 12)).Set c.m_FeaPropertyIndex.val).val
        CapFeaPropertyIndex := ((Parm.Init 1 0 (10 ^ 12)).Set c.m_CapFeaPropertyIndex.val).val
        IncludedElements := ((Parm.Init 0 0 2).Set c.m_IncludedElements.val).val } := by
  unfold FeaSliceArray.AddFeaSlice at h
  obtain ⟨sl, hsl, hset⟩ : ∃ sl, (FeaSliceArray.AddFeaSlice_configure c a m_Name center_location
      ind : FeaPart Core).cls = FeaPartClass.FeaSlice sl ∧ sl.settings =
      { OrientationPlane := ((Parm.Init YZ_BODY 0 CONST_U).Set CONST_U).val
        XRot := 0
        YRot := 0
        ZRot := 0
        FeaPropertyIndex := ((Parm.Init 0 0 (10 ^ 12)).Set c.m_FeaPropertyIndex.val).val
        CapFeaPropertyIndex := ((Parm.Init 1 0 (10 ^ 12)).Set c.m_CapFeaPropertyIndex.val).val
        IncludedElements := ((Parm.Init 0 0 2).Set c.m_IncludedElements.val).val } := by
    simp only [FeaSliceArray.AddFeaSlice_configure, FeaSlice.new]
    refine ⟨_, rfl, ?_⟩
    cases a.m_AbsRelParmFlag <;> rfl
  have hc := updateAll_cls_slice geom _ slice sl hsl h
  unfold FeaPart.sliceSettings
  rw [hc]
  simp only [FeaSlice_UpdateParmLimits_settings, hset]

theorem IndividualizeSliceArray_loop_settings {Core Mat : Type} [Inhabited Core]
    (geom : Option (Geom Core Mat)) (c : ArrayCommon) (a : FeaSliceArray) (m_Name : String) :
    ∀ (count i : Nat) (st st1 : FeaStructure Core),
      IndividualizeSliceArray_loop geom c a m_Name count i st = some st1 →
      st1.m_FeaPartVec.map FeaPart.sliceSettings =
        st.m_FeaPartVec.map FeaPart.sliceSettings ++
          List.replicate count (some
            { OrientationPlane := ((Parm.Init YZ_BODY 0 CONST_U).Set CONST_U).val
              XRot := 0
              YRot := 0
              ZRot := 0
              FeaPropertyIndex := ((Parm.Init 0 0 (10 ^ 12)).Set c.m_FeaPropertyIndex.val).val
              CapFeaPropertyIndex :=
                ((Parm.Init 1 0 (10 ^ 12)).Set c.m_CapFeaPropertyIndex.val).val
              IncludedElements := ((Parm.Init 0 0 2).Set c.m_IncludedElements.val).val }) := by
  intro count
  induction count with
  | zero =>
    intro i st st1 h
    simp only [IndividualizeSliceArray_loop, Option.some.injEq] at h
    rw [← h]
    simp
  | succ count ih =>
    intro i st st1 h
    simp only [IndividualizeSliceArray_loop] at h
    split at h
    · exact absurd h (by simp)
    · rename_i slice hadd
      have hc := AddFeaSlice_settings geom c a m_Name _ i slice hadd
      rw [ih (i + 1) _ st1 h]
      simp only [FeaStructure.AddFeaPart, List.map_append, List.map_cons, List.map_nil, hc,
        List.append_assoc, List.singleton_append, List.replicate_succ]

/-- The stored state of the sample slice array is the one `CalcNumSlices` derives. -/
theorem sliceArray_half_derived :
    sliceArray_half.CalcNumSlices (some 10) = sliceArray_half := by
  norm_num [FeaSliceArray.CalcNumSlices, sliceArray_half, FeaSliceArray.new, Parm.Set,
    Parm.Init, Parm.SetLowerUpperLimits]

/-! ## Individualized slices and the orientation of the array -/

/-- C12: the slice array parallel to the body YZ plane (value 1) with rotations 30, -15
and 45 degrees, shell property 3, cap property 4 and included-element mode 2: every
slice that `AddFeaSlice` configures for it has the orientation plane `CONST_U` (value 6)
and the rotations 0, 0, 0, and with the parent shape not found, where the update calls of
`AddFeaSlice` read nothing, `IndividualizeSliceArray` returns and replaces the array by
three such slices; the two property indices and the included-element mode are those of
the array. -/
theorem IndividualizeSliceArray_resets_orientation :
    arrayCommon_rotated.sliceSettings =
      { OrientationPlane := 1, XRot := 30, YRot := -15, ZRot := 45, FeaPropertyIndex := 3,
        CapFeaPropertyIndex := 4, IncludedElements := 2 } ∧
    (∀ (center_location : ℚ) (ind : Nat),
      (FeaSliceArray.AddFeaSlice_configure arrayCommon_rotated sliceArray_half "SliceArray_0"
        center_location ind : FeaPart Nat).sliceSettings = some
        { OrientationPlane := 6, XRot := 0, YRot := 0, ZRot := 0, FeaPropertyIndex := 3,
          CapFeaPropertyIndex := 4, IncludedElements := 2 }) ∧
    ∃ st1 : FeaStructure Nat,
      structure_rotated_slices.IndividualizeSliceArray (none : Option (Geom Nat Nat)) 0 =
        some st1 ∧
      st1.m_FeaPartVec.map FeaPart.sliceSettings = List.replicate 3 (some
        { OrientationPlane := 6, XRot := 0, YRot := 0, ZRot := 0, FeaPropertyIndex := 3,
          CapFeaPropertyIndex := 4, IncludedElements := 2 }) := by
  refine ⟨?_, ?_, ?_⟩
  · simp [ArrayCommon.sliceSettings, arrayCommon_rotated, Parm.Init, YZ_BODY]
  · intro center_location ind
    simp only [FeaSliceArray.AddFeaSlice_configure, FeaPart.sliceSettings, FeaSlice.settings,
      sliceArray_half, FeaSliceArray.new, FeaSlice.new]
    norm_num [arrayCommon_rotated, Parm.Init, Parm.Set, CONST_U, YZ_BODY]
  · obtain ⟨slices, hslices, _, _⟩ := @IndividualizeSliceArray_loop_spec Nat Nat _
      arrayCommon_rotated sliceArray_half "SliceArray_0" 3 0 structure_rotated_slices
    have hset := IndividualizeSliceArray_loop_settings (none : Option (Geom Nat Nat))
      arrayCommon_rotated sliceArray_half "SliceArray_0" 3 0 structure_rotated_slices _ hslices
    have heq := IndividualizeSliceArray_eq (none : Option (Geom Nat Nat))
      structure_rotated_slices 0
      (samplePart FEA_SLICE_ARRAY "SliceArray_0"
        (FeaPartClass.FeaSliceArray arrayCommon_rotated sliceArray_half))
      arrayCommon_rotated sliceArray_half rfl rfl rfl (by decide)
    have h3 : sliceArray_half.m_NumSlices.toNat = 3 := rfl
    have hname : (samplePart FEA_SLICE_ARRAY "SliceArray_0"
        (FeaPartClass.FeaSliceArray arrayCommon_rotated sliceArray_half)).m_Name =
        "SliceArray_0" := rfl
    rw [h3, hname, hslices, Option.map_some'] at heq
    rw [DelFeaPart_append structure_rotated_slices 0 slices (by decide)] at heq
    refine ⟨_, heq, ?_⟩
    have hmap : List.map FeaPart.sliceSettings structure_rotated_slices.m_FeaPartVec =
        [none] := rfl
    have herase : structure_rotated_slices.m_FeaPartVec.eraseIdx 0 = [] := rfl
    simp only [List.map_append, hmap, List.singleton_append, List.cons.injEq, true_and]
      at hset
    simp only [herase, List.nil_append, hset]
    norm_num [arrayCommon_rotated, Parm.Init, Parm.Set, CONST_U, YZ_BODY]

/-! ## The location pair of a slice -/

/-- C16: on a wing of span 10 `FeaRib::UpdateParmLimits` leaves a fresh rib with the
valid range `[0, 10]` on its relative centre location, so that a later `Set( 5 )` stores
5; on a wing of span 0.5 it leaves the range `[0, 0.5]`, so that a later `Set( 0.8 )`
stores 0.5. -/
theorem FeaRib_UpdateParmLimits_relative_range_is_span :
    (∃ r1, FeaRib.new.UpdateParmLimits (some geom_two_main) = some r1 ∧
      r1.m_RelCenterLocation.lower = 0 ∧ r1.m_RelCenterLocation.upper = 10 ∧
      (r1.m_RelCenterLocation.Set 5).val = 5) ∧
    (∃ r1, FeaRib.new.UpdateParmLimits (some geom_short_wing) = some r1 ∧
      r1.m_RelCenterLocation.lower = 0 ∧ r1.m_RelCenterLocation.upper = 1 / 2 ∧
      (r1.m_RelCenterLocation.Set (4 / 5)).val = 1 / 2) := by
  constructor
  · refine ⟨_, rfl, ?_, ?_, ?_⟩ <;>
      norm_num [FeaRib.new, geom_two_main, wing_5_5, WingGeom.totalSpan, Parm.Set, Parm.Init,
        Parm.SetUpperLimit]
  · refine ⟨_, rfl, ?_, ?_, ?_⟩ <;>
      norm_num [FeaRib.new, geom_short_wing, geom_two_main, WingGeom.totalSpan, Parm.Set,
        Parm.Init, Parm.SetUpperLimit]

/-! ## Updating without a parent shape -/

theorem CalcNumRibs_idempotent (current_wing : Option WingGeom) (a : FeaRibArray) :
    (a.CalcNumRibs current_wing).CalcNumRibs current_wing = a.CalcNumRibs current_wing := by
  obtain ⟨flag, dir, abs, rel, absSp, relSp, n⟩ := a
  cases current_wing with
  | none => rfl
  | some wing => cases flag <;> cases dir <;> rfl

theorem RibArray_Update_idempotent {Core Mat : Type} [Inhabited Core]
    (geom : Option (Geom Core Mat)) (m_FeaPartType : Int) (m_Name : String)
    (m_MainSurfIndx : Int) (m_SymmIndexVec : List Nat) (m_FeaPartSurfVec : List (VspSurf Core))
    (c : ArrayCommon) (a : FeaRibArray) :
    (FeaPart.Update geom
        { m_FeaPartType := m_FeaPartType, m_Name := m_Name, m_MainSurfIndx := m_MainSurfIndx,
          m_SymmIndexVec := m_SymmIndexVec, m_FeaPartSurfVec := m_FeaPartSurfVec,
          cls := FeaPartClass.FeaRibArray c a }).bind (fun p1 => p1.Update geom) =
      FeaPart.Update geom
        { m_FeaPartType := m_FeaPartType, m_Name := m_Name, m_MainSurfIndx := m_MainSurfIndx,
          m_SymmIndexVec := m_SymmIndexVec, m_FeaPartSurfVec := m_FeaPartSurfVec,
          cls := FeaPartClass.FeaRibArray c a } := by
  cases geom with
  | none =>
    simp only [FeaPart.Update]
    split
    · rfl
    · rename_i hcond
      simp only [Option.some_bind, FeaPart.Update, hcond, if_false]
  | some g =>
    simp only [FeaPart.Update]
    cases hw : g.wing with
    | none => rfl
    | some wing =>
      simp only
      split
      · rfl
      · rename_i hn
        cases hs : g.surfAt m_MainSurfIndx with
        | none => rfl
        | some wing_surf =>
          simp only
          split
          · rfl
          · rename_i v1 hv1
            simp only [Option.some_bind, FeaPart.Update, hw, CalcNumRibs_idempotent, hn,
              if_false, hs, hv1]

/-- C20: running `FeaRibArray::CalcNumRibs` a second time changes none of the stored
parameters (relative and absolute start, relative and absolute spacing, count, in either
mode), the member locations of `CreateFeaRibArray` are the same after the second run,
and running the full `FeaRibArray::Update` a second time returns the same part as
running it once. -/
theorem RibArray_derivation_twice_same {Core Mat : Type} [Inhabited Core]
    (geom : Option (Geom Core Mat)) (current_wing : Option WingGeom) (m_FeaPartType : Int)
    (m_Name : String) (m_MainSurfIndx : Int) (m_SymmIndexVec : List Nat)
    (m_FeaPartSurfVec : List (VspSurf Core)) (c : ArrayCommon) (a : FeaRibArray) :
    (a.CalcNumRibs current_wing).CalcNumRibs current_wing = a.CalcNumRibs current_wing ∧
    ((a.CalcNumRibs current_wing).CalcNumRibs current_wing).CreateFeaRibArray_locations =
      (a.CalcNumRibs current_wing).CreateFeaRibArray_locations ∧
    (FeaPart.Update geom
        { m_FeaPartType := m_FeaPartType, m_Name := m_Name, m_MainSurfIndx := m_MainSurfIndx,
          m_SymmIndexVec := m_SymmIndexVec, m_FeaPartSurfVec := m_FeaPartSurfVec,
          cls := FeaPartClass.FeaRibArray c a }).bind (fun p1 => p1.Update geom) =
      FeaPart.Update geom
        { m_FeaPartType := m_FeaPartType, m_Name := m_Name, m_MainSurfIndx := m_MainSurfIndx,
          m_SymmIndexVec := m_SymmIndexVec, m_FeaPartSurfVec := m_FeaPartSurfVec,
          cls := FeaPartClass.FeaRibArray c a } :=
  ⟨CalcNumRibs_idempotent current_wing a,
   by rw [CalcNumRibs_idempotent],
   RibArray_Update_idempotent geom m_FeaPartType m_Name m_MainSurfIndx m_SymmIndexVec
     m_FeaPartSurfVec c a⟩

/-! ## Indices outside the lists -/

/-- C19: for an index outside `0 .. size - 1` of the part list (every index when the list
is empty) `GetFeaPart` returns null, `GetFeaPartName` the empty string, and `DelFeaPart`,
`ReorderFeaPart` and `IndividualizeRibArray` return the structure unchanged; for an index
outside the sub-surface list `GetFeaSubSurf` returns null and `DelFeaSubSurf` returns
the structure unchanged; for an index `k` inside the part list `GetFeaPart` returns the
element at position `k`. -/
theorem invalid_index_is_null_or_no_op {Core Mat : Type} [Inhabited Core]
    (geom : Option (Geom Core Mat)) (st : FeaStructure Core) (ind action : Int) :
    (¬ (0 ≤ ind ∧ ind < st.m_FeaPartVec.length) →
      st.GetFeaPart ind = none ∧ st.GetFeaPartName ind = "" ∧ st.DelFeaPart ind = st ∧
        st.ReorderFeaPart ind action = st ∧ st.IndividualizeRibArray geom ind = some st) ∧
    (¬ (0 ≤ ind ∧ ind < st.m_FeaSubSurfVec.length) →
      st.GetFeaSubSurf ind = none ∧ st.DelFeaSubSurf ind = st) ∧
    (∀ (k : Nat) (hk : k < st.m_FeaPartVec.length),
      st.GetFeaPart k = some (st.m_FeaPartVec.get ⟨k, hk⟩)) := by
  refine ⟨?_, ?_, ?_⟩
  · intro h
    have hv : st.ValidFeaPartInd ind = false := by
      simp only [FeaStructure.ValidFeaPartInd, decide_eq_false_iff_not]
      tauto
    simp [FeaStructure.GetFeaPart, FeaStructure.GetFeaPartName, FeaStructure.DelFeaPart,
      FeaStructure.ReorderFeaPart, FeaStructure.IndividualizeRibArray, hv]
  · intro h
    have hv : st.ValidFeaSubSurfInd ind = false := by
      simp only [FeaStructure.ValidFeaSubSurfInd, decide_eq_false_iff_not]
      tauto
    simp [FeaStructure.GetFeaSubSurf, FeaStructure.DelFeaSubSurf, hv]
  · intro k hk
    have hv : st.ValidFeaPartInd (k : Int) = true := by
      simp only [FeaStructure.ValidFeaPartInd, decide_eq_true_eq]
      omega
    simp only [FeaStructure.GetFeaPart, hv, if_true, Int.toNat_ofNat]
    exact List.getElem?_eq_getElem hk

/-- C19, witness: on the sample structure with two sub-surfaces the indices 3 and -1 are
outside the lists and the index 1 is inside the part list. -/
theorem invalid_index_is_null_or_no_op_witness :
    (structure_with_subsurfs.GetFeaPart 3 = none ∧
      structure_with_subsurfs.GetFeaPartName 3 = "" ∧
      structure_with_subsurfs.DelFeaPart 3 = structure_with_subsurfs ∧
      structure_with_subsurfs.ReorderFeaPart 3 REORDER_MOVE_TOP = structure_with_subsurfs ∧
      structure_with_subsurfs.IndividualizeRibArray (some geom_two_main) 3 =
        some structure_with_subsurfs) ∧
    (structure_with_subsurfs.GetFeaSubSurf (-1) = none ∧
      structure_with_subsurfs.DelFeaSubSurf (-1) = structure_with_subsurfs) ∧
    structure_with_subsurfs.GetFeaPart (1 : Nat) =
      some (structure_with_subsurfs.m_FeaPartVec.get ⟨1, by decide⟩) :=
  ⟨(invalid_index_is_null_or_no_op (some geom_two_main) structure_with_subsurfs 3
      REORDER_MOVE_TOP).1 (by decide),
   (invalid_index_is_null_or_no_op (some geom_two_main) structure_with_subsurfs (-1)
      REORDER_MOVE_TOP).2.1 (by decide),
   (invalid_index_is_null_or_no_op (some geom_two_main) structure_with_subsurfs 0
      REORDER_MOVE_TOP).2.2 1 (by decide)⟩

/-! ## Lemmas on the fixed point classifier -/

theorem IdentifySplitSurfIndex_patches_mem (TMAGIC : ℚ) (fp : FeaFixPoint) (parent : ParentSurf)
    (on_valid_patch : Bool) (i num : Nat) :
    ∀ (xs : List XferSurf) (j : Nat) (state : List Nat × Bool) (m : Nat),
      m ∈ (IdentifySplitSurfIndex_patches TMAGIC fp parent on_valid_patch i num j xs state).1 ↔
        m ∈ state.1 ∨ ∃ k x, xs[k]? = some x ∧
          (IdentifySplitSurfIndex_patch TMAGIC fp parent on_valid_patch x).isSome ∧
          m = (j + k) + i * num := by
  intro xs
  induction xs with
  | nil =>
    intro j state m
    simp [IdentifySplitSurfIndex_patches]
  | cons x rest ih =>
    intro j state m
    simp only [IdentifySplitSurfIndex_patches]
    rw [ih]
    constructor
    · rintro (h | ⟨k, y, hk, hy, hm⟩)
      · cases hx : IdentifySplitSurfIndex_patch TMAGIC fp parent on_valid_patch x with
        | none =>
          rw [hx] at h
          exact Or.inl h
        | some b =>
          rw [hx] at h
          simp only [List.mem_append, List.mem_singleton] at h
          rcases h with h | h
          · exact Or.inl h
          · exact Or.inr ⟨0, x, by simp, by simp [hx], by omega⟩
      · exact Or.inr ⟨k + 1, y, by simpa using hk, hy, by omega⟩
    · rintro (h | ⟨k, y, hk, hy, hm⟩)
      · left
        cases hx : IdentifySplitSurfIndex_patch TMAGIC fp parent on_valid_patch x with
        | none => exact h
        | some b =>
          simp only [List.mem_append]
          exact Or.inl h
      · cases k with
        | zero =>
          simp only [List.getElem?_cons_zero, Option.some.injEq] at hk
          rw [← hk] at hy
          left
          cases hx : IdentifySplitSurfIndex_patch TMAGIC fp parent on_valid_patch x with
          | none => rw [hx] at hy; exact absurd hy (by simp)
          | some b =>
            simp only [List.mem_append, List.mem_singleton]
            right
            omega
        | succ k =>
          right
          exact ⟨k, y, by simpa using hk, hy, by omega⟩

theorem IdentifySplitSurfIndex_patches_border (TMAGIC : ℚ) (fp : FeaFixPoint)
    (parent : ParentSurf) (on_valid_patch : Bool) (i num : Nat) :
    ∀ (xs : List XferSurf) (j : Nat) (state : List Nat × Bool),
      (∀ x ∈ xs, IdentifySplitSurfIndex_patch TMAGIC fp parent on_valid_patch x ≠ some false) →
      (IdentifySplitSurfIndex_patches TMAGIC fp parent on_valid_patch i num j xs state).2 =
        (state.2 || xs.any (fun x =>
          IdentifySplitSurfIndex_patch TMAGIC fp parent on_valid_patch x == some true)) := by
  intro xs
  induction xs with
  | nil =>
    intro j state _
    simp [IdentifySplitSurfIndex_patches]
  | cons x rest ih =>
    intro j state h
    simp only [IdentifySplitSurfIndex_patches]
    rw [ih _ _ (fun y hy => h y (List.mem_cons_of_mem _ hy))]
    have hx := h x (List.mem_cons_self _ _)
    cases hd : IdentifySplitSurfIndex_patch TMAGIC fp parent on_valid_patch x with
    | none => simp [hd]
    | some b =>
      cases b with
      | false => exact absurd hd hx
      | true => simp [hd]

theorem IdentifySplitSurfIndex_surfaces_entry (TMAGIC : ℚ) (fp : FeaFixPoint) :
    ∀ (surfs : List ParentSurf) (i0 : Nat) (state : List (List Nat) × Bool) (k : Nat)
      (parent : ParentSurf), surfs[k]? = some parent →
      ∃ b, (IdentifySplitSurfIndex_surfaces TMAGIC fp i0 surfs state).1[state.1.length + k]? =
        some (IdentifySplitSurfIndex_patches TMAGIC fp parent
          (IdentifySplitSurfIndex_on_valid_patch fp.uw parent.FetchXFerSurf) (i0 + k)
          parent.FetchXFerSurf.length 0 parent.FetchXFerSurf ([], b)).1 := by
  have hkeep : ∀ (surfs : List ParentSurf) (i0 : Nat) (state : List (List Nat) × Bool) (n : Nat),
      n < state.1.length →
      (IdentifySplitSurfIndex_surfaces TMAGIC fp i0 surfs state).1[n]? = state.1[n]? := by
    intro surfs
    induction surfs with
    | nil =>
      intro i0 state n _
      simp [IdentifySplitSurfIndex_surfaces]
    | cons s rest ih =>
      intro i0 state n hn
      simp only [IdentifySplitSurfIndex_surfaces]
      rw [ih _ _ n (by simp; omega)]
      exact List.getElem?_append_left hn
  intro surfs
  induction surfs with
  | nil =>
    intro i0 state k parent hk
    simp at hk
  | cons s rest ih =>
    intro i0 state k parent hk
    simp only [IdentifySplitSurfIndex_surfaces]
    cases k with
    | zero =>
      simp only [List.getElem?_cons_zero, Option.some.injEq] at hk
      rw [← hk]
      refine ⟨state.2, ?_⟩
      have h1 := hkeep rest (i0 + 1) (state.1 ++ [(IdentifySplitSurfIndex_patches TMAGIC fp s
        (IdentifySplitSurfIndex_on_valid_patch fp.uw s.FetchXFerSurf) i0
        s.FetchXFerSurf.length 0 s.FetchXFerSurf ([], state.2)).1],
        (IdentifySplitSurfIndex_patches TMAGIC fp s
        (IdentifySplitSurfIndex_on_valid_patch fp.uw s.FetchXFerSurf) i0
        s.FetchXFerSurf.length 0 s.FetchXFerSurf ([], state.2)).2) state.1.length (by simp)
      simp only [Nat.add_zero]
      exact h1.trans (by simp)
    | succ k =>
      simp only [List.getElem?_cons_succ] at hk
      obtain ⟨b, hb⟩ := ih (i0 + 1) (state.1 ++ [(IdentifySplitSurfIndex_patches TMAGIC fp s
        (IdentifySplitSurfIndex_on_valid_patch fp.uw s.FetchXFerSurf) i0
        s.FetchXFerSurf.length 0 s.FetchXFerSurf ([], state.2)).1],
        (IdentifySplitSurfIndex_patches TMAGIC fp s
        (IdentifySplitSurfIndex_on_valid_patch fp.uw s.FetchXFerSurf) i0
        s.FetchXFerSurf.length 0 s.FetchXFerSurf ([], state.2)).2) k parent hk
      refine ⟨b, ?_⟩
      simp only [List.length_append, List.length_singleton] at hb
      have e1 : state.1.length + (k + 1) = state.1.length + 1 + k := by omega
      have e2 : i0 + (k + 1) = i0 + 1 + k := by omega
      rw [e1, e2]
      exact hb

theorem IdentifySplitSurfIndex_surfaces_border (TMAGIC : ℚ) (fp : FeaFixPoint) :
    ∀ (surfs : List ParentSurf) (i0 : Nat) (state : List (List Nat) × Bool),
      (∀ parent ∈ surfs, ∀ x ∈ parent.FetchXFerSurf,
        IdentifySplitSurfIndex_patch TMAGIC fp parent
          (IdentifySplitSurfIndex_on_valid_patch fp.uw parent.FetchXFerSurf) x ≠ some false) →
      (IdentifySplitSurfIndex_surfaces TMAGIC fp i0 surfs state).2 =
        (state.2 || surfs.any (fun parent => parent.FetchXFerSurf.any (fun x =>
          IdentifySplitSurfIndex_patch TMAGIC fp parent
            (IdentifySplitSurfIndex_on_valid_patch fp.uw parent.FetchXFerSurf) x ==
              some true))) := by
  intro surfs
  induction surfs with
  | nil =>
    intro i0 state _
    simp [IdentifySplitSurfIndex_surfaces]
  | cons s rest ih =>
    intro i0 state h
    simp only [IdentifySplitSurfIndex_surfaces]
    rw [ih _ _ (fun q hq => h q (List.mem_cons_of_mem _ hq))]
    rw [IdentifySplitSurfIndex_patches_border TMAGIC fp s _ _ _ _ _ _
      (h s (List.mem_cons_self _ _))]
    simp only [List.any_cons, Bool.or_assoc]

theorem IdentifySplitSurfIndex_patch_low (TMAGIC : ℚ) (fp : FeaFixPoint) (parent : ParentSurf)
    (on_valid_patch : Bool) (x : XferSurf) (hhalf : fp.m_HalfMeshFlag = true)
    (hlow : ∀ patch ∈ x.m_Surface.control_point_y, ∀ y ∈ patch, y ≤ 1 / 1000000) :
    IdentifySplitSurfIndex_patch TMAGIC fp parent on_valid_patch x = none := by
  have hless : FeaFixPoint.LessThanY x.m_Surface (1 / 1000000) = true := by
    simp only [FeaFixPoint.LessThanY, List.all_eq_true, decide_eq_true_eq, gt_iff_lt, not_lt]
    exact hlow
  have hless2 := hless
  simp only [one_div] at hless2
  simp [IdentifySplitSurfIndex_patch, hhalf, hless2]

theorem IdentifySplitSurfIndex_patch_setControlPoints (TMAGIC : ℚ) (fp : FeaFixPoint)
    (parent : ParentSurf) (on_valid_patch : Bool) (x : XferSurf)
    (g : XferSurf → List (List ℚ)) (cps : List (List ℚ)) (hhalf : fp.m_HalfMeshFlag = false) :
    IdentifySplitSurfIndex_patch TMAGIC fp (parent.setControlPoints g) on_valid_patch
        (x.setControlPoints cps) =
      IdentifySplitSurfIndex_patch TMAGIC fp parent on_valid_patch x := by
  simp [IdentifySplitSurfIndex_patch, hhalf, ParentSurf.setControlPoints,
    XferSurf.setControlPoints]

theorem IdentifySplitSurfIndex_patches_setControlPoints (TMAGIC : ℚ) (fp : FeaFixPoint)
    (parent : ParentSurf) (on_valid_patch : Bool) (i num : Nat)
    (g : XferSurf → List (List ℚ)) (hhalf : fp.m_HalfMeshFlag = false) :
    ∀ (xs : List XferSurf) (j : Nat) (state : List Nat × Bool),
      IdentifySplitSurfIndex_patches TMAGIC fp (parent.setControlPoints g) on_valid_patch i num j
          (xs.map (fun x => x.setControlPoints (g x))) state =
        IdentifySplitSurfIndex_patches TMAGIC fp parent on_valid_patch i num j xs state := by
  intro xs
  induction xs with
  | nil =>
    intro j state
    rfl
  | cons x rest ih =>
    intro j state
    simp only [List.map_cons, IdentifySplitSurfIndex_patches,
      IdentifySplitSurfIndex_patch_setControlPoints TMAGIC fp parent on_valid_patch x g _ hhalf,
      ih]

theorem IdentifySplitSurfIndex_surfaces_setControlPoints (TMAGIC : ℚ) (fp : FeaFixPoint)
    (g : XferSurf → List (List ℚ)) (hhalf : fp.m_HalfMeshFlag = false) :
    ∀ (surfs : List ParentSurf) (i0 : Nat) (state : List (List Nat) × Bool),
      IdentifySplitSurfIndex_surfaces TMAGIC fp i0 (surfs.map (ParentSurf.setControlPoints g))
          state =
        IdentifySplitSurfIndex_surfaces TMAGIC fp i0 surfs state := by
  intro surfs
  induction surfs with
  | nil =>
    intro i0 state
    rfl
  | cons s rest ih =>
    intro i0 state
    have hov : IdentifySplitSurfIndex_on_valid_patch fp.uw
        (s.setControlPoints g).FetchXFerSurf =
        IdentifySplitSurfIndex_on_valid_patch fp.uw s.FetchXFerSurf := by
      simp only [IdentifySplitSurfIndex_on_valid_patch, ParentSurf.setControlPoints,
        List.any_map]
      rfl
    have hlen : (s.setControlPoints g).FetchXFerSurf.length = s.FetchXFerSurf.length := by
      simp [ParentSurf.setControlPoints]
    have hmap : (s.setControlPoints g).FetchXFerSurf =
        s.FetchXFerSurf.map (fun x => x.setControlPoints (g x)) := rfl
    simp only [List.map_cons, IdentifySplitSurfIndex_surfaces, hov, hlen]
    rw [hmap, IdentifySplitSurfIndex_patches_setControlPoints TMAGIC fp s _ _ _ g hhalf, ih]

/-! ## Half-mesh trimming of the fixed point classifier -/

/-- C14: with the half-mesh flag set, `IdentifySplitSurfIndex` records in
`m_SplitSurfIndex[i]` no index of a sub-patch `j` of surface `i` all of whose control
points have `y <= 1e-6`, whatever `( u, w )` is; with the flag not set the result does
not depend on the control points of the sub-patches at all. -/
theorem IdentifySplitSurfIndex_half_mesh_trimming (TMAGIC : ℚ) (surfs : List ParentSurf)
    (fp : FeaFixPoint) :
    (fp.m_HalfMeshFlag = true →
      ∀ (i j : Nat) (parent : ParentSurf) (x : XferSurf) (entry : List Nat),
        surfs[i]? = some parent → parent.FetchXFerSurf[j]? = some x →
        (∀ patch ∈ x.m_Surface.control_point_y, ∀ y ∈ patch, y ≤ 1 / 1000000) →
        (fp.IdentifySplitSurfIndex TMAGIC (some surfs)).m_SplitSurfIndex[i]? = some entry →
        j + i * parent.FetchXFerSurf.length ∉ entry) ∧
    (fp.m_HalfMeshFlag = false →
      ∀ g : XferSurf → List (List ℚ),
        fp.IdentifySplitSurfIndex TMAGIC (some (surfs.map (ParentSurf.setControlPoints g))) =
          fp.IdentifySplitSurfIndex TMAGIC (some surfs)) := by
  constructor
  · intro hhalf i j parent x entry hi hj hlow hentry
    obtain ⟨b, hb⟩ := IdentifySplitSurfIndex_surfaces_entry TMAGIC fp surfs 0
      ([], fp.m_BorderFlag) i parent hi
    simp only [FeaFixPoint.IdentifySplitSurfIndex] at hentry
    simp only [List.length_nil, Nat.zero_add] at hb
    rw [hb, Option.some.injEq] at hentry
    rw [← hentry, IdentifySplitSurfIndex_patches_mem]
    rintro (h | ⟨k, y, hk, hy, hm⟩)
    · simp at h
    · have hkj : k = j := by omega
      rw [hkj, hj, Option.some.injEq] at hk
      rw [← hk, IdentifySplitSurfIndex_patch_low TMAGIC fp parent _ x hhalf hlow] at hy
      simp at hy
  · intro hhalf g
    simp only [FeaFixPoint.IdentifySplitSurfIndex,
      IdentifySplitSurfIndex_surfaces_setControlPoints TMAGIC fp g hhalf]

theorem IdentifySplitSurfIndex_classify_false (uw : ℚ × ℚ) (umin umax vmin vmax : ℚ)
    (closedU closedW : Bool) (a b c d : ℚ)
    (h : IdentifySplitSurfIndex_classify uw umin umax vmin vmax closedU closedW a b c d =
      some false) :
    uw.1 > umin ∧ uw.1 < umax ∧ uw.2 > vmin ∧ uw.2 < vmax := by
  unfold IdentifySplitSurfIndex_classify at h
  split_ifs at h with h1 <;> first | exact h1 | exact absurd h (by simp)

theorem IdentifySplitSurfIndex_classify_corner (umin umax vmin vmax : ℚ)
    (closedU closedW : Bool) (a b c d : ℚ) (hu : umin < umax) (hv : vmin < vmax) :
    IdentifySplitSurfIndex_classify (umin, vmin) umin umax vmin vmax closedU closedW a b c d =
      some true := by
  simp [IdentifySplitSurfIndex_classify, hu, hv]

theorem IdentifySplitSurfIndex_patch_false (TMAGIC : ℚ) (fp : FeaFixPoint) (parent : ParentSurf)
    (x : XferSurf)
    (h : IdentifySplitSurfIndex_patch TMAGIC fp parent true x = some false) :
    x.interior fp.uw.1 fp.uw.2 := by
  simp only [IdentifySplitSurfIndex_patch, not_true_eq_false, Bool.false_eq_true, and_false,
    decide_False, if_false] at h
  split_ifs at h <;> exact IdentifySplitSurfIndex_classify_false _ _ _ _ _ _ _ _ _ _ _ h

theorem same_range_getElem (xs ys : List XferSurf)
    (h : xs.map XferSurf.range = ys.map XferSurf.range) (k : Nat) (x : XferSurf)
    (hx : xs[k]? = some x) : ∃ y, ys[k]? = some y ∧ y.range = x.range := by
  have h1 : (xs.map XferSurf.range)[k]? = some x.range := by
    rw [List.getElem?_map, hx]
    rfl
  rw [h, List.getElem?_map] at h1
  cases hy : ys[k]? with
  | none => rw [hy] at h1; exact absurd h1 (by simp)
  | some y =>
    rw [hy] at h1
    simp only [Option.map_some', Option.some.injEq] at h1
    exact ⟨y, rfl, h1⟩

theorem interior_of_same_range (x y : XferSurf) (h : y.range = x.range) (u w : ℚ)
    (hx : x.interior u w) : y.interior u w := by
  simp only [XferSurf.range, Prod.mk.injEq] at h
  obtain ⟨h1, h2, h3, h4⟩ := h
  unfold XferSurf.interior at hx ⊢
  rw [h1, h2, h3, h4]
  exact hx

/-- A point strictly inside a sub-patch is not the minimum corner of another sub-patch of
positive extent whose interior is disjoint from it. -/
theorem corner_not_interior (p q : XferSurf) (hu : p.m_Surface.u0 < p.m_Surface.umax)
    (hv : p.m_Surface.v0 < p.m_Surface.vmax)
    (hq : q.interior p.m_Surface.u0 p.m_Surface.v0) :
    ∃ u w, p.interior u w ∧ q.interior u w := by
  obtain ⟨h1, h2, h3, h4⟩ := hq
  refine ⟨(p.m_Surface.u0 + min p.m_Surface.umax q.m_Surface.umax) / 2,
    (p.m_Surface.v0 + min p.m_Surface.vmax q.m_Surface.vmax) / 2, ?_, ?_⟩
  · have hu1 : p.m_Surface.u0 < min p.m_Surface.umax q.m_Surface.umax := lt_min hu h2
    have hv1 : p.m_Surface.v0 < min p.m_Surface.vmax q.m_Surface.vmax := lt_min hv h4
    have hu2 := min_le_left p.m_Surface.umax q.m_Surface.umax
    have hv2 := min_le_left p.m_Surface.vmax q.m_Surface.vmax
    refine ⟨?_, ?_, ?_, ?_⟩ <;> linarith
  · have hu1 : p.m_Surface.u0 < min p.m_Surface.umax q.m_Surface.umax := lt_min hu h2
    have hv1 : p.m_Surface.v0 < min p.m_Surface.vmax q.m_Surface.vmax := lt_min hv h4
    have hu2 := min_le_right p.m_Surface.umax q.m_Surface.umax
    have hv2 := min_le_right p.m_Surface.vmax q.m_Surface.vmax
    refine ⟨?_, ?_, ?_, ?_⟩ <;> linarith

/-! ## A fix point on the corner of a sub-patch -/

theorem interior_disjoint_of_separated (q1 q2 : XferSurf)
    (h : q1.m_Surface.umax ≤ q2.m_Surface.u0 ∨ q2.m_Surface.umax ≤ q1.m_Surface.u0 ∨
      q1.m_Surface.vmax ≤ q2.m_Surface.v0 ∨ q2.m_Surface.vmax ≤ q1.m_Surface.v0 ∨
      q1.m_Surface.umax ≤ q1.m_Surface.u0 ∨ q2.m_Surface.umax ≤ q2.m_Surface.u0) :
    ¬ ∃ u w, q1.interior u w ∧ q2.interior u w := by
  rintro ⟨u, w, ⟨a1, a2, a3, a4⟩, ⟨b1, b2, b3, b4⟩⟩
  rcases h with h | h | h | h | h | h <;> linarith

/-- C13, counterexample: the fix point at `( 1/2, 1/2 )` sits on the (minimum-u,
minimum-w) corner of the fourth quarter of a surface split into four quarters, nothing is
trimmed and the sub-patches of each surface have pairwise disjoint interiors. When the
second surface of the parent part is not split, the point lies inside its only sub-patch,
which is classified last: the index of the quarter is recorded, but `m_BorderFlag` ends
false. The same happens on a single surface when the sub-patch with the corner has no
width and is followed by a sub-patch that contains the point. -/
theorem IdentifySplitSurfIndex_corner_ends_interior :
    (fixPoint_center.uw = ((patch_quarter (1 / 2) (1 / 2)).m_Surface.u0,
        (patch_quarter (1 / 2) (1 / 2)).m_Surface.v0) ∧
      surf_four_quarters.FetchXFerSurf[3]? = some (patch_quarter (1 / 2) (1 / 2)) ∧
      fixPoint_center.m_HalfMeshFlag = false ∧
      (∀ parent ∈ [surf_four_quarters, surf_unsplit],
        ∀ (j1 j2 : Nat) (q1 q2 : XferSurf), parent.FetchXFerSurf[j1]? = some q1 →
          parent.FetchXFerSurf[j2]? = some q2 → j1 ≠ j2 →
          ¬ ∃ u w, q1.interior u w ∧ q2.interior u w) ∧
      (fixPoint_center.IdentifySplitSurfIndex (1 / 250)
        (some [surf_four_quarters, surf_unsplit])).m_SplitSurfIndex = [[0, 1, 2, 3], [1]] ∧
      (fixPoint_center.IdentifySplitSurfIndex (1 / 250)
        (some [surf_four_quarters, surf_unsplit])).m_BorderFlag = false) ∧
    (fixPoint_center.uw = (patch_no_width.m_Surface.u0, patch_no_width.m_Surface.v0) ∧
      surf_with_no_width.FetchXFerSurf[0]? = some patch_no_width ∧
      (∀ (j1 j2 : Nat) (q1 q2 : XferSurf), surf_with_no_width.FetchXFerSurf[j1]? = some q1 →
          surf_with_no_width.FetchXFerSurf[j2]? = some q2 → j1 ≠ j2 →
          ¬ ∃ u w, q1.interior u w ∧ q2.interior u w) ∧
      (fixPoint_center.IdentifySplitSurfIndex (1 / 250)
        (some [surf_with_no_width])).m_SplitSurfIndex = [[0, 1]] ∧
      (fixPoint_center.IdentifySplitSurfIndex (1 / 250)
        (some [surf_with_no_width])).m_BorderFlag = false) := by
  refine ⟨⟨?_, rfl, rfl, ?_, ?_, ?_⟩, ⟨?_, rfl, ?_, ?_, ?_⟩⟩
  · norm_num [fixPoint_center, patch_quarter]
  · intro parent hparent j1 j2 q1 q2 h1 h2 hne
    simp only [List.mem_cons, List.mem_singleton, List.not_mem_nil, or_false] at hparent
    rcases hparent with h | h <;> subst h
    · simp only [surf_four_quarters] at h1 h2
      rcases j1 with _ | _ | _ | _ | j1 <;> rcases j2 with _ | _ | _ | _ | j2 <;>
        simp only [List.getElem?_cons_zero, List.getElem?_cons_succ, List.getElem?_nil,
          Option.some.injEq, reduceCtorEq] at h1 h2 <;>
        first
        | exact absurd rfl hne
        | (subst h1; subst h2; apply interior_disjoint_of_separated; norm_num [patch_quarter])
    · simp only [surf_unsplit] at h1 h2
      rcases j1 with _ | j1 <;> rcases j2 with _ | j2 <;>
        simp only [List.getElem?_cons_zero, List.getElem?_cons_succ, List.getElem?_nil,
          Option.some.injEq, reduceCtorEq] at h1 h2
      exact absurd rfl hne
  · norm_num [FeaFixPoint.IdentifySplitSurfIndex, IdentifySplitSurfIndex_surfaces,
      IdentifySplitSurfIndex_patches, IdentifySplitSurfIndex_patch,
      IdentifySplitSurfIndex_classify, IdentifySplitSurfIndex_on_valid_patch,
      surf_four_quarters, surf_unsplit, patch_quarter, patch_whole, fixPoint_center]
  · norm_num [FeaFixPoint.IdentifySplitSurfIndex, IdentifySplitSurfIndex_surfaces,
      IdentifySplitSurfIndex_patches, IdentifySplitSurfIndex_patch,
      IdentifySplitSurfIndex_classify, IdentifySplitSurfIndex_on_valid_patch,
      surf_four_quarters, surf_unsplit, patch_quarter, patch_whole, fixPoint_center]
  · norm_num [fixPoint_center, patch_no_width]
  · intro j1 j2 q1 q2 h1 h2 hne
    simp only [surf_with_no_width] at h1 h2
    rcases j1 with _ | _ | j1 <;> rcases j2 with _ | _ | j2 <;>
      simp only [List.getElem?_cons_zero, List.getElem?_cons_succ, List.getElem?_nil,
        Option.some.injEq, reduceCtorEq] at h1 h2 <;>
      first
      | exact absurd rfl hne
      | (subst h1; subst h2; apply interior_disjoint_of_separated;
         norm_num [patch_no_width, patch_whole])
  · norm_num [FeaFixPoint.IdentifySplitSurfIndex, IdentifySplitSurfIndex_surfaces,
      IdentifySplitSurfIndex_patches, IdentifySplitSurfIndex_patch,
      IdentifySplitSurfIndex_classify, IdentifySplitSurfIndex_on_valid_patch,
      surf_with_no_width, patch_no_width, patch_whole, fixPoint_center]
  · norm_num [FeaFixPoint.IdentifySplitSurfIndex, IdentifySplitSurfIndex_surfaces,
      IdentifySplitSurfIndex_patches, IdentifySplitSurfIndex_patch,
      IdentifySplitSurfIndex_classify, IdentifySplitSurfIndex_on_valid_patch,
      surf_with_no_width, patch_no_width, patch_whole, fixPoint_center]

/-- C13, amended: let the fix point's `( u, w )` be the (minimum-u, minimum-w) corner of
sub-patch `j` of surface `i`, a sub-patch of positive extent that the half-mesh trimming
keeps, let the sub-patches of that surface have pairwise disjoint interiors, and let
every surface (symmetry copy) of the parent part be split into the same parameter
ranges. Then `IdentifySplitSurfIndex` records the index `j + i * num_split_surfs` in
`m_SplitSurfIndex[i]` and ends with `m_BorderFlag` true. -/
theorem IdentifySplitSurfIndex_corner_is_border (TMAGIC : ℚ) (surfs : List ParentSurf)
    (fp : FeaFixPoint) (i j : Nat) (parent : ParentSurf) (p : XferSurf)
    (hi : surfs[i]? = some parent) (hj : parent.FetchXFerSurf[j]? = some p)
    (hkeep : ¬ (fp.m_HalfMeshFlag ∧ FeaFixPoint.LessThanY p.m_Surface (1 / 1000000)) ∧
      ¬ (fp.m_HalfMeshFlag ∧ FeaFixPoint.PlaneAtYZero p.m_Surface))
    (hcorner : fp.uw = (p.m_Surface.u0, p.m_Surface.v0))
    (hu : p.m_Surface.u0 < p.m_Surface.umax) (hv : p.m_Surface.v0 < p.m_Surface.vmax)
    (hdisj : ∀ (j1 j2 : Nat) (q1 q2 : XferSurf), parent.FetchXFerSurf[j1]? = some q1 →
      parent.FetchXFerSurf[j2]? = some q2 → j1 ≠ j2 →
      ¬ ∃ u w, q1.interior u w ∧ q2.interior u w)
    (hsame : ∀ other ∈ surfs, other.FetchXFerSurf.map XferSurf.range =
      parent.FetchXFerSurf.map XferSurf.range) :
    (∃ entry, (fp.IdentifySplitSurfIndex TMAGIC (some surfs)).m_SplitSurfIndex[i]? =
        some entry ∧ j + i * parent.FetchXFerSurf.length ∈ entry) ∧
    (fp.IdentifySplitSurfIndex TMAGIC (some surfs)).m_BorderFlag = true := by
  have hvalid : ∀ other ∈ surfs,
      IdentifySplitSurfIndex_on_valid_patch fp.uw other.FetchXFerSurf = true := by
    intro other hother
    obtain ⟨y, hy, hr⟩ := same_range_getElem parent.FetchXFerSurf other.FetchXFerSurf
      (hsame other hother).symm j p hj
    simp only [IdentifySplitSurfIndex_on_valid_patch, List.any_eq_true, decide_eq_true_eq]
    refine ⟨y, List.mem_iff_getElem?.mpr ⟨_, hy⟩, ?_⟩
    simp only [XferSurf.range, Prod.mk.injEq] at hr
    obtain ⟨h1, h2, h3, h4⟩ := hr
    rw [hcorner, h1, h2, h3, h4]
    exact ⟨le_refl _, hv.le, le_refl _, hu.le⟩
  have hparent : parent ∈ surfs := List.mem_iff_getElem?.mpr ⟨_, hi⟩
  have hpatch : IdentifySplitSurfIndex_patch TMAGIC fp parent
      (IdentifySplitSurfIndex_on_valid_patch fp.uw parent.FetchXFerSurf) p = some true := by
    rw [hvalid parent hparent]
    simp only [IdentifySplitSurfIndex_patch, hkeep.1, hkeep.2, if_false, if_true,
      not_true_eq_false, Bool.false_eq_true, and_false, decide_False, hcorner]
    exact IdentifySplitSurfIndex_classify_corner _ _ _ _ _ _ _ _ _ _ hu hv
  have hnone : ∀ other ∈ surfs, ∀ x ∈ other.FetchXFerSurf,
      IdentifySplitSurfIndex_patch TMAGIC fp other
        (IdentifySplitSurfIndex_on_valid_patch fp.uw other.FetchXFerSurf) x ≠ some false := by
    intro other hother x hx hfalse
    rw [hvalid other hother] at hfalse
    have hint := IdentifySplitSurfIndex_patch_false TMAGIC fp other x hfalse
    obtain ⟨k, hk⟩ := List.getElem?_of_mem hx
    obtain ⟨q, hq, hr⟩ := same_range_getElem other.FetchXFerSurf parent.FetchXFerSurf
      (hsame other hother) k x hk
    have hqint : q.interior p.m_Surface.u0 p.m_Surface.v0 := by
      have := interior_of_same_range x q hr _ _ hint
      rw [hcorner] at this
      exact this
    by_cases hkj : k = j
    · rw [hkj, hj, Option.some.injEq] at hq
      rw [← hq] at hqint
      exact absurd hqint.1 (lt_irrefl _)
    · exact hdisj j k p q hj hq (fun h => hkj h.symm) (corner_not_interior p q hu hv hqint)
  constructor
  · obtain ⟨b, hb⟩ := IdentifySplitSurfIndex_surfaces_entry TMAGIC fp surfs 0
      ([], fp.m_BorderFlag) i parent hi
    simp only [List.length_nil, Nat.zero_add] at hb
    refine ⟨_, hb, ?_⟩
    rw [IdentifySplitSurfIndex_patches_mem]
    right
    exact ⟨j, p, hj, by rw [hpatch]; rfl, by omega⟩
  · show (IdentifySplitSurfIndex_surfaces TMAGIC fp 0 surfs ([], fp.m_BorderFlag)).2 = true
    rw [IdentifySplitSurfIndex_surfaces_border TMAGIC fp surfs 0 _ hnone]
    simp only [Bool.or_eq_true, List.any_eq_true, beq_iff_eq]
    right
    exact ⟨parent, hparent, p, List.mem_iff_getElem?.mpr ⟨_, hj⟩, hpatch⟩

/-- C13 (amended), witness: the fix point at `( 1/2, 0 )`, the corner of the second sub-patch of the
upper copy of a skin with two copies, each split at `u = 1/2`. -/
theorem IdentifySplitSurfIndex_corner_is_border_witness :
    (∃ entry, (fixPoint_on_corner.IdentifySplitSurfIndex (1 / 250)
          (some skin_two_copies)).m_SplitSurfIndex[0]? = some entry ∧
        1 + 0 * skin_copy_up.FetchXFerSurf.length ∈ entry) ∧
    (fixPoint_on_corner.IdentifySplitSurfIndex (1 / 250)
      (some skin_two_copies)).m_BorderFlag = true :=
  IdentifySplitSurfIndex_corner_is_border (1 / 250) skin_two_copies fixPoint_on_corner 0 1
    skin_copy_up patch_right_up rfl rfl
    (by norm_num [FeaFixPoint.LessThanY, FeaFixPoint.PlaneAtYZero, patch_right_up,
      fixPoint_on_corner])
    rfl (by norm_num [patch_right_up]) (by norm_num [patch_right_up])
    (by
      intro j1 j2 q1 q2 h1 h2 hne
      rintro ⟨u, w, hq1, hq2⟩
      have hlen : skin_copy_up.FetchXFerSurf = [patch_left_up, patch_right_up] := rfl
      rw [hlen] at h1 h2
      rcases j1 with _ | _ | j1 <;> rcases j2 with _ | _ | j2 <;>
        simp only [List.getElem?_cons_zero, List.getElem?_cons_succ, List.getElem?_nil,
          Option.some.injEq, reduceCtorEq] at h1 h2
      · exact hne rfl
      · rw [← h1] at hq1
        rw [← h2] at hq2
        have a1 := hq1.2.1
        have a2 := hq2.1
        simp only [patch_left_up, patch_right_up] at a1 a2
        linarith
      · rw [← h1] at hq1
        rw [← h2] at hq2
        have a1 := hq1.1
        have a2 := hq2.2.1
        simp only [patch_left_up, patch_right_up] at a1 a2
        linarith
      · exact hne rfl)
    (by
      intro other hother
      simp only [skin_two_copies, List.mem_cons, List.mem_singleton, List.not_mem_nil,
        or_false] at hother
      rcases hother with h | h
      · rw [h]
      · rw [h]; rfl)

/-- C14, witness: with the half-mesh flag set the first sub-patch of the lower copy, whose
control points have `y <= 0`, is not recorded; with the flag not set the control points
play no part. -/
theorem IdentifySplitSurfIndex_half_mesh_trimming_witness :
    (∀ entry : List Nat,
      (fixPoint_on_corner.IdentifySplitSurfIndex (1 / 250)
        (some skin_two_copies)).m_SplitSurfIndex[1]? = some entry →
      0 + 1 * skin_copy_down.FetchXFerSurf.length ∉ entry) ∧
    (∀ g : XferSurf → List (List ℚ),
      fixPoint_full_mesh.IdentifySplitSurfIndex (1 / 250)
          (some (skin_two_copies.map (ParentSurf.setControlPoints g))) =
        fixPoint_full_mesh.IdentifySplitSurfIndex (1 / 250) (some skin_two_copies)) :=
  ⟨fun entry h =>
      (IdentifySplitSurfIndex_half_mesh_trimming (1 / 250) skin_two_copies
        fixPoint_on_corner).1 rfl 1 0 skin_copy_down patch_left_down entry rfl rfl
        (by
          intro patch hpatch y hy
          simp only [patch_left_down, List.mem_cons, List.mem_singleton, List.not_mem_nil,
            or_false] at hpatch
          rw [hpatch] at hy
          simp only [List.mem_cons, List.mem_singleton, List.not_mem_nil, or_false] at hy
          rcases hy with h | h <;> (rw [h]; norm_num)) h,
   (IdentifySplitSurfIndex_half_mesh_trimming (1 / 250) skin_two_copies
      fixPoint_full_mesh).2 rfl⟩


/-! ## Orientation of a slice surface -/

theorem Matrix4d.affineInverse_affineInverse {K : Type} [LinearOrderedField K]
    (m : Matrix4d K) (h : m.IsRigid) : m.affineInverse.affineInverse = m := by
  obtain ⟨h1, h2, h3, h4, h5, h6⟩ := h
  simp only [vec3d.dot] at h1 h2 h3 h4 h5 h6
  ext <;> simp only [Matrix4d.affineInverse, vec3d.dot]
  · linear_combination m.t.x * h1 + m.t.y * h4 + m.t.z * h5
  · linear_combination m.t.x * h4 + m.t.y * h2 + m.t.z * h6
  · linear_combination m.t.x * h5 + m.t.y * h6 + m.t.z * h3

theorem Matrix4d.translatef_loadIdentity {K : Type} [LinearOrderedField K] (x y z : K) :
    (Matrix4d.loadIdentity : Matrix4d K).translatef x y z =
      { (Matrix4d.loadIdentity : Matrix4d K) with t := { x := x, y := y, z := z } } := by
  ext <;> simp [Matrix4d.translatef, Matrix4d.postMult, Matrix4d.loadIdentity, Matrix4d.xform,
    vec3d.dot]

theorem ComputeSliceSurf_transform_eq {K : Type} [LinearOrderedField K] (M : MathLib K)
    (getModelMatrix : Matrix4d K) (slice_surf : PlaneSurf K)
    (slice_center x_axis y_axis z_axis : vec3d K) (orientation_plane : ℚ)
    (x_rot y_rot z_rot : K) :
    ComputeSliceSurf_transform M getModelMatrix slice_surf slice_center x_axis y_axis z_axis
        orientation_plane x_rot y_rot z_rot =
      specSliceSurf M slice_surf slice_center x_axis y_axis z_axis x_rot y_rot z_rot
        (if RefFrameIsBody orientation_plane then
          some getModelMatrix.affineInverse.affineInverse else none) := by
  simp only [ComputeSliceSurf_transform, specSliceSurf, Matrix4d.translatef_loadIdentity,
    mul_neg, mul_one]
  split_ifs <;> rfl

theorem translation_x_isRigid {K : Type} [LinearOrderedField K] :
    (translation_x : Matrix4d K).IsRigid := by
  rw [translation_x, Matrix4d.translatef_loadIdentity]
  simp [Matrix4d.IsRigid, Matrix4d.loadIdentity, vec3d.dot]

/-- C17, counterexample: the parent's model matrix is the translation by `( 1, 0, 0 )`, the
plane is body-relative (`YZ_BODY`), centred at the origin, and the three rotations are zero.
The code moves the corner `( 0, -1, -1 )` to `( 1, -1, -1 )`, the image under the model
matrix itself; the sequence that ends with the inverse of the model matrix moves it to
`( -1, -1, -1 )`. -/
theorem ComputeSliceSurf_transform_applies_model_matrix :
    ∃ M : MathLib ℝ, M.IsReal ∧
      (ComputeSliceSurf_transform M translation_x plane_yz { x := 0, y := 0, z := 0 }
          { x := 1, y := 0, z := 0 } { x := 0, y := 1, z := 0 } { x := 0, y := 0, z := 1 }
          YZ_BODY 0 0 0).cornerA = { x := 1, y := -1, z := -1 } ∧
      (specSliceSurf M plane_yz { x := 0, y := 0, z := 0 }
          { x := 1, y := 0, z := 0 } { x := 0, y := 1, z := 0 } { x := 0, y := 0, z := 1 }
          0 0 0 (some (Matrix4d.affineInverse translation_x))).cornerA =
        { x := -1, y := -1, z := -1 } ∧
      ComputeSliceSurf_transform M translation_x plane_yz { x := 0, y := 0, z := 0 }
          { x := 1, y := 0, z := 0 } { x := 0, y := 1, z := 0 } { x := 0, y := 0, z := 1 }
          YZ_BODY 0 0 0 ≠
        specSliceSurf M plane_yz { x := 0, y := 0, z := 0 }
          { x := 1, y := 0, z := 0 } { x := 0, y := 1, z := 0 } { x := 0, y := 0, z := 1 }
          0 0 0 (some (Matrix4d.affineInverse translation_x)) := by
  obtain ⟨M, hM, -⟩ := exists_real_mathlib
  have hsin : M.sin = Real.sin := hM.2.1
  have hcos : M.cos = Real.cos := hM.2.2.1
  have hcode : (ComputeSliceSurf_transform M translation_x plane_yz { x := 0, y := 0, z := 0 }
      { x := 1, y := 0, z := 0 } { x := 0, y := 1, z := 0 } { x := 0, y := 0, z := 1 }
      YZ_BODY 0 0 0).cornerA = { x := 1, y := -1, z := -1 } := by
    rw [ComputeSliceSurf_transform_eq,
      Matrix4d.affineInverse_affineInverse _ translation_x_isRigid]
    simp only [translation_x, Matrix4d.translatef_loadIdentity]
    ext <;> simp [specSliceSurf, RefFrameIsBody, YZ_BODY, XY_BODY, XZ_BODY,
      plane_yz, PlaneSurf.Transform, Matrix4d.rotate, Matrix4d.postMult, Matrix4d.xform,
      Matrix4d.loadIdentity, vec3d.dot, hsin, hcos]
  have hspec : (specSliceSurf M plane_yz { x := 0, y := 0, z := 0 }
      { x := 1, y := 0, z := 0 } { x := 0, y := 1, z := 0 } { x := 0, y := 0, z := 1 }
      0 0 0 (some (Matrix4d.affineInverse translation_x))).cornerA =
      { x := -1, y := -1, z := -1 } := by
    simp only [translation_x, Matrix4d.translatef_loadIdentity]
    ext <;> simp [specSliceSurf, Matrix4d.affineInverse,
      plane_yz, PlaneSurf.Transform, Matrix4d.rotate, Matrix4d.postMult, Matrix4d.xform,
      Matrix4d.loadIdentity, vec3d.dot, hsin, hcos]
  refine ⟨M, hM, hcode, hspec, ?_⟩
  intro h
  have hx := congrArg (fun s => s.cornerA.x) h
  simp only [hcode, hspec] at hx
  norm_num at hx

/-- C17, amended: for a parent whose model matrix is a rotation followed by a translation,
`FeaPart::ComputeSliceSurf` applies to the constructed plane, in this order: translation by
minus the slice centre, rotation about X by `x_rot`, rotation about Y by `y_rot`, rotation
about Z by `z_rot`, translation by plus the slice centre, and, for a body-relative
orientation plane, finally the parent's model matrix itself (the inverse taken at line 1475
is inverted again at line 1833); for an absolute-frame plane the last step is omitted. -/
theorem ComputeSliceSurf_transform_order {K : Type} [LinearOrderedField K] (M : MathLib K)
    (getModelMatrix : Matrix4d K) (slice_surf : PlaneSurf K)
    (slice_center x_axis y_axis z_axis : vec3d K) (orientation_plane : ℚ)
    (x_rot y_rot z_rot : K) (hrigid : getModelMatrix.IsRigid) :
    ComputeSliceSurf_transform M getModelMatrix slice_surf slice_center x_axis y_axis z_axis
        orientation_plane x_rot y_rot z_rot =
      specSliceSurf M slice_surf slice_center x_axis y_axis z_axis x_rot y_rot z_rot
        (if RefFrameIsBody orientation_plane then some getModelMatrix else none) := by
  rw [ComputeSliceSurf_transform_eq, Matrix4d.affineInverse_affineInverse _ hrigid]

/-- C17, witness: the model matrix is the translation by `( 1, 0, 0 )`, the plane is
body-relative with rotations of 30, 20 and 10 degrees about the centre `( 2, 0, 1 )`. -/
theorem ComputeSliceSurf_transform_order_witness :
    ∃ M : MathLib ℝ, M.IsReal ∧ (translation_x : Matrix4d ℝ).IsRigid ∧
      RefFrameIsBody YZ_BODY = true ∧
      ComputeSliceSurf_transform M translation_x plane_yz { x := 2, y := 0, z := 1 }
          { x := 1, y := 0, z := 0 } { x := 0, y := 1, z := 0 } { x := 0, y := 0, z := 1 }
          YZ_BODY 30 20 10 =
        specSliceSurf M plane_yz { x := 2, y := 0, z := 1 }
          { x := 1, y := 0, z := 0 } { x := 0, y := 1, z := 0 } { x := 0, y := 0, z := 1 }
          30 20 10 (if RefFrameIsBody YZ_BODY then some translation_x else none) := by
  obtain ⟨M, hM, -⟩ := exists_real_mathlib
  exact ⟨M, hM, translation_x_isRigid, by simp [RefFrameIsBody],
    ComputeSliceSurf_transform_order M translation_x plane_yz _ _ _ _ YZ_BODY 30 20 10
      translation_x_isRigid⟩

/-! ## Adding a fix point to a structure without skin -/

/-- C28: on the structure that the constructor leaves (no part, hence no skin),
`AddFeaPart( FEA_FIX_POINT )` appends an object of the base class `FeaPart` (class number
0) tagged `FEA_FIX_POINT`, and the next `UpdateFeaParts` fails on the `assert` of the
fix-point cast, with or without a parent shape. -/
theorem AddFeaPart_fix_point_without_skin :
    ((FeaStructure.new 0 : FeaStructure Nat).AddFeaPart_type FEA_FIX_POINT).m_FeaPartVec.map
        (fun p => (p.m_FeaPartType, p.cls.kind)) = [(FEA_FIX_POINT, 0)] ∧
    ((FeaStructure.new 0 : FeaStructure Nat).AddFeaPart_type FEA_FIX_POINT).UpdateFeaParts
        (some geom_two_main) = none ∧
    ((FeaStructure.new 0 : FeaStructure Nat).AddFeaPart_type FEA_FIX_POINT).UpdateFeaParts
        (none : Option (Geom Nat Nat)) = none := by
  refine ⟨rfl, rfl, rfl⟩

/-! ## Reordering with an unknown action code -/

/-- C27: with an action code that is none of the four `REORDER_MOVE_*` codes (here 4) and
a valid index, `ReorderFeaPart` leaves the empty part list in place of the three parts and
`ReorderFeaSubSurf` leaves the empty sub-surface list in place of the two sub-surfaces. -/
theorem Reorder_unknown_action_empties_list :
    structure_with_subsurfs.m_FeaPartVec.length = 3 ∧
    (structure_with_subsurfs.ReorderFeaPart 1 4).m_FeaPartVec = [] ∧
    structure_with_subsurfs.m_FeaSubSurfVec.length = 2 ∧
    (structure_with_subsurfs.ReorderFeaSubSurf 1 4).m_FeaSubSurfVec = [] := by
  refine ⟨rfl, rfl, rfl, rfl⟩

/-! ## The section search outside the spans -/

/-- C29: on a wing of one section of span 0.25 and the relative location 0.5 the section
search of `GetRibPerU` selects no section (`curr_sec_ind` keeps -1), so the look-up
`wing_sec_span_vec[curr_sec_ind - 1]` is outside the vector; on a wing whose last section
has span 0 and the relative location 1 it selects section 2, whose entry of
`wing_sec_span_vec`, the divisor, is 0. -/
theorem GetRibPerU_search_out_of_bounds :
    ((GetRibPerU_search (1 / 2) wing_quarter_span.sects 1
        { span_0 := 0, span_f := 0, wing_sec_span_vec := [0], curr_sec_ind := -1 }).curr_sec_ind
        = -1 ∧
      GetRibPerU (some wing_quarter_span) (1 / 2) = none) ∧
    ((GetRibPerU_search 1 wing_zero_tip.sects 1
        { span_0 := 0, span_f := 0, wing_sec_span_vec := [0], curr_sec_ind := -1 }).curr_sec_ind
        = 2 ∧
      vecAt (GetRibPerU_search 1 wing_zero_tip.sects 1
        { span_0 := 0, span_f := 0, wing_sec_span_vec := [0],
          curr_sec_ind := -1 }).wing_sec_span_vec 2 = some 0 ∧
      GetRibPerU (some wing_zero_tip) 1 = none) := by
  have h1 : GetRibPerU_search (1 / 2) wing_quarter_span.sects 1
      { span_0 := 0, span_f := 0, wing_sec_span_vec := [0], curr_sec_ind := -1 } =
      { span_0 := 1 / 4, span_f := 1 / 4, wing_sec_span_vec := [0, 1 / 4],
        curr_sec_ind := -1 } := by
    norm_num [GetRibPerU_search, wing_quarter_span]
  have h2 : GetRibPerU_search 1 wing_zero_tip.sects 1
      { span_0 := 0, span_f := 0, wing_sec_span_vec := [0], curr_sec_ind := -1 } =
      { span_0 := 1, span_f := 1, wing_sec_span_vec := [0, 1, 0], curr_sec_ind := 2 } := by
    norm_num [GetRibPerU_search, wing_zero_tip]
  refine ⟨⟨?_, ?_⟩, ?_, ?_, ?_⟩
  · rw [h1]
  · simp only [GetRibPerU, h1]
    rfl
  · rw [h2]
  · rw [h2]
    rfl
  · have e : Int.toNat 2 = 2 := rfl
    simp only [GetRibPerU, h2]
    norm_num [vecAt, e]

/-! ## A fix point on the periodic seam -/

/-- C25: on a surface closed in U with the range `[0, 2]`, split at `u = 1`, the fix point
`( 0, 1/2 )` on the seam at the minimum U is recorded for both sub-patches with the border
flag set, while the fix point `( 2, 1/2 )` on the seam at the maximum U is recorded for the
sub-patch `[1, 2]` only: the sub-patch `[0, 1]`, whose minimum u is the minimum U of the
parent, is not recorded. -/
theorem IdentifySplitSurfIndex_seam_one_sided :
    (fixPoint_seam_min.IdentifySplitSurfIndex (1 / 250) (some [surf_closed_u])).m_SplitSurfIndex
        = [[0, 1]] ∧
    (fixPoint_seam_min.IdentifySplitSurfIndex (1 / 250) (some [surf_closed_u])).m_BorderFlag
        = true ∧
    (fixPoint_seam_max.IdentifySplitSurfIndex (1 / 250) (some [surf_closed_u])).m_SplitSurfIndex
        = [[1]] ∧
    IdentifySplitSurfIndex_patch (1 / 250) fixPoint_seam_max surf_closed_u true patch_seam_low
        = none := by
  refine ⟨?_, ?_, ?_, ?_⟩ <;>
    norm_num [FeaFixPoint.IdentifySplitSurfIndex, IdentifySplitSurfIndex_surfaces,
      IdentifySplitSurfIndex_patches, IdentifySplitSurfIndex_patch,
      IdentifySplitSurfIndex_classify, IdentifySplitSurfIndex_on_valid_patch,
      fixPoint_seam_min, fixPoint_seam_max, surf_closed_u, patch_seam_low, patch_seam_high]

/-! ## The classifier and the prior value of the border flag -/

theorem IdentifySplitSurfIndex_patches_prior (TMAGIC : ℚ) (fp : FeaFixPoint) (b1 b2 : Bool)
    (parent : ParentSurf) (on_valid_patch : Bool) (i num : Nat) :
    ∀ (xs : List XferSurf) (j : Nat) (l : List Nat),
      (IdentifySplitSurfIndex_patches TMAGIC { fp with m_BorderFlag := b1 } parent
          on_valid_patch i num j xs (l, b1)).1 =
        (IdentifySplitSurfIndex_patches TMAGIC { fp with m_BorderFlag := b2 } parent
          on_valid_patch i num j xs (l, b2)).1 ∧
      ((IdentifySplitSurfIndex_patches TMAGIC { fp with m_BorderFlag := b1 } parent
          on_valid_patch i num j xs (l, b1)).2 =
        (IdentifySplitSurfIndex_patches TMAGIC { fp with m_BorderFlag := b2 } parent
          on_valid_patch i num j xs (l, b2)).2 ∨
       (IdentifySplitSurfIndex_patches TMAGIC { fp with m_BorderFlag := b1 } parent
          on_valid_patch i num j xs (l, b1) = (l, b1) ∧
        IdentifySplitSurfIndex_patches TMAGIC { fp with m_BorderFlag := b2 } parent
          on_valid_patch i num j xs (l, b2) = (l, b2))) := by
  intro xs
  induction xs with
  | nil =>
    intro j l
    exact ⟨rfl, Or.inr ⟨rfl, rfl⟩⟩
  | cons x rest ih =>
    intro j l
    have hp : IdentifySplitSurfIndex_patch TMAGIC { fp with m_BorderFlag := b1 } parent
        on_valid_patch x =
        IdentifySplitSurfIndex_patch TMAGIC { fp with m_BorderFlag := b2 } parent
          on_valid_patch x := rfl
    have hsame : ∀ (ys : List XferSurf) (k : Nat) (s : List Nat × Bool),
        IdentifySplitSurfIndex_patches TMAGIC { fp with m_BorderFlag := b1 } parent
          on_valid_patch i num k ys s =
        IdentifySplitSurfIndex_patches TMAGIC { fp with m_BorderFlag := b2 } parent
          on_valid_patch i num k ys s := by
      intro ys
      induction ys with
      | nil => intro k s; rfl
      | cons y ys ihy =>
        intro k s
        simp only [IdentifySplitSurfIndex_patches]
        have hy : IdentifySplitSurfIndex_patch TMAGIC { fp with m_BorderFlag := b1 } parent
            on_valid_patch y =
            IdentifySplitSurfIndex_patch TMAGIC { fp with m_BorderFlag := b2 } parent
              on_valid_patch y := rfl
        rw [hy, ihy]
    simp only [IdentifySplitSurfIndex_patches]
    rw [← hp]
    cases hx : IdentifySplitSurfIndex_patch TMAGIC { fp with m_BorderFlag := b1 } parent
        on_valid_patch x with
    | none => exact ih (j + 1) l
    | some border =>
      simp only
      rw [hsame]
      exact ⟨rfl, Or.inl rfl⟩

theorem IdentifySplitSurfIndex_surfaces_prior (TMAGIC : ℚ) (fp : FeaFixPoint) (b1 b2 : Bool) :
    ∀ (surfs : List ParentSurf) (i : Nat) (L : List (List Nat)),
      (IdentifySplitSurfIndex_surfaces TMAGIC { fp with m_BorderFlag := b1 } i surfs (L, b1)).1 =
        (IdentifySplitSurfIndex_surfaces TMAGIC { fp with m_BorderFlag := b2 } i surfs
          (L, b2)).1 ∧
      ((IdentifySplitSurfIndex_surfaces TMAGIC { fp with m_BorderFlag := b1 } i surfs (L, b1)).2 =
        (IdentifySplitSurfIndex_surfaces TMAGIC { fp with m_BorderFlag := b2 } i surfs
          (L, b2)).2 ∨
       (IdentifySplitSurfIndex_surfaces TMAGIC { fp with m_BorderFlag := b1 } i surfs (L, b1)).1 =
          L ++ List.replicate surfs.length []) := by
  have hsame : ∀ (surfs : List ParentSurf) (i : Nat) (s : List (List Nat) × Bool),
      IdentifySplitSurfIndex_surfaces TMAGIC { fp with m_BorderFlag := b1 } i surfs s =
        IdentifySplitSurfIndex_surfaces TMAGIC { fp with m_BorderFlag := b2 } i surfs s := by
    intro surfs
    induction surfs with
    | nil => intro i s; rfl
    | cons p rest ih =>
      intro i s
      simp only [IdentifySplitSurfIndex_surfaces]
      have h0 := IdentifySplitSurfIndex_patches_prior TMAGIC fp b1 b2 p
        (IdentifySplitSurfIndex_on_valid_patch fp.uw p.FetchXFerSurf) i p.FetchXFerSurf.length
      have hp : ∀ (ys : List XferSurf) (k : Nat) (t : List Nat × Bool),
          IdentifySplitSurfIndex_patches TMAGIC { fp with m_BorderFlag := b1 } p
            (IdentifySplitSurfIndex_on_valid_patch fp.uw p.FetchXFerSurf) i
            p.FetchXFerSurf.length k ys t =
          IdentifySplitSurfIndex_patches TMAGIC { fp with m_BorderFlag := b2 } p
            (IdentifySplitSurfIndex_on_valid_patch fp.uw p.FetchXFerSurf) i
            p.FetchXFerSurf.length k ys t := by
        intro ys
        induction ys with
        | nil => intro k t; rfl
        | cons y ys ihy =>
          intro k t
          simp only [IdentifySplitSurfIndex_patches]
          have hy : IdentifySplitSurfIndex_patch TMAGIC { fp with m_BorderFlag := b1 } p
              (IdentifySplitSurfIndex_on_valid_patch fp.uw p.FetchXFerSurf) y =
              IdentifySplitSurfIndex_patch TMAGIC { fp with m_BorderFlag := b2 } p
                (IdentifySplitSurfIndex_on_valid_patch fp.uw p.FetchXFerSurf) y := rfl
          rw [hy, ihy]
      rw [hp, ih]
  intro surfs
  induction surfs with
  | nil =>
    intro i L
    exact ⟨rfl, Or.inr (by simp [IdentifySplitSurfIndex_surfaces])⟩
  | cons p rest ih =>
    intro i L
    simp only [IdentifySplitSurfIndex_surfaces]
    obtain ⟨h1, h2⟩ := IdentifySplitSurfIndex_patches_prior TMAGIC fp b1 b2 p
      (IdentifySplitSurfIndex_on_valid_patch fp.uw p.FetchXFerSurf) i p.FetchXFerSurf.length
      p.FetchXFerSurf 0 []
    rcases h2 with h2 | ⟨h2, h3⟩
    · rw [← h1, ← h2, hsame]
      exact ⟨rfl, Or.inl rfl⟩
    · rw [h2, h3]
      obtain ⟨h4, h5⟩ := ih (i + 1) (L ++ [[]])
      refine ⟨h4, ?_⟩
      rcases h5 with h5 | h5
      · exact Or.inl h5
      · right
        rw [h5, List.length_cons, List.replicate_succ, List.append_assoc,
          List.singleton_append]

theorem IdentifySplitSurfIndex_patches_nothing (TMAGIC : ℚ) (fp : FeaFixPoint)
    (parent : ParentSurf) (on_valid_patch : Bool) (i num : Nat) :
    ∀ (xs : List XferSurf) (j : Nat) (l : List Nat) (b : Bool),
      ∃ extra, (IdentifySplitSurfIndex_patches TMAGIC fp parent on_valid_patch i num j xs
          (l, b)).1 = l ++ extra ∧
        (extra = [] → (IdentifySplitSurfIndex_patches TMAGIC fp parent on_valid_patch i num j xs
          (l, b)).2 = b) := by
  intro xs
  induction xs with
  | nil =>
    intro j l b
    exact ⟨[], by simp [IdentifySplitSurfIndex_patches], fun _ => rfl⟩
  | cons x rest ih =>
    intro j l b
    simp only [IdentifySplitSurfIndex_patches]
    cases hx : IdentifySplitSurfIndex_patch TMAGIC fp parent on_valid_patch x with
    | none => exact ih (j + 1) l b
    | some border =>
      obtain ⟨extra, h1, -⟩ := ih (j + 1) (l ++ [j + i * num]) border
      refine ⟨[j + i * num] ++ extra, ?_, fun h => by simp at h⟩
      simp only
      rw [h1, List.append_assoc]

theorem IdentifySplitSurfIndex_surfaces_nothing (TMAGIC : ℚ) (fp : FeaFixPoint) :
    ∀ (surfs : List ParentSurf) (i : Nat) (L : List (List Nat)) (b : Bool),
      ∃ entries, (IdentifySplitSurfIndex_surfaces TMAGIC fp i surfs (L, b)).1 = L ++ entries ∧
        ((∀ entry ∈ entries, entry = []) →
          (IdentifySplitSurfIndex_surfaces TMAGIC fp i surfs (L, b)).2 = b) := by
  intro surfs
  induction surfs with
  | nil =>
    intro i L b
    exact ⟨[], by simp [IdentifySplitSurfIndex_surfaces], fun _ => rfl⟩
  | cons p rest ih =>
    intro i L b
    simp only [IdentifySplitSurfIndex_surfaces]
    obtain ⟨extra, h1, h2⟩ := IdentifySplitSurfIndex_patches_nothing TMAGIC fp p
      (IdentifySplitSurfIndex_on_valid_patch fp.uw p.FetchXFerSurf) i p.FetchXFerSurf.length
      p.FetchXFerSurf 0 [] b
    rw [List.nil_append] at h1
    obtain ⟨entries, h3, h4⟩ := ih (i + 1) (L ++ [extra])
      (IdentifySplitSurfIndex_patches TMAGIC fp p
        (IdentifySplitSurfIndex_on_valid_patch fp.uw p.FetchXFerSurf) i
        p.FetchXFerSurf.length 0 p.FetchXFerSurf ([], b)).2
    rw [h1]
    refine ⟨[extra] ++ entries, ?_, ?_⟩
    · rw [h3, List.append_assoc]
    · intro hall
      rw [h4 (fun e he => hall e (List.mem_append_right _ he))]
      exact h2 (hall extra (by simp))

/-- C26, counterexample: the fix point `( 3, 3 )` lies in no sub-patch of the two surfaces;
the run that starts with the border flag true ends with it true, the run that starts with
it false ends with it false. Both end with the index lists `[[], []]`. -/
theorem IdentifySplitSurfIndex_keeps_prior_border_flag :
    ((fixPoint_outside true).IdentifySplitSurfIndex (1 / 250)
        (some skin_two_copies)).m_BorderFlag = true ∧
    ((fixPoint_outside false).IdentifySplitSurfIndex (1 / 250)
        (some skin_two_copies)).m_BorderFlag = false ∧
    ((fixPoint_outside true).IdentifySplitSurfIndex (1 / 250)
        (some skin_two_copies)).m_SplitSurfIndex = [[], []] ∧
    ((fixPoint_outside false).IdentifySplitSurfIndex (1 / 250)
        (some skin_two_copies)).m_SplitSurfIndex = [[], []] := by
  refine ⟨?_, ?_, ?_, ?_⟩ <;>
    norm_num [FeaFixPoint.IdentifySplitSurfIndex, IdentifySplitSurfIndex_surfaces,
      IdentifySplitSurfIndex_patches, IdentifySplitSurfIndex_patch,
      IdentifySplitSurfIndex_classify, IdentifySplitSurfIndex_on_valid_patch,
      fixPoint_outside, skin_two_copies, skin_copy_up, skin_copy_down, patch_left_up,
      patch_right_up, patch_left_down, patch_right_down]

/-- C26, amended: two runs of `IdentifySplitSurfIndex` on the same inputs (the surfaces of
the parent part and their split sub-patches, the fix point's `( u, w )`, the half-mesh
flag) that start from different prior values of the border flag end with the same
split-surface index lists, and with the same border flag whenever the index of at least
one sub-patch is recorded; when the point falls in no sub-patch the border flag keeps its
prior value. -/
theorem IdentifySplitSurfIndex_independent_of_prior_flag (TMAGIC : ℚ)
    (surfs : List ParentSurf) (fp : FeaFixPoint) (b1 b2 : Bool) :
    (FeaFixPoint.IdentifySplitSurfIndex TMAGIC (some surfs)
        { fp with m_BorderFlag := b1 }).m_SplitSurfIndex =
      (FeaFixPoint.IdentifySplitSurfIndex TMAGIC (some surfs)
        { fp with m_BorderFlag := b2 }).m_SplitSurfIndex ∧
    ((∃ entry ∈ (FeaFixPoint.IdentifySplitSurfIndex TMAGIC (some surfs)
        { fp with m_BorderFlag := b1 }).m_SplitSurfIndex, entry ≠ []) →
      (FeaFixPoint.IdentifySplitSurfIndex TMAGIC (some surfs)
          { fp with m_BorderFlag := b1 }).m_BorderFlag =
        (FeaFixPoint.IdentifySplitSurfIndex TMAGIC (some surfs)
          { fp with m_BorderFlag := b2 }).m_BorderFlag) ∧
    ((∀ entry ∈ (FeaFixPoint.IdentifySplitSurfIndex TMAGIC (some surfs)
        { fp with m_BorderFlag := b1 }).m_SplitSurfIndex, entry = []) →
      (FeaFixPoint.IdentifySplitSurfIndex TMAGIC (some surfs)
          { fp with m_BorderFlag := b1 }).m_BorderFlag = b1) := by
  obtain ⟨h1, h2⟩ := IdentifySplitSurfIndex_surfaces_prior TMAGIC fp b1 b2 surfs 0 []
  refine ⟨h1, ?_, ?_⟩
  · rintro ⟨entry, hentry, hne⟩
    rcases h2 with h2 | h2
    · exact h2
    · exfalso
      have hentry2 : entry ∈ (IdentifySplitSurfIndex_surfaces TMAGIC
          { fp with m_BorderFlag := b1 } 0 surfs ([], b1)).1 := hentry
      rw [h2] at hentry2
      simp only [List.nil_append, List.mem_replicate] at hentry2
      exact hne hentry2.2
  · intro hall
    obtain ⟨entries, h3, h4⟩ := IdentifySplitSurfIndex_surfaces_nothing TMAGIC
      { fp with m_BorderFlag := b1 } surfs 0 [] b1
    have hall2 : ∀ entry ∈ (IdentifySplitSurfIndex_surfaces TMAGIC
        { fp with m_BorderFlag := b1 } 0 surfs ([], b1)).1, entry = [] := hall
    rw [h3, List.nil_append] at hall2
    exact h4 hall2

/-- C26, witness: the fix point on the corner `( 1/2, 0 )` of a sub-patch of the skin with
two copies, started once with the border flag true and once with it false. -/
theorem IdentifySplitSurfIndex_independent_of_prior_flag_witness :
    (FeaFixPoint.IdentifySplitSurfIndex (1 / 250) (some skin_two_copies)
        { fixPoint_full_mesh with m_BorderFlag := true }).m_SplitSurfIndex =
      (FeaFixPoint.IdentifySplitSurfIndex (1 / 250) (some skin_two_copies)
        { fixPoint_full_mesh with m_BorderFlag := false }).m_SplitSurfIndex ∧
    (FeaFixPoint.IdentifySplitSurfIndex (1 / 250) (some skin_two_copies)
        { fixPoint_full_mesh with m_BorderFlag := true }).m_BorderFlag =
      (FeaFixPoint.IdentifySplitSurfIndex (1 / 250) (some skin_two_copies)
        { fixPoint_full_mesh with m_BorderFlag := false }).m_BorderFlag :=
  ⟨(IdentifySplitSurfIndex_independent_of_prior_flag (1 / 250) skin_two_copies
      fixPoint_full_mesh true false).1,
   (IdentifySplitSurfIndex_independent_of_prior_flag (1 / 250) skin_two_copies
      fixPoint_full_mesh true false).2.1 (by
        refine ⟨[0, 1], ?_, by decide⟩
        norm_num [FeaFixPoint.IdentifySplitSurfIndex, IdentifySplitSurfIndex_surfaces,
          IdentifySplitSurfIndex_patches, IdentifySplitSurfIndex_patch,
          IdentifySplitSurfIndex_classify, IdentifySplitSurfIndex_on_valid_patch,
          fixPoint_full_mesh, fixPoint_on_corner, skin_two_copies, skin_copy_up,
          skin_copy_down, patch_left_up, patch_right_up, patch_left_down,
          patch_right_down])⟩

/-! ## The spin of a cross-section -/

/-- C22: two cross-sections that agree on the base curve (the `XSecCurve` with its width),
the rotation matrix, the centre flag, the three rotation angles, the three location
percentages and the reference length produce the same transformed curve in `XSec::Update`,
whatever their values of `m_Spin` (and of the members that `Update` overwrites). -/
theorem XSec_Update_ignores_spin {K : Type} [LinearOrderedField K] (M : MathLib K)
    (x1 x2 : XSec K) (hcurve : x1.m_XSCurve = x2.m_XSCurve)
    (hrot : x1.m_rotation = x2.m_rotation) (hcenter : x1.m_center = x2.m_center)
    (hxr : x1.m_XRotate = x2.m_XRotate) (hyr : x1.m_YRotate = x2.m_YRotate)
    (hzr : x1.m_ZRotate = x2.m_ZRotate) (hxl : x1.m_XLocPercent = x2.m_XLocPercent)
    (hyl : x1.m_YLocPercent = x2.m_YLocPercent) (hzl : x1.m_ZLocPercent = x2.m_ZLocPercent)
    (hlen : x1.m_RefLength = x2.m_RefLength) :
    (x1.Update M).1.m_TransformedCurve = (x2.Update M).1.m_TransformedCurve := by
  simp only [XSec.Update, XSec.GetUntransformedCurve, hcurve, hrot, hcenter, hxr, hyr, hzr, hxl,
    hyl, hzl, hlen]

/-- C22, witness: the sample cross-section with spin 0 and with spin 45 degrees; only the
second run writes the notice. -/
theorem XSec_Update_ignores_spin_witness :
    ((xsec_with_spin 0 : XSec ℚ).m_Spin ≠ (xsec_with_spin 45 : XSec ℚ).m_Spin) ∧
    (∀ M : MathLib ℚ,
      ((xsec_with_spin 0).Update M).1.m_TransformedCurve =
        ((xsec_with_spin 45).Update M).1.m_TransformedCurve ∧
      ((xsec_with_spin 0).Update M).2 = [] ∧
      ((xsec_with_spin 45).Update M).2 = ["XSec spin not implemented."]) := by
  refine ⟨by norm_num [xsec_with_spin], fun M => ⟨?_, ?_, ?_⟩⟩
  · exact XSec_Update_ignores_spin M (xsec_with_spin 0) (xsec_with_spin 45) rfl rfl rfl rfl rfl
      rfl rfl rfl rfl rfl
  · norm_num [XSec.Update, xsec_with_spin, DBL_EPSILON]
  · norm_num [XSec.Update, xsec_with_spin, DBL_EPSILON]

/-! ## Divisions of the half-length computations -/

theorem ComputeRibSurf_edge_length_traced_guarded {K : Type} [LinearOrderedField K]
    (M : MathLib K) (rotation length_rib_0 : K) (center edge_trail edge_lead : vec3d K) :
    (∀ d ∈ (ComputeRibSurf_edge_length_traced M rotation length_rib_0 center edge_trail
        edge_lead).2, M.FLT_EPSILON < |d|) ∧
    ((ComputeRibSurf_edge_length_traced M rotation length_rib_0 center edge_trail
        edge_lead).2 = [] →
      (ComputeRibSurf_edge_length_traced M rotation length_rib_0 center edge_trail
        edge_lead).1 = length_rib_0) := by
  unfold ComputeRibSurf_edge_length_traced
  split_ifs with h
  · exact ⟨fun d hd => absurd hd (List.not_mem_nil d), fun _ => rfl⟩
  · rw [not_or, not_le, not_le] at h
    refine ⟨?_, fun hnil => by simp at hnil⟩
    intro d hd
    simp only [List.mem_cons, List.mem_singleton, List.not_mem_nil, or_false] at hd
    rcases hd with hd | hd
    · rw [hd]; exact lt_of_lt_of_le h.2 (le_abs_self _)
    · rw [hd]; exact h.1

theorem ComputeRibSurf_sine_length_traced_guarded {K : Type} [LinearOrderedField K]
    (M : MathLib K) (length_rib_0 sweep phi : K) :
    (∀ d ∈ (ComputeRibSurf_sine_length_traced M length_rib_0 sweep phi).2,
      M.FLT_EPSILON < |d|) ∧
    ((ComputeRibSurf_sine_length_traced M length_rib_0 sweep phi).2 = [] →
      (ComputeRibSurf_sine_length_traced M length_rib_0 sweep phi).1 = length_rib_0) := by
  unfold ComputeRibSurf_sine_length_traced
  split_ifs with h
  · exact ⟨fun d hd => absurd hd (List.not_mem_nil d), fun _ => rfl⟩
  · rw [not_le] at h
    refine ⟨?_, fun hnil => by simp at hnil⟩
    intro d hd
    simp only [List.mem_singleton] at hd
    rw [hd]; exact h

theorem ComputePlanarSurf_block_traced_guarded {K : Type} [LinearOrderedField K]
    (M : MathLib K) (trig length_spar_0 : K) (center a b edge : vec3d K) :
    (∀ d ∈ (ComputePlanarSurf_block_traced M trig length_spar_0 center a b edge).2,
      M.FLT_EPSILON < |d|) ∧
    ((ComputePlanarSurf_block_traced M trig length_spar_0 center a b edge).2 = [] →
      (ComputePlanarSurf_block_traced M trig length_spar_0 center a b edge).1 =
        length_spar_0) := by
  unfold ComputePlanarSurf_block_traced
  split_ifs with h
  · exact ⟨fun d hd => absurd hd (List.not_mem_nil d), fun _ => rfl⟩
  · rw [not_or, not_le, not_le] at h
    refine ⟨?_, fun hnil => by simp at hnil⟩
    intro d hd
    simp only [List.mem_cons, List.mem_singleton, List.not_mem_nil, or_false] at hd
    rcases hd with hd | hd
    · rw [hd]; exact lt_of_lt_of_le h.2 (le_abs_self _)
    · rw [hd]; exact h.1

theorem ComputeRibSurf_half_lengths_traced_guarded {K : Type} [LinearOrderedField K]
    (M : MathLib K) (r : RibRegion K) (rotation : K) :
    ((∀ d ∈ (ComputeRibSurf_half_lengths_traced M r rotation).1.2, M.FLT_EPSILON < |d|) ∧
      ((ComputeRibSurf_half_lengths_traced M r rotation).1.2 = [] →
        (ComputeRibSurf_half_lengths_traced M r rotation).1.1 =
          ComputeRibSurf_length_rib_0 M r)) ∧
    ((∀ d ∈ (ComputeRibSurf_half_lengths_traced M r rotation).2.2, M.FLT_EPSILON < |d|) ∧
      ((ComputeRibSurf_half_lengths_traced M r rotation).2.2 = [] →
        (ComputeRibSurf_half_lengths_traced M r rotation).2.1 =
          ComputeRibSurf_length_rib_0 M r)) := by
  unfold ComputeRibSurf_half_lengths_traced
  simp only
  constructor
  · split_ifs <;>
      first
      | exact ComputeRibSurf_edge_length_traced_guarded M _ _ _ _ _
      | exact ComputeRibSurf_sine_length_traced_guarded M _ _ _
  · split_ifs <;>
      first
      | exact ComputeRibSurf_edge_length_traced_guarded M _ _ _ _ _
      | exact ComputeRibSurf_sine_length_traced_guarded M _ _ _

theorem ComputePlanarSurf_half_lengths_traced_guarded {K : Type} [LinearOrderedField K]
    (M : MathLib K) (s : SparRegion K) :
    ((∀ d ∈ (ComputePlanarSurf_half_lengths_traced M s).1.2, M.FLT_EPSILON < |d|) ∧
      ((ComputePlanarSurf_half_lengths_traced M s).1.2 = [] →
        (ComputePlanarSurf_half_lengths_traced M s).1.1 = s.expan + s.length_spar_0)) ∧
    ((∀ d ∈ (ComputePlanarSurf_half_lengths_traced M s).2.2, M.FLT_EPSILON < |d|) ∧
      ((ComputePlanarSurf_half_lengths_traced M s).2.2 = [] →
        (ComputePlanarSurf_half_lengths_traced M s).2.1 = s.expan + s.length_spar_0)) := by
  have key : ∀ (trig : K) (a b edge : vec3d K),
      (∀ d ∈ (s.expan + (ComputePlanarSurf_block_traced M trig s.length_spar_0 s.center a b
          edge).1, (ComputePlanarSurf_block_traced M trig s.length_spar_0 s.center a b
          edge).2).2, M.FLT_EPSILON < |d|) ∧
      ((s.expan + (ComputePlanarSurf_block_traced M trig s.length_spar_0 s.center a b edge).1,
          (ComputePlanarSurf_block_traced M trig s.length_spar_0 s.center a b edge).2).2 = [] →
        (s.expan + (ComputePlanarSurf_block_traced M trig s.length_spar_0 s.center a b
          edge).1, (ComputePlanarSurf_block_traced M trig s.length_spar_0 s.center a b
          edge).2).1 = s.expan + s.length_spar_0) := by
    intro trig a b edge
    obtain ⟨h1, h2⟩ := ComputePlanarSurf_block_traced_guarded M trig s.length_spar_0 s.center
      a b edge
    exact ⟨h1, fun h => by rw [h2 h]⟩
  unfold ComputePlanarSurf_half_lengths_traced
  simp only
  constructor <;> split_ifs <;> exact key _ _ _ _

/-- C23: in the half-length computation of `FeaPart::ComputeRibSurf` and in that of
`FeaSpar::ComputePlanarSurf` every divisor of an executed division (the sine or cosine of
the angle, the length of the edge) has an absolute value greater than `FLT_EPSILON`, hence
is not zero, and a half length for which no division is executed is the reference half
length: `length_rib_0` for a rib, `expan + length_spar_0` for a spar. -/
theorem half_length_divisions_are_guarded {K : Type} [LinearOrderedField K] (M : MathLib K)
    (heps : 0 ≤ M.FLT_EPSILON) (r : RibRegion K) (rotation : K) (s : SparRegion K) :
    (∀ d ∈ (ComputeRibSurf_half_lengths_traced M r rotation).1.2 ++
        (ComputeRibSurf_half_lengths_traced M r rotation).2.2 ++
        (ComputePlanarSurf_half_lengths_traced M s).1.2 ++
        (ComputePlanarSurf_half_lengths_traced M s).2.2, M.FLT_EPSILON < |d| ∧ d ≠ 0) ∧
    ((ComputeRibSurf_half_lengths_traced M r rotation).1.2 = [] →
      (ComputeRibSurf_half_lengths_traced M r rotation).1.1 = ComputeRibSurf_length_rib_0 M r) ∧
    ((ComputeRibSurf_half_lengths_traced M r rotation).2.2 = [] →
      (ComputeRibSurf_half_lengths_traced M r rotation).2.1 = ComputeRibSurf_length_rib_0 M r) ∧
    ((ComputePlanarSurf_half_lengths_traced M s).1.2 = [] →
      (ComputePlanarSurf_half_lengths_traced M s).1.1 = s.expan + s.length_spar_0) ∧
    ((ComputePlanarSurf_half_lengths_traced M s).2.2 = [] →
      (ComputePlanarSurf_half_lengths_traced M s).2.1 = s.expan + s.length_spar_0) := by
  obtain ⟨⟨r1, r2⟩, ⟨r3, r4⟩⟩ := ComputeRibSurf_half_lengths_traced_guarded M r rotation
  obtain ⟨⟨s1, s2⟩, ⟨s3, s4⟩⟩ := ComputePlanarSurf_half_lengths_traced_guarded M s
  refine ⟨?_, r2, r4, s2, s4⟩
  intro d hd
  have hlt : M.FLT_EPSILON < |d| := by
    simp only [List.mem_append] at hd
    rcases hd with ((hd | hd) | hd) | hd
    · exact r1 d hd
    · exact r3 d hd
    · exact s1 d hd
    · exact s3 d hd
  refine ⟨hlt, ?_⟩
  intro h0
  rw [h0, abs_zero] at hlt
  exact absurd hlt (not_lt.mpr heps)

/-- C23, witness: the exact real maths library, a rib rotated by 0.5 rad at span position 3
of the rectangular wing of chord 2 and span 10, and a spar along its mid-chord line rotated
by 0.5 rad. -/
theorem half_length_divisions_are_guarded_witness :
    ∃ M : MathLib ℝ, M.IsReal ∧ 0 ≤ M.FLT_EPSILON ∧
      ((∀ d ∈ (ComputeRibSurf_half_lengths_traced M (rectRegion 2 10 3 10) (1 / 2)).1.2 ++
          (ComputeRibSurf_half_lengths_traced M (rectRegion 2 10 3 10) (1 / 2)).2.2 ++
          (ComputePlanarSurf_half_lengths_traced M (spar_mid_chord (1 / 2))).1.2 ++
          (ComputePlanarSurf_half_lengths_traced M (spar_mid_chord (1 / 2))).2.2,
          M.FLT_EPSILON < |d| ∧ d ≠ 0) ∧
      ((ComputeRibSurf_half_lengths_traced M (rectRegion 2 10 3 10) (1 / 2)).1.2 = [] →
        (ComputeRibSurf_half_lengths_traced M (rectRegion 2 10 3 10) (1 / 2)).1.1 =
          ComputeRibSurf_length_rib_0 M (rectRegion 2 10 3 10)) ∧
      ((ComputeRibSurf_half_lengths_traced M (rectRegion 2 10 3 10) (1 / 2)).2.2 = [] →
        (ComputeRibSurf_half_lengths_traced M (rectRegion 2 10 3 10) (1 / 2)).2.1 =
          ComputeRibSurf_length_rib_0 M (rectRegion 2 10 3 10)) ∧
      ((ComputePlanarSurf_half_lengths_traced M (spar_mid_chord (1 / 2))).1.2 = [] →
        (ComputePlanarSurf_half_lengths_traced M (spar_mid_chord (1 / 2))).1.1 =
          (spar_mid_chord (1 / 2) : SparRegion ℝ).expan +
            (spar_mid_chord (1 / 2) : SparRegion ℝ).length_spar_0) ∧
      ((ComputePlanarSurf_half_lengths_traced M (spar_mid_chord (1 / 2))).2.2 = [] →
        (ComputePlanarSurf_half_lengths_traced M (spar_mid_chord (1 / 2))).2.1 =
          (spar_mid_chord (1 / 2) : SparRegion ℝ).expan +
            (spar_mid_chord (1 / 2) : SparRegion ℝ).length_spar_0)) := by
  obtain ⟨M, hM, -⟩ := exists_real_mathlib
  have heps : (0 : ℝ) ≤ M.FLT_EPSILON := by
    rw [hM.2.2.2.2]
    positivity
  exact ⟨M, hM, heps,
    half_length_divisions_are_guarded M heps (rectRegion 2 10 3 10) (1 / 2)
      (spar_mid_chord (1 / 2))⟩

/-! ## Divisions of the slice sizing -/

theorem ComputeSliceSurf_resize_traced_nonzero (M : MathLib ℝ) (hM : M.IsReal)
    (angle num den : ℝ) (hnum : 0 ≤ num) (hden : 0 < den) (hangle : |angle| ≤ Real.pi / 2) :
    ∀ e ∈ (ComputeSliceSurf_resize_traced M Real.arctan angle num den).2,
      e.divisor ≠ 0 ∧ (e.sine = true → e.angle ≠ 0 ∧ e.divisor = Real.sin e.angle) ∧
        (e.sine = false → |e.angle| < Real.pi / 2 ∧ e.divisor = Real.cos e.angle) := by
  have hsin : M.sin = Real.sin := hM.2.1
  have hcos : M.cos = Real.cos := hM.2.2.1
  have hq : 0 ≤ Real.arctan (num / den) := by
    rw [← Real.arctan_zero]
    exact Real.arctan_strictMono.monotone (div_nonneg hnum hden.le)
  obtain ⟨h1, h2⟩ := abs_le.mp hangle
  intro e he
  unfold ComputeSliceSurf_resize_traced at he
  split_ifs at he with hbr
  · simp only [List.mem_singleton] at he
    rw [he]
    have hpos : 0 < |angle| := lt_of_le_of_lt hq hbr
    have h0 : angle ≠ 0 := abs_pos.mp hpos
    refine ⟨?_, fun _ => ⟨h0, by rw [hsin]⟩, fun h => by simp at h⟩
    show M.sin angle ≠ 0
    rw [hsin]
    rcases lt_or_gt_of_ne h0 with hneg | hpos2
    · have : 0 < Real.sin (-angle) :=
        Real.sin_pos_of_pos_of_lt_pi (by linarith) (by linarith [Real.pi_pos])
      rw [Real.sin_neg] at this
      linarith
    · exact (Real.sin_pos_of_pos_of_lt_pi hpos2 (by linarith [Real.pi_pos])).ne'
  · simp only [List.mem_singleton] at he
    rw [he]
    have hlt : |angle| < Real.pi / 2 :=
      lt_of_le_of_lt (not_lt.mp hbr) (Real.arctan_lt_pi_div_two _)
    refine ⟨?_, fun h => by simp at h, fun _ => ⟨hlt, by rw [hcos]⟩⟩
    show M.cos angle ≠ 0
    rw [hcos]
    obtain ⟨h3, h4⟩ := abs_lt.mp hlt
    exact (Real.cos_pos_of_mem_Ioo ⟨h3, h4⟩).ne'

theorem slice_num_nonneg (mn mx rel : ℝ) (h : mn < mx) (h0 : 0 ≤ rel) (h1 : rel ≤ 1) :
    0 ≤ (mx - mn) + 2 * ((mn + (mx - mn) * rel) - (mn + mx) / 2) ∧
    0 ≤ (mx - mn) - 2 * ((mn + (mx - mn) * rel) - (mn + mx) / 2) := by
  have e1 : (mx - mn) + 2 * ((mn + (mx - mn) * rel) - (mn + mx) / 2) = 2 * ((mx - mn) * rel) := by
    ring
  have e2 : (mx - mn) - 2 * ((mn + (mx - mn) * rel) - (mn + mx) / 2) =
      2 * ((mx - mn) * (1 - rel)) := by
    ring
  rw [e1, e2]
  have hd : 0 ≤ mx - mn := by linarith
  exact ⟨by positivity, mul_nonneg (by norm_num) (mul_nonneg hd (by linarith))⟩

theorem slice_angle_bound (rot : ℝ) (h : |rot| ≤ 90) : |Real.pi / 180 * rot| ≤ Real.pi / 2 := by
  rw [abs_mul, abs_of_pos (by positivity : (0 : ℝ) < Real.pi / 180)]
  have := mul_le_mul_of_nonneg_left h (by positivity : (0 : ℝ) ≤ Real.pi / 180)
  linarith [Real.pi_pos]

/-- In exact real arithmetic: in the sizing of the slice plane of
`FeaPart::ComputeSliceSurf` for the planes XY, YZ and XZ (body or absolute), with
positive bounding-box extents, the relative centre
location in `[0, 1]` and the three rotation angles in `[-90, 90]` degrees, four divisions
by a sine or cosine are executed, and each has a divisor that is not zero: a division by
the sine is executed only for an angle that is not zero, a division by the cosine only for
an angle of absolute value below 90 degrees (`PI / 2`). -/
theorem ComputeSliceSurf_trig_divisors_nonzero (M : MathLib ℝ) (hM : M.IsReal)
    (geom_bbox : BndBox ℝ) (rel_center_location x_rot y_rot z_rot : ℝ) (orientation_plane : ℚ)
    (hx : geom_bbox.GetMin.x < geom_bbox.GetMax.x)
    (hy : geom_bbox.GetMin.y < geom_bbox.GetMax.y)
    (hz : geom_bbox.GetMin.z < geom_bbox.GetMax.z)
    (hrel0 : 0 ≤ rel_center_location) (hrel1 : rel_center_location ≤ 1)
    (hxr : |x_rot| ≤ 90) (hyr : |y_rot| ≤ 90) (hzr : |z_rot| ≤ 90) :
    (orientation_plane ∈ [XY_BODY, YZ_BODY, XZ_BODY, XY_ABS, YZ_ABS, XZ_ABS] →
      (ComputeSliceSurf_sizes_traced M Real.arctan geom_bbox rel_center_location
        orientation_plane x_rot y_rot z_rot).2.2.length = 4) ∧
    ∀ e ∈ (ComputeSliceSurf_sizes_traced M Real.arctan geom_bbox rel_center_location
        orientation_plane x_rot y_rot z_rot).2.2,
      e.divisor ≠ 0 ∧ (e.sine = true → e.angle ≠ 0 ∧ e.divisor = Real.sin e.angle) ∧
        (e.sine = false → |e.angle| < Real.pi / 2 ∧ e.divisor = Real.cos e.angle) := by
  have hpi : M.PI = Real.pi := hM.2.2.2.1
  have hlen : ∀ angle num den : ℝ,
      (ComputeSliceSurf_resize_traced M Real.arctan angle num den).2.length = 1 := by
    intro angle num den
    unfold ComputeSliceSurf_resize_traced
    split_ifs <;> rfl
  have hdx : 0 < geom_bbox.GetMax.x - geom_bbox.GetMin.x := by linarith
  have hdy : 0 < geom_bbox.GetMax.y - geom_bbox.GetMin.y := by linarith
  have hdz : 0 < geom_bbox.GetMax.z - geom_bbox.GetMin.z := by linarith
  have nx := slice_num_nonneg _ _ _ hx hrel0 hrel1
  have ny := slice_num_nonneg _ _ _ hy hrel0 hrel1
  have nz := slice_num_nonneg _ _ _ hz hrel0 hrel1
  have ax := slice_angle_bound x_rot hxr
  have ay := slice_angle_bound y_rot hyr
  have az := slice_angle_bound z_rot hzr
  constructor
  · intro hplane
    unfold ComputeSliceSurf_sizes_traced
    simp only [List.mem_cons, List.mem_singleton, List.not_mem_nil, or_false] at hplane
    simp only
    by_cases h1 : orientation_plane = YZ_BODY ∨ orientation_plane = YZ_ABS
    · rw [if_pos h1]
      simp only [List.length_append, hlen]
    · rw [if_neg h1]
      by_cases h2 : orientation_plane = XY_BODY ∨ orientation_plane = XY_ABS
      · rw [if_pos h2]
        simp only [List.length_append, hlen]
      · rw [if_neg h2]
        by_cases h3 : orientation_plane = XZ_BODY ∨ orientation_plane = XZ_ABS
        · rw [if_pos h3]
          simp only [List.length_append, hlen]
        · exfalso
          rcases hplane with h | h | h | h | h | h
          · exact h2 (Or.inl h)
          · exact h1 (Or.inl h)
          · exact h3 (Or.inl h)
          · exact h2 (Or.inr h)
          · exact h1 (Or.inr h)
          · exact h3 (Or.inr h)
  · intro e he
    unfold ComputeSliceSurf_sizes_traced at he
    simp only [hpi] at he
    by_cases h1 : orientation_plane = YZ_BODY ∨ orientation_plane = YZ_ABS
    · rw [if_pos h1] at he
      simp only [List.mem_append] at he
      rcases he with ((he | he) | he) | he
      · exact ComputeSliceSurf_resize_traced_nonzero M hM _ _ _ nx.1 hdz ay e he
      · exact ComputeSliceSurf_resize_traced_nonzero M hM _ _ _ nx.2 hdz ay e he
      · exact ComputeSliceSurf_resize_traced_nonzero M hM _ _ _ nx.1 hdy az e he
      · exact ComputeSliceSurf_resize_traced_nonzero M hM _ _ _ nx.2 hdy az e he
    · rw [if_neg h1] at he
      by_cases h2 : orientation_plane = XY_BODY ∨ orientation_plane = XY_ABS
      · rw [if_pos h2] at he
        simp only [List.mem_append] at he
        rcases he with ((he | he) | he) | he
        · exact ComputeSliceSurf_resize_traced_nonzero M hM _ _ _ nz.1 hdx ay e he
        · exact ComputeSliceSurf_resize_traced_nonzero M hM _ _ _ nz.2 hdx ay e he
        · exact ComputeSliceSurf_resize_traced_nonzero M hM _ _ _ nz.1 hdy ax e he
        · exact ComputeSliceSurf_resize_traced_nonzero M hM _ _ _ nz.2 hdy ax e he
      · rw [if_neg h2] at he
        by_cases h3 : orientation_plane = XZ_BODY ∨ orientation_plane = XZ_ABS
        · rw [if_pos h3] at he
          simp only [List.mem_append] at he
          rcases he with ((he | he) | he) | he
          · exact ComputeSliceSurf_resize_traced_nonzero M hM _ _ _ ny.1 hdx az e he
          · exact ComputeSliceSurf_resize_traced_nonzero M hM _ _ _ ny.2 hdx az e he
          · exact ComputeSliceSurf_resize_traced_nonzero M hM _ _ _ ny.1 hdz ax e he
          · exact ComputeSliceSurf_resize_traced_nonzero M hM _ _ _ ny.2 hdz ax e he
        · rw [if_neg h3] at he
          exact absurd he (List.not_mem_nil e)

/-- An instance in exact real arithmetic: the real maths library, the bounding box with
the corners
`( 0, -1, -1 )` and `( 4, 1, 1 )`, a slice parallel to the body YZ plane at the relative
location 0.25 with the rotations 0, 30 and -90 degrees. -/
theorem ComputeSliceSurf_trig_divisors_nonzero_witness :
    ∃ M : MathLib ℝ, M.IsReal ∧
      (ComputeSliceSurf_sizes_traced M Real.arctan bbox_4_2_2 (1 / 4) YZ_BODY 0 30 (-90)).2.2.length
        = 4 ∧
      ∀ e ∈ (ComputeSliceSurf_sizes_traced M Real.arctan bbox_4_2_2 (1 / 4) YZ_BODY 0 30
          (-90)).2.2,
        e.divisor ≠ 0 ∧ (e.sine = true → e.angle ≠ 0 ∧ e.divisor = Real.sin e.angle) ∧
          (e.sine = false → |e.angle| < Real.pi / 2 ∧ e.divisor = Real.cos e.angle) := by
  obtain ⟨M, hM, -⟩ := exists_real_mathlib
  have h := ComputeSliceSurf_trig_divisors_nonzero M hM bbox_4_2_2 (1 / 4) 0 30 (-90) YZ_BODY
    (by norm_num [bbox_4_2_2]) (by norm_num [bbox_4_2_2]) (by norm_num [bbox_4_2_2])
    (by norm_num) (by norm_num) (by norm_num) (by norm_num [abs_of_pos])
    (by norm_num [abs_of_neg])
  exact ⟨M, hM, h.1 (by simp), h.2⟩

/-! ## The sizing of a slice plane in binary64 -/

theorem Binary64_mul_zero (x : Binary64) : x.mul (Binary64.ofInt 0) = { m := 0, e := 0 } := by
  have h0 : Binary64.ofInt 0 = { m := 0, e := 0 } := rfl
  rw [h0]
  simp [Binary64.mul, Binary64.roundNearestEven]

theorem Binary64_lt_zero (x : Binary64) (h : x.m < 0) :
    x.lt { m := 0, e := 0 } = true := by
  simp only [Binary64.lt, zero_mul, decide_eq_true_eq]
  exact mul_neg_of_neg_of_pos h (by positivity)

set_option maxRecDepth 100000 in
/-- C30: in binary64, for a slice parallel to YZ at the relative centre location 0 with
no rotation, on a bounding box that spans x from -0.2 to 1.6 after `Expand( 0.5 )` (a
shape from x = 0.3 to x = 1.1) and has the extent 3 in z: the numerator
`del_x + 2 * x_off` is `-2 ^ -52`, not 0, so with any maths library whose `atan` is
negative at negative arguments and whose `sin` is zero at zero, the test
`abs( DEG_2_RAD * y_rot ) > atan( ... )` holds for the angle 0, the sine branch is taken,
and the divisor `sin( 0 )` is zero. -/
theorem ComputeSliceSurf_binary64_divides_by_sin_zero (L : MathLib64)
    (hsin : ∀ x : Binary64, x.m = 0 → (L.sin x).m = 0)
    (hatan : ∀ x : Binary64, x.m < 0 → (L.atan x).m < 0) :
    (ComputeSliceSurf_numerator_binary64 (Binary64.roundNearestEven (-2) 10)
      (Binary64.roundNearestEven 16 10) (Binary64.ofInt 0)).toRat = -(1 / 2 ^ 52) ∧
    ∃ d : TrigDivision Binary64,
      ComputeSliceSurf_resize_binary64 L (Binary64.roundNearestEven (-2) 10)
        (Binary64.roundNearestEven 16 10) (Binary64.ofInt 3) (Binary64.ofInt 0)
        (Binary64.ofInt 0) = some d ∧
      d.sine = true ∧ d.angle.m = 0 ∧ d.divisor.m = 0 := by
  have hnum : ComputeSliceSurf_numerator_binary64 (Binary64.roundNearestEven (-2) 10)
      (Binary64.roundNearestEven 16 10) (Binary64.ofInt 0) =
      { m := -4503599627370496, e := -104 } := by rfl
  have hq : ({ m := -4503599627370496, e := -104 } : Binary64).div (Binary64.ofInt 3) =
      some { m := -6004799503160661, e := -106 } := by rfl
  constructor
  · rw [hnum]
    norm_num [Binary64.toRat]
  · have hlt : (L.atan { m := -6004799503160661, e := -106 }).lt
        (L.DEG_2_RAD.mul (Binary64.ofInt 0)).abs = true := by
      rw [Binary64_mul_zero]
      exact Binary64_lt_zero _ (hatan _ (by decide))
    refine ⟨{ sine := true, angle := L.DEG_2_RAD.mul (Binary64.ofInt 0),
              divisor := L.sin (L.DEG_2_RAD.mul (Binary64.ofInt 0)) }, ?_, rfl, ?_, ?_⟩
    · simp only [ComputeSliceSurf_resize_binary64, hnum, hq, hlt, if_true]
    · rw [Binary64_mul_zero]
    · exact hsin _ (by rw [Binary64_mul_zero])

/-- Witness of C30: the maths library of first-order approximations. -/
theorem ComputeSliceSurf_binary64_divides_by_sin_zero_witness :
    (ComputeSliceSurf_numerator_binary64 (Binary64.roundNearestEven (-2) 10)
      (Binary64.roundNearestEven 16 10) (Binary64.ofInt 0)).toRat = -(1 / 2 ^ 52) ∧
    ∃ d : TrigDivision Binary64,
      ComputeSliceSurf_resize_binary64 mathLib64_first_order
        (Binary64.roundNearestEven (-2) 10) (Binary64.roundNearestEven 16 10)
        (Binary64.ofInt 3) (Binary64.ofInt 0) (Binary64.ofInt 0) = some d ∧
      d.sine = true ∧ d.angle.m = 0 ∧ d.divisor.m = 0 :=
  ComputeSliceSurf_binary64_divides_by_sin_zero mathLib64_first_order (fun _ h => h)
    (fun _ h => h)

/-! ## The rib at zero rotation -/

theorem FixPointsAfterParents_append {parts : List PartEntry} (e : PartEntry)
    (h : FixPointsAfterParents parts)
    (hfresh : some e.m_ID ∉ parts.map PartEntry.m_ParentFeaPartID)
    (hparent : ∀ id, e.m_ParentFeaPartID = some id →
      id ≠ e.m_ID ∧ ∃ p ∈ parts, p.m_ID = id) :
    FixPointsAfterParents (parts ++ [e]) := by
  intro i j fix parent hi hj href
  have hlen : ∀ (k : Nat) (x : PartEntry), (parts ++ [e])[k]? = some x →
      (k < parts.length ∧ parts[k]? = some x) ∨ (k = parts.length ∧ x = e) := by
    intro k x hk
    rcases Nat.lt_or_ge k parts.length with hlt | hge
    · left
      rw [List.getElem?_append_left hlt] at hk
      exact ⟨hlt, hk⟩
    · right
      rw [List.getElem?_append_right hge] at hk
      rcases Nat.eq_or_lt_of_le hge with heq | hgt
      · rw [← heq, Nat.sub_self, List.getElem?_cons_zero, Option.some.injEq] at hk
        exact ⟨heq.symm, hk.symm⟩
      · have : 0 < k - parts.length := by omega
        obtain ⟨n, hn⟩ := Nat.exists_eq_succ_of_ne_zero this.ne'
        rw [hn, List.getElem?_cons_succ, List.getElem?_nil] at hk
        exact absurd hk (by simp)
  rcases hlen i fix hi with ⟨hilt, hi'⟩ | ⟨hieq, hfix⟩
  · rcases hlen j parent hj with ⟨_, hj'⟩ | ⟨_, hpar⟩
    · exact h i j fix parent hi' hj' href
    · exfalso
      apply hfresh
      rw [List.mem_map]
      refine ⟨fix, List.mem_iff_getElem?.mpr ⟨i, hi'⟩, ?_⟩
      rw [href, hpar]
  · rcases hlen j parent hj with ⟨hjlt, _⟩ | ⟨_, hpar⟩
    · omega
    · exfalso
      rw [hfix, hpar] at href
      exact (hparent _ href).1 rfl

theorem FixPointsAfterParents_append_members {parts : List PartEntry} (member_type : Int) :
    ∀ (newIDs : List String), FixPointsAfterParents parts →
      (∀ id ∈ newIDs, FreshID parts id) →
      FixPointsAfterParents (parts ++ newIDs.map (PartEntry.member member_type)) ∧
      ∀ id, some id ∈ (parts ++ newIDs.map (PartEntry.member member_type)).map
          PartEntry.m_ParentFeaPartID → some id ∈ parts.map PartEntry.m_ParentFeaPartID := by
  intro newIDs
  induction newIDs using List.reverseRecOn with
  | nil =>
    intro h _
    simp only [List.map_nil, List.append_nil]
    exact ⟨h, fun _ hid => hid⟩
  | append_singleton ids id ih =>
    intro h hfresh
    obtain ⟨h1, h2⟩ := ih h (fun x hx => hfresh x (List.mem_append_left _ hx))
    rw [List.map_append, ← List.append_assoc]
    simp only [List.map_cons, List.map_nil]
    constructor
    · apply FixPointsAfterParents_append _ h1
      · intro hmem
        exact (hfresh id (by simp)).2 (h2 id hmem)
      · intro x hx
        simp [PartEntry.member] at hx
    · intro x hx
      rw [List.map_append, List.mem_append] at hx
      rcases hx with hx | hx
      · exact h2 x hx
      · simp [PartEntry.member] at hx

theorem FixPointsAfterParents_eraseIdx {parts : List PartEntry} (k : Nat)
    (h : FixPointsAfterParents parts) : FixPointsAfterParents (parts.eraseIdx k) := by
  intro i j fix parent hi hj href
  rw [List.getElem?_eraseIdx] at hi hj
  split_ifs at hi hj with h1 h2 h2
  · exact h i j fix parent hi hj href
  · have := h i (j + 1) fix parent hi hj href
    omega
  · have := h (i + 1) j fix parent hi hj href
    omega
  · have := h (i + 1) (j + 1) fix parent hi hj href
    omega

theorem GetFeaSkin_entries_mem (parts : List PartEntry) (skin : PartEntry)
    (h : GetFeaSkin_entries parts = some skin) : skin ∈ parts :=
  List.mem_of_find?_eq_some h

theorem FixPointsAfterParents_AddFeaPart (parts : List PartEntry) (type : Int) (newID : String)
    (h : FixPointsAfterParents parts) (hfresh : FreshID parts newID) :
    FixPointsAfterParents (AddFeaPart_entries parts type newID) := by
  by_cases htype : type = FEA_FIX_POINT
  · cases hskin : GetFeaSkin_entries parts with
    | none =>
      simp only [AddFeaPart_entries, htype, hskin, if_true]
      exact FixPointsAfterParents_append _ h hfresh.2 (fun id hid => by simp at hid)
    | some skin =>
      simp only [AddFeaPart_entries, htype, hskin, if_true]
      have hmem := GetFeaSkin_entries_mem parts skin hskin
      refine FixPointsAfterParents_append _ h hfresh.2 ?_
      intro id hid
      simp only [Option.some.injEq] at hid
      refine ⟨?_, skin, hmem, hid⟩
      rw [← hid]
      intro heq
      exact hfresh.1 (List.mem_map.mpr ⟨skin, hmem, heq⟩)
  · simp only [AddFeaPart_entries, htype, if_false]
    exact FixPointsAfterParents_append _ h hfresh.2 (fun id hid => by simp at hid)

theorem FixPointsAfterParents_DelFeaPart (parts : List PartEntry) (ind : Int)
    (h : FixPointsAfterParents parts) : FixPointsAfterParents (DelFeaPart_entries parts ind) := by
  unfold DelFeaPart_entries
  split_ifs
  · exact FixPointsAfterParents_eraseIdx _ h
  · exact h

theorem FixPointsAfterParents_Individualize (array_type member_type : Int)
    (parts : List PartEntry) (ind : Int) (newIDs : List String)
    (h : FixPointsAfterParents parts) (hfresh : ∀ id ∈ newIDs, FreshID parts id) :
    FixPointsAfterParents (Individualize_entries array_type member_type parts ind newIDs) := by
  unfold Individualize_entries
  by_cases hvalid : ValidFeaPartInd_entries parts ind = true
  · rw [if_neg (not_not.mpr hvalid)]
    cases hprt : parts[ind.toNat]? with
    | none => exact h
    | some prt =>
      simp only
      by_cases htype : prt.m_FeaPartType = array_type
      · rw [if_pos htype]
        exact FixPointsAfterParents_DelFeaPart _ _
          (FixPointsAfterParents_append_members member_type newIDs h hfresh).1
      · rw [if_neg htype]
        exact h
  · rw [if_pos hvalid]
    exact h

/-- C21, counterexample: `AddFeaPart( FEA_FIX_POINT )` on a structure with its skin appends
a fix point that references the skin; `ReorderFeaPart( 1, REORDER_MOVE_TOP )` then moves
the fix point to the head of the list, before the skin, so that `UpdateFeaParts` updates
it first. -/
theorem ReorderFeaPart_moves_fix_point_before_parent :
    ReorderFeaPart_entries (AddFeaPart_entries entries_skin FEA_FIX_POINT "FIX") 1
        REORDER_MOVE_TOP =
      [{ m_ID := "FIX", m_FeaPartType := FEA_FIX_POINT, m_ParentFeaPartID := some "SKIN" },
       { m_ID := "SKIN", m_FeaPartType := FEA_SKIN, m_ParentFeaPartID := none }] ∧
    ¬ FixPointsAfterParents (ReorderFeaPart_entries
        (AddFeaPart_entries entries_skin FEA_FIX_POINT "FIX") 1 REORDER_MOVE_TOP) ∧
    ((structure_skin.AddFeaPart_type FEA_FIX_POINT).ReorderFeaPart 1
        REORDER_MOVE_TOP).m_FeaPartVec.map (fun p => (p.m_FeaPartType, p.cls.kind)) =
      [(FEA_FIX_POINT, 4), (FEA_SKIN, 6)] := by
  have h : ReorderFeaPart_entries (AddFeaPart_entries entries_skin FEA_FIX_POINT "FIX") 1
      REORDER_MOVE_TOP =
      [{ m_ID := "FIX", m_FeaPartType := FEA_FIX_POINT, m_ParentFeaPartID := some "SKIN" },
       { m_ID := "SKIN", m_FeaPartType := FEA_SKIN, m_ParentFeaPartID := none }] := rfl
  refine ⟨h, ?_, rfl⟩
  rw [h]
  intro hinv
  have := hinv 0 1 _ _ rfl rfl rfl
  omega

/-- C21, amended: in every structure reachable through `AddFeaPart`, `DelFeaPart` and the
Individualize operations, without `ReorderFeaPart`, each fix point stands later in the part
list than the part it references, as long as that part is in the list, so that
`UpdateFeaParts`, which updates the parts in list order in a single pass, updates a fix
point only after its referenced parent part has been updated in that pass. -/
theorem fix_points_stand_after_parents (parts : List PartEntry)
    (h : ReachableWithoutReorder parts) : FixPointsAfterParents parts := by
  induction h with
  | constructed =>
    intro i j fix parent hi
    simp at hi
  | InitFeaSkin id =>
    intro i j fix parent hi hj href
    cases i with
    | zero =>
      simp only [List.getElem?_cons_zero, Option.some.injEq] at hi
      rw [← hi] at href
      simp at href
    | succ i => simp at hi
  | AddFeaPart parts type newID _ hfresh ih =>
    exact FixPointsAfterParents_AddFeaPart parts type newID ih hfresh
  | DelFeaPart parts ind _ ih => exact FixPointsAfterParents_DelFeaPart parts ind ih
  | IndividualizeRibArray parts ind newIDs _ hfresh ih =>
    exact FixPointsAfterParents_Individualize _ _ parts ind newIDs ih hfresh
  | IndividualizeSliceArray parts ind newIDs _ hfresh ih =>
    exact FixPointsAfterParents_Individualize _ _ parts ind newIDs ih hfresh

/-- C21, witness: from the skin alone, a rib and then a fix point are added and the rib is
deleted; the fix point, which references the skin, stands after it. -/
theorem fix_points_stand_after_parents_witness :
    DelFeaPart_entries (AddFeaPart_entries (AddFeaPart_entries entries_skin FEA_RIB "RIB")
        FEA_FIX_POINT "FIX") 1 =
      [{ m_ID := "SKIN", m_FeaPartType := FEA_SKIN, m_ParentFeaPartID := none },
       { m_ID := "FIX", m_FeaPartType := FEA_FIX_POINT, m_ParentFeaPartID := some "SKIN" }] ∧
    FixPointsAfterParents (DelFeaPart_entries (AddFeaPart_entries
      (AddFeaPart_entries entries_skin FEA_RIB "RIB") FEA_FIX_POINT "FIX") 1) :=
  ⟨rfl, fix_points_stand_after_parents _
    (ReachableWithoutReorder.DelFeaPart _ 1
      (ReachableWithoutReorder.AddFeaPart _ FEA_FIX_POINT "FIX"
        (ReachableWithoutReorder.AddFeaPart _ FEA_RIB "RIB"
          (ReachableWithoutReorder.InitFeaSkin "SKIN")
          (by simp [FreshID, entries_skin]))
        (by simp [FreshID, entries_skin, AddFeaPart_entries, GetFeaSkin_entries, FEA_RIB,
          FEA_FIX_POINT, FEA_SKIN])))⟩

/-! ## Reordering with one of the four action codes -/

theorem ReorderFeaPart_swap_cons {α : Type} (down up : Bool) (ind i : Nat) (x y : α)
    (tl : List α) :
    ReorderFeaPart_swap down up ind i false (x :: y :: tl) =
      (if (down ∧ i = ind) ∨ (up ∧ i + 1 = ind) then
        y :: x :: ReorderFeaPart_swap down up ind (i + 1) true (y :: tl)
      else x :: ReorderFeaPart_swap down up ind (i + 1) false (y :: tl)) ∧
    ReorderFeaPart_swap down up ind i true (x :: y :: tl) =
      ReorderFeaPart_swap down up ind (i + 1) false (y :: tl) ∧
    ReorderFeaPart_swap down up ind i false [x] = [x] ∧
    ReorderFeaPart_swap down up ind i true [x] = [] :=
  ⟨rfl, rfl, rfl, rfl⟩

theorem ReorderFeaPart_swap_perm {α : Type} (down up : Bool) (ind : Nat) :
    ∀ (l : List α) (i : Nat),
      (ReorderFeaPart_swap down up ind i false l).Perm l ∧
      (ReorderFeaPart_swap down up ind i true l).Perm l.tail := by
  intro l
  induction l with
  | nil =>
    intro i
    exact ⟨List.Perm.refl _, List.Perm.refl _⟩
  | cons x tl ih =>
    intro i
    cases tl with
    | nil =>
      obtain ⟨-, -, e3, e4⟩ := ReorderFeaPart_swap_cons down up ind i x x ([] : List α)
      rw [e3, e4]
      exact ⟨List.Perm.refl _, List.Perm.refl _⟩
    | cons y tl2 =>
      obtain ⟨e1, e2, -, -⟩ := ReorderFeaPart_swap_cons down up ind i x y tl2
      rw [e1, e2]
      constructor
      · split_ifs
        · have h := (ih (i + 1)).2
          simp only [List.tail_cons] at h
          exact ((h.cons x).cons y).trans (List.Perm.swap x y tl2)
        · exact ((ih (i + 1)).1).cons x
      · exact (ih (i + 1)).1

theorem eraseIdx_perm {α : Type} (l : List α) (k : Nat) (x : α) (h : l[k]? = some x) :
    (x :: l.eraseIdx k).Perm l ∧ (l.eraseIdx k ++ [x]).Perm l := by
  have hk : k < l.length := by
    by_contra hn
    rw [List.getElem?_eq_none (not_lt.mp hn)] at h
    exact absurd h (by simp)
  have hx : l[k] = x := by
    rw [List.getElem?_eq_getElem hk, Option.some.injEq] at h
    exact h
  have hsplit : l = l.take k ++ x :: l.drop (k + 1) := by
    rw [← hx, ← List.drop_eq_getElem_cons hk, List.take_append_drop]
  have herase : l.eraseIdx k = l.take k ++ l.drop (k + 1) := List.eraseIdx_eq_take_drop_succ l k
  have h1 : (x :: l.eraseIdx k).Perm l := by
    rw [herase]
    nth_rewrite 3 [hsplit]
    exact List.perm_middle.symm
  exact ⟨h1, (List.perm_append_singleton x _).trans h1⟩

theorem Reorder_list_perm {α : Type} (l : List α) (k : Nat) (action : Int) (hk : k < l.length)
    (haction : action = REORDER_MOVE_UP ∨ action = REORDER_MOVE_DOWN ∨
      action = REORDER_MOVE_TOP ∨ action = REORDER_MOVE_BOTTOM) :
    (if action = REORDER_MOVE_TOP ∨ action = REORDER_MOVE_BOTTOM then
        (if action = REORDER_MOVE_TOP then (l[k]?).toList else []) ++ l.eraseIdx k ++
          (if action = REORDER_MOVE_BOTTOM then (l[k]?).toList else [])
      else if action = REORDER_MOVE_UP ∨ action = REORDER_MOVE_DOWN then
        ReorderFeaPart_swap (decide (action = REORDER_MOVE_DOWN))
          (decide (action = REORDER_MOVE_UP)) k 0 false l
      else []).Perm l := by
  have hget : l[k]? = some l[k] := List.getElem?_eq_getElem hk
  obtain ⟨p1, p2⟩ := eraseIdx_perm l k l[k] hget
  rcases haction with h | h | h | h
  · rw [h]
    simp only [REORDER_MOVE_UP, REORDER_MOVE_TOP, REORDER_MOVE_BOTTOM, REORDER_MOVE_DOWN]
    norm_num
    exact (ReorderFeaPart_swap_perm _ _ _ l 0).1
  · rw [h]
    simp only [REORDER_MOVE_UP, REORDER_MOVE_TOP, REORDER_MOVE_BOTTOM, REORDER_MOVE_DOWN]
    norm_num
    exact (ReorderFeaPart_swap_perm _ _ _ l 0).1
  · rw [h]
    simp only [REORDER_MOVE_UP, REORDER_MOVE_TOP, REORDER_MOVE_BOTTOM, REORDER_MOVE_DOWN]
    norm_num [hget]
    exact p1
  · rw [h]
    simp only [REORDER_MOVE_UP, REORDER_MOVE_TOP, REORDER_MOVE_BOTTOM, REORDER_MOVE_DOWN]
    norm_num [hget]
    exact p2

/-- C27, amended: for every part list of distinct parts, every valid index and each of the
four action codes `REORDER_MOVE_UP`, `REORDER_MOVE_DOWN`, `REORDER_MOVE_TOP` and
`REORDER_MOVE_BOTTOM`, `ReorderFeaPart` (and likewise `ReorderFeaSubSurf`) leaves a list
that is a permutation of the original: the same length and the same elements, none dropped
and none duplicated. -/
theorem Reorder_valid_action_is_permutation {Core : Type} (st : FeaStructure Core)
    (ind action : Int)
    (haction : action = REORDER_MOVE_UP ∨ action = REORDER_MOVE_DOWN ∨
      action = REORDER_MOVE_TOP ∨ action = REORDER_MOVE_BOTTOM) :
    (st.ValidFeaPartInd ind = true →
      (st.ReorderFeaPart ind action).m_FeaPartVec.Perm st.m_FeaPartVec) ∧
    (st.ValidFeaSubSurfInd ind = true →
      (st.ReorderFeaSubSurf ind action).m_FeaSubSurfVec.Perm st.m_FeaSubSurfVec) := by
  constructor
  · intro hvalid
    have hk : ind.toNat < st.m_FeaPartVec.length := by
      simp only [FeaStructure.ValidFeaPartInd, decide_eq_true_eq] at hvalid
      omega
    simp only [FeaStructure.ReorderFeaPart, hvalid, not_true_eq_false, if_false]
    exact Reorder_list_perm st.m_FeaPartVec ind.toNat action hk haction
  · intro hvalid
    have hk : ind.toNat < st.m_FeaSubSurfVec.length := by
      simp only [FeaStructure.ValidFeaSubSurfInd, decide_eq_true_eq] at hvalid
      omega
    simp only [FeaStructure.ReorderFeaSubSurf, hvalid, not_true_eq_false, if_false]
    exact Reorder_list_perm st.m_FeaSubSurfVec ind.toNat action hk haction

/-- C27, witness: the part at index 1 of the sample structure with three parts and two
sub-surfaces is moved to the head of the list. -/
theorem Reorder_valid_action_is_permutation_witness :
    (structure_with_subsurfs.ReorderFeaPart 1 REORDER_MOVE_TOP).m_FeaPartVec.map
        (fun p => p.m_Name) = ["RibArray_0", "Skin", "SliceArray_1"] ∧
    (structure_with_subsurfs.ReorderFeaPart 1 REORDER_MOVE_TOP).m_FeaPartVec.Perm
      structure_with_subsurfs.m_FeaPartVec ∧
    (structure_with_subsurfs.ReorderFeaSubSurf 1 REORDER_MOVE_TOP).m_FeaSubSurfVec.Perm
      structure_with_subsurfs.m_FeaSubSurfVec :=
  ⟨rfl,
   (Reorder_valid_action_is_permutation structure_with_subsurfs 1 REORDER_MOVE_TOP
      (Or.inr (Or.inr (Or.inl rfl)))).1 rfl,
   (Reorder_valid_action_is_permutation structure_with_subsurfs 1 REORDER_MOVE_TOP
      (Or.inr (Or.inr (Or.inl rfl)))).2 rfl⟩

end OpenVSP
